import Mathlib

/-!
# Verification of the CAD geometry kernel

Shallow embedding of the parametric CAD geometry kernel: geometric
primitives (`Point`, `Vector`, `Plane`, `Transform`), 2D sketch elements
(`Line`, `Arc`, `Circle`), the B-Rep topological kernel (`Vertex`, `Edge`,
`Face`, `BoundaryRepresentation`), the solid-construction operations
(`extrude`, `revolve`), the constraint solver, and the feature-dependency
validation.  Each definition is translated from the corresponding source
function.

Numeric model: the source computes on IEEE doubles, which are rational
numbers, so scalars are embedded as `ℚ`.  The handful of irrational host
operations (`Math.sqrt`, trigonometry, `Math.PI`) are kept abstract as a
bundled record `NumOps` of rational functions; the record carries the two
facts of `Math.sqrt` the proofs rely on (non-negativity, and exactness on
inputs whose root is exactly representable).  Entity ids, produced in the
source as unique random strings, are modelled as distinct natural numbers
assigned in creation order; a JS `Map` is modelled as an association list
with insert-or-replace semantics (`mapSet`), which preserves insertion
order exactly like the source `Map`.
-/

namespace CadKernel

/-- Abstract numeric host operations (`Math.sqrt`, `Math.sin`, `Math.cos`,
`Math.tan`, `Math.atan2`, `Math.PI`).  All of them map doubles to doubles,
hence rationals to rationals.  `sqrt_nonneg` and `sqrt_exact` record the
two properties of `Math.sqrt` used in proofs: the result is never negative,
and square roots that are exactly representable are computed exactly. -/
structure NumOps where
  sqrt : ℚ → ℚ
  sin : ℚ → ℚ
  cos : ℚ → ℚ
  tan : ℚ → ℚ
  atan2 : ℚ → ℚ → ℚ
  pi : ℚ
  sqrt_nonneg : ∀ q, 0 ≤ sqrt q
  sqrt_exact : ∀ q r, 0 ≤ r → r * r = q → sqrt q = r

/-- Exact rational square root: returns the exact root when the argument is
a square of a rational, `0` otherwise.  Used only to instantiate `NumOps`
for concrete witness computations. -/
def ratSqrt (q : ℚ) : ℚ :=
  if 0 ≤ q.num ∧ Nat.sqrt q.num.toNat * Nat.sqrt q.num.toNat = q.num.toNat ∧
      Nat.sqrt q.den * Nat.sqrt q.den = q.den
  then ((Nat.sqrt q.num.toNat : ℚ)) / ((Nat.sqrt q.den : ℚ)) else 0

/-- A concrete `NumOps` used by witnesses: exact square root, zero-valued
trigonometry (no verified scenario depends on trigonometric values). -/
def ratOps : NumOps where
  sqrt := ratSqrt
  sin := fun _ => 0
  cos := fun _ => 0
  tan := fun _ => 0
  atan2 := fun _ _ => 0
  pi := 0
  sqrt_nonneg := by
    intro q
    unfold ratSqrt
    split
    · positivity
    · exact le_refl 0
  sqrt_exact := by
    intro q r hr hrq
    have hnum : q.num = r.num * r.num := by rw [← hrq, Rat.mul_self_num]
    have hden : q.den = r.den * r.den := by rw [← hrq, Rat.mul_self_den]
    have hrnum : 0 ≤ r.num := Rat.num_nonneg.mpr hr
    have ha : ((r.num.toNat : ℤ)) = r.num := Int.toNat_of_nonneg hrnum
    have hnumtn : q.num.toNat = r.num.toNat * r.num.toNat := by
      rw [hnum, ← ha]
      norm_cast
    unfold ratSqrt
    rw [if_pos]
    · have h1 : Nat.sqrt q.num.toNat = r.num.toNat := by
        rw [hnumtn, Nat.sqrt_eq]
      have h2 : Nat.sqrt q.den = r.den := by
        rw [hden, Nat.sqrt_eq]
      rw [h1, h2]
      rw [show ((r.num.toNat : ℚ)) = (r.num : ℚ) by
        rw [← Int.toNat_of_nonneg hrnum]; push_cast; rfl]
      exact_mod_cast Rat.num_div_den r
    · refine ⟨by rw [hnum]; positivity, ?_, ?_⟩
      · rw [hnumtn, Nat.sqrt_eq]
      · rw [hden, Nat.sqrt_eq]

/-- Default tolerance used throughout the source (`1e-6`). -/
def defaultTolerance : ℚ := 1 / 1000000

/-- `Point` (Point.ts): a 3-component value type. -/
structure Point where
  x : ℚ
  y : ℚ
  z : ℚ
deriving DecidableEq, Repr

namespace Point

/-- `Point.distanceTo`: Euclidean distance (via `Math.sqrt`). -/
def distanceTo (ops : NumOps) (p other : Point) : ℚ :=
  ops.sqrt ((p.x - other.x) * (p.x - other.x) + (p.y - other.y) * (p.y - other.y) +
    (p.z - other.z) * (p.z - other.z))

/-- `Point.add`. -/
def add (p other : Point) : Point := ⟨p.x + other.x, p.y + other.y, p.z + other.z⟩

/-- `Point.subtract`. -/
def subtract (p other : Point) : Point := ⟨p.x - other.x, p.y - other.y, p.z - other.z⟩

/-- `Point.scale`. -/
def scale (p : Point) (s : ℚ) : Point := ⟨p.x * s, p.y * s, p.z * s⟩

/-- `Point.dot` (treating the point as a vector). -/
def dot (p other : Point) : ℚ := p.x * other.x + p.y * other.y + p.z * other.z

/-- `Point.equals`: componentwise comparison within a tolerance. -/
def equals (p other : Point) (tolerance : ℚ) : Prop :=
  |p.x - other.x| < tolerance ∧ |p.y - other.y| < tolerance ∧ |p.z - other.z| < tolerance

instance (p other : Point) (tolerance : ℚ) : Decidable (equals p other tolerance) := by
  unfold equals; infer_instance

end Point

/-- `Vector` (Vector.ts): a 3-component direction/displacement. -/
structure Vector where
  x : ℚ
  y : ℚ
  z : ℚ
deriving DecidableEq, Repr

namespace Vector

/-- `Vector.length` (via `Math.sqrt`). -/
def length (ops : NumOps) (v : Vector) : ℚ :=
  ops.sqrt (v.x * v.x + v.y * v.y + v.z * v.z)

/-- `Vector.normalize`: zero-length vectors normalize to the zero vector. -/
def normalize (ops : NumOps) (v : Vector) : Vector :=
  if length ops v = 0 then ⟨0, 0, 0⟩
  else ⟨v.x / length ops v, v.y / length ops v, v.z / length ops v⟩

/-- `Vector.add`. -/
def add (v other : Vector) : Vector := ⟨v.x + other.x, v.y + other.y, v.z + other.z⟩

/-- `Vector.subtract`. -/
def subtract (v other : Vector) : Vector := ⟨v.x - other.x, v.y - other.y, v.z - other.z⟩

/-- `Vector.multiply` (scalar multiple; `scale` is an alias in the source). -/
def multiply (v : Vector) (s : ℚ) : Vector := ⟨v.x * s, v.y * s, v.z * s⟩

/-- `Vector.dot`. -/
def dot (v other : Vector) : ℚ := v.x * other.x + v.y * other.y + v.z * other.z

/-- `Vector.cross`. -/
def cross (v other : Vector) : Vector :=
  ⟨v.y * other.z - v.z * other.y,
   v.z * other.x - v.x * other.z,
   v.x * other.y - v.y * other.x⟩

/-- `Vector.fromPoints`. -/
def fromPoints (a b : Point) : Vector := ⟨b.x - a.x, b.y - a.y, b.z - a.z⟩

end Vector

/-- `Plane` (Plane.ts): an origin plus a (documented-orthonormal) frame. -/
structure Plane where
  origin : Point
  normal : Vector
  uAxis : Vector
  vAxis : Vector
deriving DecidableEq, Repr

namespace Plane

/-- The `Plane` constructor: normalizes the normal and either normalizes
the provided u axis or derives an arbitrary frame with cross products. -/
def create (ops : NumOps) (origin : Point) (normal : Vector) (uAxis : Option Vector) : Plane :=
  let n := normal.normalize ops
  match uAxis with
  | some u =>
    let uN := u.normalize ops
    ⟨origin, n, uN, (n.cross uN).normalize ops⟩
  | none =>
    let tempVector := if |n.x| < 9 / 10 then (⟨1, 0, 0⟩ : Vector) else ⟨0, 1, 0⟩
    let u := (n.cross tempVector).normalize ops
    ⟨origin, n, u, (n.cross u).normalize ops⟩

/-- `Plane.distanceToPoint`: signed distance along the normal. -/
def distanceToPoint (pl : Plane) (point : Point) : ℚ :=
  (Vector.fromPoints pl.origin point).dot pl.normal

/-- `Plane.projectPoint`: drop the normal component. -/
def projectPoint (pl : Plane) (point : Point) : Point :=
  let distance := pl.distanceToPoint point
  let projection := pl.normal.multiply distance
  point.subtract ⟨projection.x, projection.y, projection.z⟩

/-- `Plane.worldToPlane`: project, then take (u, v) coordinates. -/
def worldToPlane (pl : Plane) (point : Point) : Point :=
  let projected := pl.projectPoint point
  let vector := Vector.fromPoints pl.origin projected
  ⟨vector.dot pl.uAxis, vector.dot pl.vAxis, 0⟩

/-- `Plane.planeToWorld`: origin plus u/v combination. -/
def planeToWorld (pl : Plane) (planePoint : Point) : Point :=
  let worldVector := (pl.uAxis.multiply planePoint.x).add (pl.vAxis.multiply planePoint.y)
  pl.origin.add ⟨worldVector.x, worldVector.y, worldVector.z⟩

/-- `Plane.XY()` as the source constructor computes it. -/
def planeXY : Plane := create ratOps ⟨0, 0, 0⟩ ⟨0, 0, 1⟩ none

end Plane

/-- Threshold `1e-10` used by `Transform` for singular matrices and
degenerate homogeneous coordinates. -/
def transformEps : ℚ := 1 / 10000000000

/-- `Transform` (Transform.ts): a 4×4 homogeneous matrix, row-major. -/
structure Transform where
  m00 : ℚ
  m01 : ℚ
  m02 : ℚ
  m03 : ℚ
  m10 : ℚ
  m11 : ℚ
  m12 : ℚ
  m13 : ℚ
  m20 : ℚ
  m21 : ℚ
  m22 : ℚ
  m23 : ℚ
  m30 : ℚ
  m31 : ℚ
  m32 : ℚ
  m33 : ℚ
deriving DecidableEq, Repr

namespace Transform

/-- `Transform.transformPoint`: homogeneous transform followed by the
perspective division; the source throws when the w component is below
`1e-10` in magnitude, modelled by `none`. -/
def transformPoint (t : Transform) (p : Point) : Option Point :=
  if |t.m30 * p.x + t.m31 * p.y + t.m32 * p.z + t.m33| < transformEps then none
  else some
    ⟨(t.m00 * p.x + t.m01 * p.y + t.m02 * p.z + t.m03) /
       (t.m30 * p.x + t.m31 * p.y + t.m32 * p.z + t.m33),
     (t.m10 * p.x + t.m11 * p.y + t.m12 * p.z + t.m13) /
       (t.m30 * p.x + t.m31 * p.y + t.m32 * p.z + t.m33),
     (t.m20 * p.x + t.m21 * p.y + t.m22 * p.z + t.m23) /
       (t.m30 * p.x + t.m31 * p.y + t.m32 * p.z + t.m33)⟩

/-- `Transform.determinant`: cofactor expansion along the first row. -/
def determinant (t : Transform) : ℚ :=
  t.m00 * (t.m11 * (t.m22 * t.m33 - t.m23 * t.m32) - t.m12 * (t.m21 * t.m33 - t.m23 * t.m31) +
      t.m13 * (t.m21 * t.m32 - t.m22 * t.m31)) -
  t.m01 * (t.m10 * (t.m22 * t.m33 - t.m23 * t.m32) - t.m12 * (t.m20 * t.m33 - t.m23 * t.m30) +
      t.m13 * (t.m20 * t.m32 - t.m22 * t.m30)) +
  t.m02 * (t.m10 * (t.m21 * t.m33 - t.m23 * t.m31) - t.m11 * (t.m20 * t.m33 - t.m23 * t.m30) +
      t.m13 * (t.m20 * t.m31 - t.m21 * t.m30)) -
  t.m03 * (t.m10 * (t.m21 * t.m32 - t.m22 * t.m31) - t.m11 * (t.m20 * t.m32 - t.m22 * t.m30) +
      t.m12 * (t.m20 * t.m31 - t.m21 * t.m30))

/-- `Transform.inverse`: fails (`none`, the source throws) when
`|determinant| < 1e-10`; otherwise the adjugate divided by the
determinant, with the entries exactly as spelled out in the source. -/
def inverse (t : Transform) : Option Transform :=
  if |t.determinant| < transformEps then none
  else some
    ⟨(t.m11 * (t.m22 * t.m33 - t.m23 * t.m32) - t.m12 * (t.m21 * t.m33 - t.m23 * t.m31) +
        t.m13 * (t.m21 * t.m32 - t.m22 * t.m31)) / t.determinant,
     (-(t.m01 * (t.m22 * t.m33 - t.m23 * t.m32) - t.m02 * (t.m21 * t.m33 - t.m23 * t.m31) +
        t.m03 * (t.m21 * t.m32 - t.m22 * t.m31))) / t.determinant,
     (t.m01 * (t.m12 * t.m33 - t.m13 * t.m32) - t.m02 * (t.m11 * t.m33 - t.m13 * t.m31) +
        t.m03 * (t.m11 * t.m32 - t.m12 * t.m31)) / t.determinant,
     (-(t.m01 * (t.m12 * t.m23 - t.m13 * t.m22) - t.m02 * (t.m11 * t.m23 - t.m13 * t.m21) +
        t.m03 * (t.m11 * t.m22 - t.m12 * t.m21))) / t.determinant,
     (-(t.m10 * (t.m22 * t.m33 - t.m23 * t.m32) - t.m12 * (t.m20 * t.m33 - t.m23 * t.m30) +
        t.m13 * (t.m20 * t.m32 - t.m22 * t.m30))) / t.determinant,
     (t.m00 * (t.m22 * t.m33 - t.m23 * t.m32) - t.m02 * (t.m20 * t.m33 - t.m23 * t.m30) +
        t.m03 * (t.m20 * t.m32 - t.m22 * t.m30)) / t.determinant,
     (-(t.m00 * (t.m12 * t.m33 - t.m13 * t.m32) - t.m02 * (t.m10 * t.m33 - t.m13 * t.m30) +
        t.m03 * (t.m10 * t.m32 - t.m12 * t.m30))) / t.determinant,
     (t.m00 * (t.m12 * t.m23 - t.m13 * t.m22) - t.m02 * (t.m10 * t.m23 - t.m13 * t.m20) +
        t.m03 * (t.m10 * t.m22 - t.m12 * t.m20)) / t.determinant,
     (t.m10 * (t.m21 * t.m33 - t.m23 * t.m31) - t.m11 * (t.m20 * t.m33 - t.m23 * t.m30) +
        t.m13 * (t.m20 * t.m31 - t.m21 * t.m30)) / t.determinant,
     (-(t.m00 * (t.m21 * t.m33 - t.m23 * t.m31) - t.m01 * (t.m20 * t.m33 - t.m23 * t.m30) +
        t.m03 * (t.m20 * t.m31 - t.m21 * t.m30))) / t.determinant,
     (t.m00 * (t.m11 * t.m33 - t.m13 * t.m31) - t.m01 * (t.m10 * t.m33 - t.m13 * t.m30) +
        t.m03 * (t.m10 * t.m31 - t.m11 * t.m30)) / t.determinant,
     (-(t.m00 * (t.m11 * t.m23 - t.m13 * t.m21) - t.m01 * (t.m10 * t.m23 - t.m13 * t.m20) +
        t.m03 * (t.m10 * t.m21 - t.m11 * t.m20))) / t.determinant,
     (-(t.m10 * (t.m21 * t.m32 - t.m22 * t.m31) - t.m11 * (t.m20 * t.m32 - t.m22 * t.m30) +
        t.m12 * (t.m20 * t.m31 - t.m21 * t.m30))) / t.determinant,
     (t.m00 * (t.m21 * t.m32 - t.m22 * t.m31) - t.m01 * (t.m20 * t.m32 - t.m22 * t.m30) +
        t.m02 * (t.m20 * t.m31 - t.m21 * t.m30)) / t.determinant,
     (-(t.m00 * (t.m11 * t.m32 - t.m12 * t.m31) - t.m01 * (t.m10 * t.m32 - t.m12 * t.m30) +
        t.m02 * (t.m10 * t.m31 - t.m11 * t.m30))) / t.determinant,
     (t.m00 * (t.m11 * t.m22 - t.m12 * t.m21) - t.m01 * (t.m10 * t.m22 - t.m12 * t.m20) +
        t.m02 * (t.m10 * t.m21 - t.m11 * t.m20)) / t.determinant⟩

/-- `Transform.translation`. -/
def translation (x y z : ℚ) : Transform :=
  ⟨1, 0, 0, x, 0, 1, 0, y, 0, 0, 1, z, 0, 0, 0, 1⟩

end Transform

/-- `Line` (GeometryElement.ts): a segment with two control points. -/
structure Line where
  startPoint : Point
  endPoint : Point
deriving DecidableEq, Repr

namespace Line

/-- The `Line` constructor (clones both end points). -/
def make (startPoint endPoint : Point) : Line := ⟨startPoint, endPoint⟩

/-- `Line.getControlPoints`. -/
def getControlPoints (l : Line) : List Point := [l.startPoint, l.endPoint]

/-- `Line.updateFromPoints`: requires at least two points, otherwise a no-op. -/
def updateFromPoints (l : Line) (points : List Point) : Line :=
  match points with
  | p0 :: p1 :: _ => ⟨p0, p1⟩
  | _ => l

/-- `Line.getLength`. -/
def getLength (ops : NumOps) (l : Line) : ℚ := l.startPoint.distanceTo ops l.endPoint

/-- `Line.isValid`: degenerate iff the two end points coincide within the
default tolerance. -/
def isValid (l : Line) : Prop := ¬ l.startPoint.equals l.endPoint defaultTolerance

instance (l : Line) : Decidable l.isValid := by unfold isValid; infer_instance

end Line

/-- `Arc` (GeometryElement.ts): centre, radius and two angles in radians. -/
structure Arc where
  center : Point
  radius : ℚ
  startAngle : ℚ
  endAngle : ℚ
deriving DecidableEq, Repr

namespace Arc

/-- The `Arc` constructor: stores the absolute value of the radius. -/
def make (center : Point) (radius startAngle endAngle : ℚ) : Arc :=
  ⟨center, |radius|, startAngle, endAngle⟩

/-- `Arc.getPointAt`. -/
def getPointAt (ops : NumOps) (a : Arc) (t : ℚ) : Point :=
  let angle := a.startAngle + t * (a.endAngle - a.startAngle)
  ⟨a.center.x + a.radius * ops.cos angle, a.center.y + a.radius * ops.sin angle, a.center.z⟩

/-- `Arc.getControlPoints`: centre, start point, end point. -/
def getControlPoints (ops : NumOps) (a : Arc) : List Point :=
  [a.center, a.getPointAt ops 0, a.getPointAt ops 1]

/-- `Arc.updateFromPoints`: requires at least three points (centre, start,
end); recomputes the radius as a centre-to-start distance and the angles
with `Math.atan2`. -/
def updateFromPoints (ops : NumOps) (a : Arc) (points : List Point) : Arc :=
  match points with
  | p0 :: p1 :: p2 :: _ =>
    ⟨p0, p0.distanceTo ops p1,
     ops.atan2 (p1.y - p0.y) (p1.x - p0.x),
     ops.atan2 (p2.y - p0.y) (p2.x - p0.x)⟩
  | _ => a

/-- `Arc.getLength`: radius times the (wrapped-positive) swept angle. -/
def getLength (ops : NumOps) (a : Arc) : ℚ :=
  let angle := a.endAngle - a.startAngle
  if angle < 0 then a.radius * (angle + 2 * ops.pi) else a.radius * angle

/-- `Arc.isValid`: positive radius and distinct start/end angles. -/
def isValid (a : Arc) : Prop := a.radius > 0 ∧ a.startAngle ≠ a.endAngle

instance (a : Arc) : Decidable a.isValid := by unfold isValid; infer_instance

end Arc

/-- `Circle` (GeometryElement.ts): centre and radius. -/
structure Circle where
  center : Point
  radius : ℚ
deriving DecidableEq, Repr

namespace Circle

/-- The `Circle` constructor: stores the absolute value of the radius. -/
def make (center : Point) (radius : ℚ) : Circle := ⟨center, |radius|⟩

/-- `Circle.getControlPoints`: centre and the point at angle zero. -/
def getControlPoints (c : Circle) : List Point :=
  [c.center, ⟨c.center.x + c.radius, c.center.y, c.center.z⟩]

/-- `Circle.updateFromPoints`: requires at least two points; recomputes the
radius as a centre-to-rim distance. -/
def updateFromPoints (ops : NumOps) (c : Circle) (points : List Point) : Circle :=
  match points with
  | p0 :: p1 :: _ => ⟨p0, p0.distanceTo ops p1⟩
  | _ => c

/-- `Circle.getLength`: the circumference. -/
def getLength (ops : NumOps) (c : Circle) : ℚ := 2 * ops.pi * c.radius

/-- `Circle.isValid`: positive radius. -/
def isValid (c : Circle) : Prop := c.radius > 0

instance (c : Circle) : Decidable c.isValid := by unfold isValid; infer_instance

end Circle

/-- `GeometryElement`: the polymorphic sketch-element variants. -/
inductive GeometryElement where
  | line (l : Line)
  | arc (a : Arc)
  | circle (c : Circle)
deriving DecidableEq, Repr

namespace GeometryElement

/-- Polymorphic `getControlPoints` dispatch. -/
def getControlPoints (ops : NumOps) : GeometryElement → List Point
  | line l => l.getControlPoints
  | arc a => a.getControlPoints ops
  | circle c => c.getControlPoints

/-- Polymorphic `updateFromPoints` dispatch. -/
def updateFromPoints (ops : NumOps) : GeometryElement → List Point → GeometryElement
  | line l, points => line (l.updateFromPoints points)
  | arc a, points => arc (a.updateFromPoints ops points)
  | circle c, points => circle (c.updateFromPoints ops points)

/-- Polymorphic `getLength` dispatch. -/
def getLength (ops : NumOps) : GeometryElement → ℚ
  | line l => l.getLength ops
  | arc a => a.getLength ops
  | circle c => c.getLength ops

/-- Polymorphic `getPointAt` dispatch (only the cases the verified
scenarios exercise; lines interpolate, arcs sweep, circles wind). -/
def getPointAt (ops : NumOps) : GeometryElement → ℚ → Point
  | line l, t =>
    ⟨l.startPoint.x + (l.endPoint.x - l.startPoint.x) * t,
     l.startPoint.y + (l.endPoint.y - l.startPoint.y) * t,
     l.startPoint.z + (l.endPoint.z - l.startPoint.z) * t⟩
  | arc a, t => a.getPointAt ops t
  | circle c, t =>
    ⟨c.center.x + c.radius * ops.cos (t * (2 * ops.pi)),
     c.center.y + c.radius * ops.sin (t * (2 * ops.pi)), c.center.z⟩

/-- Polymorphic `isValid` dispatch. -/
def isValid : GeometryElement → Prop
  | line l => l.isValid
  | arc a => a.isValid
  | circle c => c.isValid

instance (e : GeometryElement) : Decidable e.isValid := by
  cases e <;> (unfold isValid; infer_instance)

end GeometryElement

/-- JS `Map.set` on an association list: replace in place when the key is
present (keeping its position), append otherwise — exactly the iteration
order a JS `Map` maintains. -/
def mapSet {K V : Type} [DecidableEq K] : List (K × V) → K → V → List (K × V)
  | [], k, v => [(k, v)]
  | (k', v') :: t, k, v => if k' = k then (k, v) :: t else (k', v') :: mapSet t k v

/-- JS `Map.get`. -/
def mapLookup {K V : Type} [DecidableEq K] : List (K × V) → K → Option V
  | [], _ => none
  | (k', v') :: t, k => if k' = k then some v' else mapLookup t k

/-- JS `Map.values()` in insertion order. -/
def mapValues {K V : Type} (m : List (K × V)) : List V := m.map Prod.snd

instance : Inhabited Point := ⟨⟨0, 0, 0⟩⟩

/-- `Vertex` (BoundaryRepresentation.ts): id plus owned point. -/
structure Vertex where
  id : ℕ
  point : Point
deriving DecidableEq, Repr

instance : Inhabited Vertex := ⟨⟨0, default⟩⟩

/-- `Edge` (BoundaryRepresentation.ts): id plus two vertex references. -/
structure Edge where
  id : ℕ
  startVertex : Vertex
  endVertex : Vertex
deriving DecidableEq, Repr

instance : Inhabited Edge := ⟨⟨0, default, default⟩⟩

/-- `Face` (BoundaryRepresentation.ts): id, ordered outer loop, inner
loops, cached normal (computed once at construction; `none` when the loop
has fewer than three edges) and cached area (`none` until `computeArea`
runs, mirroring the `undefined` field). -/
structure Face where
  id : ℕ
  outerLoop : List Edge
  innerLoops : List (List Edge)
  normal : Option Vector
  area : Option ℚ
deriving DecidableEq, Repr

namespace Face

/-- The `Face` constructor: copies the loop, no inner loops, computes the
normal from the first two edges when the loop has at least three edges
(the source returns early otherwise, leaving `normal` undefined), and
leaves the area unset. -/
def make (ops : NumOps) (id : ℕ) (outerLoop : List Edge) : Face :=
  { id := id
    outerLoop := outerLoop
    innerLoops := []
    normal :=
      match outerLoop with
      | e0 :: e1 :: _ :: _ =>
        some (((Vector.fromPoints e0.startVertex.point e0.endVertex.point).cross
          (Vector.fromPoints e0.startVertex.point e1.endVertex.point)).normalize ops)
      | _ => none
    area := none }

/-- `Face.getVertices`: all vertices of the loops, deduplicated by id in
first-visit order. -/
def getVertices (f : Face) : List Vertex :=
  (f.outerLoop ++ f.innerLoops.flatten).foldl
    (fun acc e =>
      let acc2 := if acc.any (fun v => v.id == e.startVertex.id) then acc
        else acc ++ [e.startVertex]
      if acc2.any (fun v => v.id == e.endVertex.id) then acc2 else acc2 ++ [e.endVertex])
    []

/-- `Face.getEdges`: outer loop then inner loops. -/
def getEdges (f : Face) : List Edge := f.outerLoop ++ f.innerLoops.flatten

/-- The shoelace accumulation of `Face.computeArea` over the loop's start
vertices: projects on the xy plane (the z coordinate is ignored). -/
def shoelace (pts : List Point) : ℚ :=
  (List.range pts.length).foldl
    (fun acc i =>
      acc + (pts.get! i).x * (pts.get! ((i + 1) % pts.length)).y -
        (pts.get! ((i + 1) % pts.length)).x * (pts.get! i).y)
    0

/-- `Face.computeArea`: zero for degenerate loops (area left unset, as in
the source's early return); otherwise half the absolute xy-shoelace sum,
cached on the face.  Returns the value and the updated face. -/
def computeArea (f : Face) : ℚ × Face :=
  if f.outerLoop.length < 3 then (0, f)
  else
    let area := |shoelace (f.outerLoop.map (fun e => e.startVertex.point))| / 2
    (area, { f with area := some area })

/-- Closed-chain check used by `Face.isValid`: every edge's end vertex
coincides (within tolerance) with the next edge's start vertex, wrapping. -/
def chainClosed (loop : List Edge) : Prop :=
  ∀ i < loop.length,
    (loop.get! i).endVertex.point.equals
      ((loop.get! ((i + 1) % loop.length)).startVertex.point) defaultTolerance

instance (loop : List Edge) : Decidable (chainClosed loop) := by
  unfold chainClosed; infer_instance

/-- `Face.isValid`: outer loop of at least three edges forming a closed
chain, and likewise every inner loop. -/
def isValid (f : Face) : Prop :=
  3 ≤ f.outerLoop.length ∧ chainClosed f.outerLoop ∧
    ∀ loop ∈ f.innerLoops, 3 ≤ loop.length ∧ chainClosed loop

instance (f : Face) : Decidable f.isValid := by unfold isValid; infer_instance

end Face

/-- Structured counterpart of the strings `validate()` pushes. -/
inductive ValidationError where
  | invalidFace (id : ℕ)
  | orphanedEdge (id : ℕ)
  | orphanedVertex (id : ℕ)
deriving DecidableEq, Repr

/-- `BoundaryRepresentation` (BoundaryRepresentation.ts): id-keyed maps of
vertices, edges and faces. -/
structure BoundaryRepresentation where
  vertices : List (ℕ × Vertex)
  edges : List (ℕ × Edge)
  faces : List (ℕ × Face)
deriving DecidableEq, Repr

namespace BoundaryRepresentation

/-- A freshly constructed, empty B-Rep. -/
def empty : BoundaryRepresentation := ⟨[], [], []⟩

/-- `addVertex`. -/
def addVertex (b : BoundaryRepresentation) (v : Vertex) : BoundaryRepresentation :=
  { b with vertices := mapSet b.vertices v.id v }

/-- `addEdge`: also (re-)adds the two end vertices. -/
def addEdge (b : BoundaryRepresentation) (e : Edge) : BoundaryRepresentation :=
  (({ b with edges := mapSet b.edges e.id e }).addVertex e.startVertex).addVertex e.endVertex

/-- `addFace`: also (re-)adds every edge of the face. -/
def addFace (b : BoundaryRepresentation) (f : Face) : BoundaryRepresentation :=
  f.getEdges.foldl addEdge { b with faces := mapSet b.faces f.id f }

/-- `getAllVertices`. -/
def getAllVertices (b : BoundaryRepresentation) : List Vertex := mapValues b.vertices

/-- `getAllEdges`. -/
def getAllEdges (b : BoundaryRepresentation) : List Edge := mapValues b.edges

/-- `getAllFaces`. -/
def getAllFaces (b : BoundaryRepresentation) : List Face := mapValues b.faces

/-- `getFaceCentroid`: average of the face's deduplicated vertices. -/
def getFaceCentroid (f : Face) : Point :=
  (f.getVertices.foldl (fun acc v => acc.add v.point) (⟨0, 0, 0⟩ : Point)).scale
    (1 / (f.getVertices.length : ℚ))

/-- `computeVolume`: divergence-theorem style sum of
`centroid ⬝ normal * area / 3` over the faces that have both a normal and
a cached area (the source guards on `face.area !== undefined`), absolute
value at the end. -/
def computeVolume (b : BoundaryRepresentation) : ℚ :=
  |b.getAllFaces.foldl
    (fun acc f =>
      match f.normal, f.area with
      | some n, some a => acc + (getFaceCentroid f).dot ⟨n.x, n.y, n.z⟩ * a / 3
      | _, _ => acc)
    0|

/-- `computeSurfaceArea`: sums `computeArea` over all faces; since
`computeArea` caches its result on the face, the updated B-Rep is
returned alongside the total. -/
def computeSurfaceArea (b : BoundaryRepresentation) : ℚ × BoundaryRepresentation :=
  ((b.faces.map (fun kf => (kf.2.computeArea).1)).sum,
    { b with faces := b.faces.map (fun kf => (kf.1, (kf.2.computeArea).2)) })

/-- `getBoundingBox`: min/max over all vertices, the origin pair when the
B-Rep has no vertices. -/
def getBoundingBox (b : BoundaryRepresentation) : Point × Point :=
  match b.getAllVertices with
  | [] => (⟨0, 0, 0⟩, ⟨0, 0, 0⟩)
  | v :: vs =>
    ((v :: vs).foldl (fun acc w =>
        ⟨min acc.x w.point.x, min acc.y w.point.y, min acc.z w.point.z⟩) v.point,
     (v :: vs).foldl (fun acc w =>
        ⟨max acc.x w.point.x, max acc.y w.point.y, max acc.z w.point.z⟩) v.point)

/-- `validate()`: invalid-face errors, then edges referenced by no face,
then vertices referenced by no edge, in the source's push order. -/
def validate (b : BoundaryRepresentation) : List ValidationError :=
  (b.getAllFaces.filter (fun f => !(decide f.isValid))).map (fun f => .invalidFace f.id) ++
  (let referencedEdges := b.getAllFaces.flatMap (fun f => f.getEdges.map (fun e => e.id))
   (b.getAllEdges.filter (fun e => !(referencedEdges.contains e.id))).map
     (fun e => .orphanedEdge e.id)) ++
  (let referencedVertices := b.getAllEdges.flatMap (fun e => [e.startVertex.id, e.endVertex.id])
   (b.getAllVertices.filter (fun v => !(referencedVertices.contains v.id))).map
     (fun v => .orphanedVertex v.id))

end BoundaryRepresentation

/-- Truncation toward zero, as JS number-to-integer conversion does. -/
def ratTrunc (q : ℚ) : ℤ := if q < 0 then ⌈q⌉ else ⌊q⌋

/-- The JS `%` remainder on numbers: `x - y * trunc (x / y)` (sign follows
the dividend); `x % 0` is NaN in JS and never reached by the kernel, the
embedding returns 0 there. -/
def jsMod (x y : ℚ) : ℚ := if y = 0 then 0 else x - y * (ratTrunc (x / y) : ℚ)

/-- Closed form of the source's `while (x < 0) x += step` angle lift: for a
positive step it adds the least multiple of `step` making the value
non-negative (the loop never terminates for a non-positive step and a
negative start, which the kernel never produces; the embedding returns `x`
there). -/
def angleLiftNonneg (x step : ℚ) : ℚ :=
  if 0 < step ∧ x < 0 then x + step * (⌈-x / step⌉ : ℚ) else x

/-- `Arc.isAngleInRange`: normalizes the three angles into `[0, 2π)` and
checks containment with wrap-around when the normalized start exceeds the
normalized end. -/
def Arc.isAngleInRange (ops : NumOps) (a : Arc) (angle tolerance : ℚ) : Bool :=
  let twoPi := 2 * ops.pi
  let start := jsMod (angleLiftNonneg a.startAngle twoPi) twoPi
  let stop := jsMod (angleLiftNonneg a.endAngle twoPi) twoPi
  let ang := jsMod (angleLiftNonneg angle twoPi) twoPi
  if start ≤ stop then decide (start - tolerance ≤ ang ∧ ang ≤ stop + tolerance)
  else decide (start - tolerance ≤ ang ∨ ang ≤ stop + tolerance)

/-- Componentwise min/max bounds of a point list (the lists the source
builds are never empty; the embedding returns the origin pair then). -/
def pointsBounds (pts : List Point) : Point × Point :=
  match pts with
  | [] => (⟨0, 0, 0⟩, ⟨0, 0, 0⟩)
  | p :: rest =>
    (rest.foldl (fun acc q => ⟨min acc.x q.x, min acc.y q.y, min acc.z q.z⟩) p,
     rest.foldl (fun acc q => ⟨max acc.x q.x, max acc.y q.y, max acc.z q.z⟩) p)

/-- `Line.getBoundingBox`. -/
def Line.getBoundingBox (l : Line) : Point × Point :=
  (⟨min l.startPoint.x l.endPoint.x, min l.startPoint.y l.endPoint.y,
     min l.startPoint.z l.endPoint.z⟩,
   ⟨max l.startPoint.x l.endPoint.x, max l.startPoint.y l.endPoint.y,
     max l.startPoint.z l.endPoint.z⟩)

/-- `Arc.getBoundingBox`: end points plus the axis-crossing rim points
whose angle lies on the arc. -/
def Arc.getBoundingBox (ops : NumOps) (a : Arc) : Point × Point :=
  pointsBounds ([a.getPointAt ops 0, a.getPointAt ops 1] ++
    (([0, ops.pi / 2, ops.pi, 3 * ops.pi / 2].filter
        (fun ang => a.isAngleInRange ops ang defaultTolerance)).map
      (fun ang => ⟨a.center.x + a.radius * ops.cos ang,
        a.center.y + a.radius * ops.sin ang, a.center.z⟩)))

/-- `Circle.getBoundingBox`. -/
def Circle.getBoundingBox (c : Circle) : Point × Point :=
  (⟨c.center.x - c.radius, c.center.y - c.radius, c.center.z⟩,
   ⟨c.center.x + c.radius, c.center.y + c.radius, c.center.z⟩)

/-- Polymorphic `getBoundingBox` dispatch. -/
def GeometryElement.getBoundingBox (ops : NumOps) : GeometryElement → Point × Point
  | .line l => l.getBoundingBox
  | .arc a => a.getBoundingBox ops
  | .circle c => c.getBoundingBox

/-- `Sketch` (Sketch.ts): a plane plus the id-keyed element map. -/
structure Sketch where
  name : String
  plane : Plane
  elements : List (ℕ × GeometryElement)
deriving Repr

namespace Sketch

/-- `Sketch.addElement`.  Ids, random strings in the source, are naturals
supplied by the caller here. -/
def addElement (s : Sketch) (id : ℕ) (e : GeometryElement) : Sketch :=
  { s with elements := mapSet s.elements id e }

/-- `Sketch.createLine`: converts both world points into plane coordinates
and stores the new line. -/
def createLine (s : Sketch) (id : ℕ) (startPoint endPoint : Point) : Sketch :=
  s.addElement id
    (.line (Line.make (s.plane.worldToPlane startPoint) (s.plane.worldToPlane endPoint)))

/-- `Sketch.sketchToWorld`. -/
def sketchToWorld (s : Sketch) (p : Point) : Point := s.plane.planeToWorld p

/-- `Sketch.getBoundingBox`: none for an empty sketch, otherwise the
min/max aggregation of the element boxes. -/
def getBoundingBox (ops : NumOps) (s : Sketch) : Option (Point × Point) :=
  match s.elements.map (fun ie => ie.2.getBoundingBox ops) with
  | [] => none
  | bb :: rest =>
    some (rest.foldl (fun acc q =>
        ⟨min acc.x q.1.x, min acc.y q.1.y, min acc.z q.1.z⟩) bb.1,
      rest.foldl (fun acc q =>
        ⟨max acc.x q.2.x, max acc.y q.2.y, max acc.z q.2.z⟩) bb.2)

end Sketch

/-- `SolidProperties` (Solid.ts): derived quantities, `none` until
computed. -/
structure SolidProperties where
  volume : Option ℚ
  surfaceArea : Option ℚ
  centerOfMass : Option Point
  boundingBox : Option (Point × Point)
deriving DecidableEq, Repr

/-- `Solid` (Solid.ts): a named B-Rep with derived properties. -/
structure Solid where
  name : String
  brep : BoundaryRepresentation
  properties : SolidProperties
deriving Repr

/-- The `Solid` constructor: runs `updateProperties`, which computes the
volume first (before any face area has been cached), then the surface
area (caching each face's area on the face), then the bounding box and
centre of mass. -/
def Solid.make (brep : BoundaryRepresentation) (name : String) : Solid :=
  let volume := brep.computeVolume
  let sa := brep.computeSurfaceArea
  let bbox := sa.2.getBoundingBox
  { name := name
    brep := sa.2
    properties :=
      { volume := some volume
        surfaceArea := some sa.1
        boundingBox := some bbox
        centerOfMass := some ⟨(bbox.1.x + bbox.2.x) / 2, (bbox.1.y + bbox.2.y) / 2,
          (bbox.1.z + bbox.2.z) / 2⟩ } }

/-- `SolidEngine.getSketchCenter`: centre of the sketch bounding box, the
origin when the sketch is empty. -/
def getSketchCenter (ops : NumOps) (s : Sketch) : Point :=
  match s.getBoundingBox ops with
  | none => ⟨0, 0, 0⟩
  | some (mn, mx) => ⟨(mn.x + mx.x) / 2, (mn.y + mx.y) / 2, (mn.z + mx.z) / 2⟩

/-- `SolidEngine.extractSketchVertices`: the control points of every
element, keyed `(element id, point index)` in element order. -/
def extractSketchVertices (ops : NumOps) (sketch : Sketch) : List ((ℕ × ℕ) × Point) :=
  sketch.elements.flatMap (fun ie =>
    (ie.2.getControlPoints ops).enum.map (fun jp => ((ie.1, jp.1), jp.2)))

/-- `SolidEngine.createEdgesFromSketch`: one start/end key pair per `Line`
element (other element kinds produce no edges). -/
def createEdgesFromSketch (sketch : Sketch) : List ((ℕ × ℕ) × (ℕ × ℕ)) :=
  sketch.elements.filterMap (fun ie =>
    match ie.2 with
    | .line _ => some ((ie.1, 0), (ie.1, 1))
    | _ => none)

/-- The bottom-cap vertices of `extrude`: one per sketch control point, in
world coordinates, keyed like the sketch vertices; ids `0..m-1` in
creation order. -/
def extrudeBottomVertices (ops : NumOps) (sketch : Sketch) : List ((ℕ × ℕ) × Vertex) :=
  (extractSketchVertices ops sketch).enum.map (fun jkv =>
    (jkv.2.1, ⟨jkv.1, sketch.sketchToWorld jkv.2.2⟩))

/-- The top-cap vertices of `extrude`: bottom vertices translated by the
normalized direction scaled by the distance, with the optional taper
offset away from the sketch centre; ids `m..2m-1`. -/
def extrudeTopVertices (ops : NumOps) (sketch : Sketch) (distance : ℚ)
    (direction : Option Vector) (taper : Option ℚ) : List ((ℕ × ℕ) × Vertex) :=
  let m := (extractSketchVertices ops sketch).length
  let taperAngle := taper.getD 0
  let extrudeVector := ((direction.getD ⟨0, 0, 1⟩).normalize ops).multiply distance
  (extrudeBottomVertices ops sketch).enum.map (fun jkv =>
    let bottomPoint := jkv.2.2.point
    let basePoint := bottomPoint.add ⟨extrudeVector.x, extrudeVector.y, extrudeVector.z⟩
    let topPoint := if taperAngle ≠ 0 then
        basePoint.add ((bottomPoint.subtract (getSketchCenter ops sketch)).scale
          (ops.tan (taperAngle * ops.pi / 180) * distance))
      else basePoint
    (jkv.2.1, ⟨m + jkv.1, topPoint⟩))

/-- The bottom-cap edges of `extrude`, ids `0..n-1`. -/
def extrudeBottomEdges (ops : NumOps) (sketch : Sketch) : List Edge :=
  (createEdgesFromSketch sketch).enum.map (fun ie =>
    ⟨ie.1, (mapLookup (extrudeBottomVertices ops sketch) ie.2.1).getD default,
      (mapLookup (extrudeBottomVertices ops sketch) ie.2.2).getD default⟩)

/-- The top-cap edges of `extrude`, ids `n..2n-1`. -/
def extrudeTopEdges (ops : NumOps) (sketch : Sketch) (distance : ℚ)
    (direction : Option Vector) (taper : Option ℚ) : List Edge :=
  let n := (createEdgesFromSketch sketch).length
  (createEdgesFromSketch sketch).enum.map (fun ie =>
    ⟨n + ie.1,
      (mapLookup (extrudeTopVertices ops sketch distance direction taper) ie.2.1).getD default,
      (mapLookup (extrudeTopVertices ops sketch distance direction taper) ie.2.2).getD default⟩)

/-- The vertical edges of `extrude`, one per sketch control point, ids
`2n..2n+m-1`. -/
def extrudeVerticalEdges (ops : NumOps) (sketch : Sketch) (distance : ℚ)
    (direction : Option Vector) (taper : Option ℚ) : List Edge :=
  let n := (createEdgesFromSketch sketch).length
  (extrudeBottomVertices ops sketch).enum.map (fun jkv =>
    ⟨2 * n + jkv.1, jkv.2.2,
      (mapLookup (extrudeTopVertices ops sketch distance direction taper) jkv.2.1).getD default⟩)

/-- The B-Rep `extrude` assembles: bottom and top vertices, bottom, top
and vertical edges, then bottom face (id 0), top face (id 1, reversed
loop) and one quad side face per sketch edge (id `2+i`, reversing the top
and left-vertical edges through fresh edge objects with ids `2n+m+2i` and
`2n+m+2i+1`). -/
def extrudeBrep (ops : NumOps) (sketch : Sketch) (distance : ℚ)
    (direction : Option Vector) (taper : Option ℚ) : BoundaryRepresentation :=
  let m := (extractSketchVertices ops sketch).length
  let n := (createEdgesFromSketch sketch).length
  let bottomVertices := extrudeBottomVertices ops sketch
  let topVertices := extrudeTopVertices ops sketch distance direction taper
  let bottomEdges := extrudeBottomEdges ops sketch
  let topEdges := extrudeTopEdges ops sketch distance direction taper
  let verticalEdges := extrudeVerticalEdges ops sketch distance direction taper
  let brep := BoundaryRepresentation.empty
  let brep := bottomVertices.foldl (fun b kv => b.addVertex kv.2) brep
  let brep := topVertices.foldl (fun b kv => b.addVertex kv.2) brep
  let brep := bottomEdges.foldl .addEdge brep
  let brep := topEdges.foldl .addEdge brep
  let brep := verticalEdges.foldl .addEdge brep
  let brep := brep.addFace (Face.make ops 0 bottomEdges)
  let brep := brep.addFace (Face.make ops 1 topEdges.reverse)
  (List.range bottomEdges.length).foldl (fun b i =>
    let topEdge := topEdges.get! i
    let leftVertical := verticalEdges.get! i
    let rightVertical := verticalEdges.get! ((i + 1) % verticalEdges.length)
    b.addFace (Face.make ops (2 + i)
      [bottomEdges.get! i, rightVertical,
        ⟨2 * n + m + 2 * i, topEdge.endVertex, topEdge.startVertex⟩,
        ⟨2 * n + m + 2 * i + 1, leftVertical.endVertex, leftVertical.startVertex⟩]))
    brep

/-- `SolidEngine.extrude`: input validation (thrown errors modelled with
`Except.error`), then the B-Rep assembly of `extrudeBrep`, wrapped in a
`Solid`.  The unused `symmetric` flag of the source is omitted. -/
def extrude (ops : NumOps) (sketch : Sketch) (distance : ℚ)
    (direction : Option Vector) (taper : Option ℚ) : Except String Solid :=
  if distance ≤ 0 then .error "Extrude distance must be positive"
  else if sketch.elements.length = 0 then .error "Cannot extrude empty sketch"
  else .ok (Solid.make (extrudeBrep ops sketch distance direction taper)
    ("Extruded_" ++ sketch.name))

/-- The XY plane value (`Plane.XY()` as the constructor computes it, see
`planeXY_val`). -/
def squarePlane : Plane := ⟨⟨0, 0, 0⟩, ⟨0, 0, 1⟩, ⟨0, 1, 0⟩, ⟨-1, 0, 0⟩⟩

/-- The concrete scenario sketch: a unit square of four lines on the XY
plane, built through `createLine` from world coordinates. -/
def squareSketch : Sketch :=
  (((({ name := "Square", plane := squarePlane, elements := [] } : Sketch).createLine 0
    ⟨0, 0, 0⟩ ⟨1, 0, 0⟩).createLine 1 ⟨1, 0, 0⟩ ⟨1, 1, 0⟩).createLine 2
    ⟨1, 1, 0⟩ ⟨0, 1, 0⟩).createLine 3 ⟨0, 1, 0⟩ ⟨0, 0, 0⟩

/-- Number of `Orphaned edge` messages in a validation report. -/
def countOrphanEdgeErrors (errs : List ValidationError) : ℕ :=
  errs.countP (fun e => match e with | .orphanedEdge _ => true | _ => false)

/-- Number of `Orphaned vertex` messages in a validation report. -/
def countOrphanVertexErrors (errs : List ValidationError) : ℕ :=
  errs.countP (fun e => match e with | .orphanedVertex _ => true | _ => false)

/-- The id-keyed vertex entries the B-Rep of `extrude` ends up holding:
bottom-cap vertices then top-cap vertices, keyed by their ids. -/
def extrudeVertexPairs (ops : NumOps) (sketch : Sketch) (distance : ℚ)
    (direction : Option Vector) (taper : Option ℚ) : List (ℕ × Vertex) :=
  (extrudeBottomVertices ops sketch).map (fun kv => (kv.2.id, kv.2)) ++
  (extrudeTopVertices ops sketch distance direction taper).map (fun kv => (kv.2.id, kv.2))

/-- The fresh reversed edges created by the first `k` side faces of
`extrude`, keyed by their ids: side face `i` reverses its top edge into a
fresh edge `2n+m+2i` and its left vertical edge into `2n+m+2i+1`. -/
def extrudeSideEdgePairs (ops : NumOps) (sketch : Sketch) (distance : ℚ)
    (direction : Option Vector) (taper : Option ℚ) (k : ℕ) : List (ℕ × Edge) :=
  let m := (extractSketchVertices ops sketch).length
  let n := (createEdgesFromSketch sketch).length
  let topEdges := extrudeTopEdges ops sketch distance direction taper
  let verticalEdges := extrudeVerticalEdges ops sketch distance direction taper
  (List.range k).flatMap (fun i =>
    [(2 * n + m + 2 * i,
       ⟨2 * n + m + 2 * i, (topEdges.get! i).endVertex, (topEdges.get! i).startVertex⟩),
     (2 * n + m + 2 * i + 1,
       ⟨2 * n + m + 2 * i + 1, (verticalEdges.get! i).endVertex,
         (verticalEdges.get! i).startVertex⟩)])

/-- The id-keyed edge entries the B-Rep of `extrude` ends up holding:
bottom, top and vertical edges, then the fresh reversed edges of all `n`
side faces. -/
def extrudeEdgePairs (ops : NumOps) (sketch : Sketch) (distance : ℚ)
    (direction : Option Vector) (taper : Option ℚ) : List (ℕ × Edge) :=
  (extrudeBottomEdges ops sketch).map (fun e => (e.id, e)) ++
  (extrudeTopEdges ops sketch distance direction taper).map (fun e => (e.id, e)) ++
  (extrudeVerticalEdges ops sketch distance direction taper).map (fun e => (e.id, e)) ++
  extrudeSideEdgePairs ops sketch distance direction taper
    (createEdgesFromSketch sketch).length

/-- Side face `i` of `extrude`, exactly as the loop body builds it. -/
def extrudeSideFace (ops : NumOps) (sketch : Sketch) (distance : ℚ)
    (direction : Option Vector) (taper : Option ℚ) (i : ℕ) : Face :=
  let m := (extractSketchVertices ops sketch).length
  let n := (createEdgesFromSketch sketch).length
  let bottomEdges := extrudeBottomEdges ops sketch
  let topEdges := extrudeTopEdges ops sketch distance direction taper
  let verticalEdges := extrudeVerticalEdges ops sketch distance direction taper
  Face.make ops (2 + i)
    [bottomEdges.get! i, verticalEdges.get! ((i + 1) % verticalEdges.length),
      ⟨2 * n + m + 2 * i, (topEdges.get! i).endVertex, (topEdges.get! i).startVertex⟩,
      ⟨2 * n + m + 2 * i + 1, (verticalEdges.get! i).endVertex,
        (verticalEdges.get! i).startVertex⟩]

/-- The id-keyed face entries of the first `k` side faces of `extrude`. -/
def extrudeSideFacePairs (ops : NumOps) (sketch : Sketch) (distance : ℚ)
    (direction : Option Vector) (taper : Option ℚ) (k : ℕ) : List (ℕ × Face) :=
  (List.range k).map (fun i => (2 + i, extrudeSideFace ops sketch distance direction taper i))

/-- The id-keyed face entries the B-Rep of `extrude` ends up holding:
bottom cap (id 0), top cap (id 1, reversed loop), then the side faces. -/
def extrudeFacePairs (ops : NumOps) (sketch : Sketch) (distance : ℚ)
    (direction : Option Vector) (taper : Option ℚ) : List (ℕ × Face) :=
  (0, Face.make ops 0 (extrudeBottomEdges ops sketch)) ::
  (1, Face.make ops 1 (extrudeTopEdges ops sketch distance direction taper).reverse) ::
  extrudeSideFacePairs ops sketch distance direction taper
    (createEdgesFromSketch sketch).length

/-- `SolidEngine.revolvePointAroundAxis`: translate to the axis origin, apply
Rodrigues' rotation formula around the normalized axis direction, translate
back. -/
def revolvePointAroundAxis (ops : NumOps) (point axisPoint : Point)
    (axisDirection : Vector) (angle : ℚ) : Point :=
  let translatedPoint := point.subtract axisPoint
  let axis := axisDirection.normalize ops
  let c := ops.cos angle
  let s := ops.sin angle
  let oneMinusCos := 1 - c
  let x := translatedPoint.x
  let y := translatedPoint.y
  let z := translatedPoint.z
  let rotatedX := (c + axis.x * axis.x * oneMinusCos) * x +
    (axis.x * axis.y * oneMinusCos - axis.z * s) * y +
    (axis.x * axis.z * oneMinusCos + axis.y * s) * z
  let rotatedY := (axis.y * axis.x * oneMinusCos + axis.z * s) * x +
    (c + axis.y * axis.y * oneMinusCos) * y +
    (axis.y * axis.z * oneMinusCos - axis.x * s) * z
  let rotatedZ := (axis.z * axis.x * oneMinusCos - axis.y * s) * x +
    (axis.z * axis.y * oneMinusCos + axis.x * s) * y +
    (c + axis.z * axis.z * oneMinusCos) * z
  (⟨rotatedX, rotatedY, rotatedZ⟩ : Point).add axisPoint

/-- The angular step count of `revolve`:
`Math.max(8, Math.ceil(angle / 15))`. -/
def revolveSteps (angle : ℚ) : ℕ := max 8 (Int.toNat ⌈angle / 15⌉)

/-- Vertex `(step, i)` of the revolution grid: profile point `i`, converted
to world coordinates and revolved by `angleRad * step / steps`; ids are
assigned in creation order (`step * m + i`). -/
def revolveVertex (ops : NumOps) (sketch : Sketch) (axisPoint : Point)
    (axisDirection : Vector) (angle : ℚ) (step i : ℕ) : Vertex :=
  let m := (extractSketchVertices ops sketch).length
  let steps := revolveSteps angle
  let angleRad := angle * ops.pi / 180
  ⟨step * m + i,
    revolvePointAroundAxis ops
      (sketch.sketchToWorld ((extractSketchVertices ops sketch).get! i).2)
      axisPoint axisDirection (angleRad * step / steps)⟩

/-- Quad face `(step, i)` of `revolve`, joining profile positions `i` and
`i+1` of angular steps `step` and `step+1`; its four edges carry ids
`4*(step*(m-1)+i) .. +3` and the face id is `step*(m-1)+i`, both in creation
order. -/
def revolveQuadFace (ops : NumOps) (sketch : Sketch) (axisPoint : Point)
    (axisDirection : Vector) (angle : ℚ) (step i : ℕ) : Face :=
  let m := (extractSketchVertices ops sketch).length
  let q := 4 * (step * (m - 1) + i)
  let v1 := revolveVertex ops sketch axisPoint axisDirection angle step i
  let v2 := revolveVertex ops sketch axisPoint axisDirection angle step (i + 1)
  let v3 := revolveVertex ops sketch axisPoint axisDirection angle (step + 1) (i + 1)
  let v4 := revolveVertex ops sketch axisPoint axisDirection angle (step + 1) i
  Face.make ops (step * (m - 1) + i)
    [⟨q, v1, v2⟩, ⟨q + 1, v2, v3⟩, ⟨q + 2, v3, v4⟩, ⟨q + 3, v4, v1⟩]

/-- Start-cap edge `i` of `revolve` (present only when `angle < 360`). -/
def revolveStartCapEdge (ops : NumOps) (sketch : Sketch) (axisPoint : Point)
    (axisDirection : Vector) (angle : ℚ) (i : ℕ) : Edge :=
  let m := (extractSketchVertices ops sketch).length
  let steps := revolveSteps angle
  ⟨4 * (steps * (m - 1)) + i,
    revolveVertex ops sketch axisPoint axisDirection angle 0 i,
    revolveVertex ops sketch axisPoint axisDirection angle 0 (i + 1)⟩

/-- End-cap edge `i` of `revolve`, reversed for the outward normal. -/
def revolveEndCapEdge (ops : NumOps) (sketch : Sketch) (axisPoint : Point)
    (axisDirection : Vector) (angle : ℚ) (i : ℕ) : Edge :=
  let m := (extractSketchVertices ops sketch).length
  let steps := revolveSteps angle
  ⟨4 * (steps * (m - 1)) + (m - 1) + i,
    revolveVertex ops sketch axisPoint axisDirection angle steps (i + 1),
    revolveVertex ops sketch axisPoint axisDirection angle steps i⟩

/-- The B-Rep `revolve` assembles: the grid of revolved vertices, one quad
face per `(step, i)` pair, and the two cap faces exactly when
`angle < 360`. -/
def revolveBrep (ops : NumOps) (sketch : Sketch) (axisPoint : Point)
    (axisDirection : Vector) (angle : ℚ) : BoundaryRepresentation :=
  let m := (extractSketchVertices ops sketch).length
  let steps := revolveSteps angle
  let brep := BoundaryRepresentation.empty
  let brep := (List.range (steps + 1)).foldl (fun b step =>
    (List.range m).foldl (fun b2 i =>
      b2.addVertex (revolveVertex ops sketch axisPoint axisDirection angle step i)) b) brep
  let brep := (List.range steps).foldl (fun b step =>
    (List.range (m - 1)).foldl (fun b2 i =>
      let q := 4 * (step * (m - 1) + i)
      let v1 := revolveVertex ops sketch axisPoint axisDirection angle step i
      let v2 := revolveVertex ops sketch axisPoint axisDirection angle step (i + 1)
      let v3 := revolveVertex ops sketch axisPoint axisDirection angle (step + 1) (i + 1)
      let v4 := revolveVertex ops sketch axisPoint axisDirection angle (step + 1) i
      ((((b2.addEdge ⟨q, v1, v2⟩).addEdge ⟨q + 1, v2, v3⟩).addEdge
        ⟨q + 2, v3, v4⟩).addEdge ⟨q + 3, v4, v1⟩).addFace
          (revolveQuadFace ops sketch axisPoint axisDirection angle step i)) b) brep
  if angle < 360 then
    let brep := (List.range (m - 1)).foldl (fun b i =>
      b.addEdge (revolveStartCapEdge ops sketch axisPoint axisDirection angle i)) brep
    let brep := brep.addFace (Face.make ops (steps * (m - 1))
      ((List.range (m - 1)).map (revolveStartCapEdge ops sketch axisPoint axisDirection angle)))
    let brep := (List.range (m - 1)).foldl (fun b i =>
      b.addEdge (revolveEndCapEdge ops sketch axisPoint axisDirection angle i)) brep
    brep.addFace (Face.make ops (steps * (m - 1) + 1)
      ((List.range (m - 1)).map (revolveEndCapEdge ops sketch axisPoint axisDirection angle)))
  else brep

/-- `SolidEngine.revolve`: angle and emptiness validation (thrown errors
modelled with `Except.error`), then the B-Rep assembly wrapped in a
`Solid`. -/
def revolve (ops : NumOps) (sketch : Sketch) (axisPoint : Point) (axisDirection : Vector)
    (angle : ℚ) : Except String Solid :=
  if angle ≤ 0 ∨ angle > 360 then
    .error "Revolve angle must be between 0 and 360 degrees"
  else if sketch.elements.length = 0 then .error "Cannot revolve empty sketch"
  else .ok (Solid.make (revolveBrep ops sketch axisPoint axisDirection angle)
    ("Revolved_" ++ sketch.name))

/-- The id-keyed quad-face entries `revolve` ends up storing. -/
def revolveQuadFacePairs (ops : NumOps) (sketch : Sketch) (axisPoint : Point)
    (axisDirection : Vector) (angle : ℚ) : List (ℕ × Face) :=
  let m := (extractSketchVertices ops sketch).length
  (List.range (revolveSteps angle)).flatMap (fun step =>
    (List.range (m - 1)).map (fun i =>
      (step * (m - 1) + i, revolveQuadFace ops sketch axisPoint axisDirection angle step i)))

/-- The id-keyed face entries `revolve` ends up storing: the quad faces, then
the two cap faces exactly when `angle < 360`. -/
def revolveFacePairs (ops : NumOps) (sketch : Sketch) (axisPoint : Point)
    (axisDirection : Vector) (angle : ℚ) : List (ℕ × Face) :=
  let m := (extractSketchVertices ops sketch).length
  let steps := revolveSteps angle
  revolveQuadFacePairs ops sketch axisPoint axisDirection angle ++
  (if angle < 360 then
    [(steps * (m - 1), Face.make ops (steps * (m - 1))
        ((List.range (m - 1)).map (revolveStartCapEdge ops sketch axisPoint axisDirection angle))),
     (steps * (m - 1) + 1, Face.make ops (steps * (m - 1) + 1)
        ((List.range (m - 1)).map (revolveEndCapEdge ops sketch axisPoint axisDirection angle)))]
   else [])

/-- `ConstraintStatus` (Constraint.ts). -/
inductive ConstraintStatus where
  | satisfied
  | violated
  | conflicted
  | redundant
deriving DecidableEq, Repr

/-- The constraint kinds of Constraint.ts with their kind-specific data. -/
inductive ConstraintKind where
  | parallel
  | perpendicular
  | tangent
  | equalLength
  | distance (targetDistance : ℚ)
deriving DecidableEq, Repr

/-- `Constraint`: id, kind, the ids of the referenced elements (the TS object
references are resolved through the solver's element map, which
`addConstraint` keeps in sync with them), and the current status.  The fixed
per-constraint tolerance of the source is `1e-6` (`defaultTolerance`). -/
structure Constraint where
  id : ℕ
  kind : ConstraintKind
  elementIds : List ℕ
  status : ConstraintStatus
deriving DecidableEq, Repr

/-- `SolverConfig`. -/
structure SolverConfig where
  maxIterations : ℕ
  tolerance : ℚ
  dampingFactor : ℚ
  stepSize : ℚ
deriving DecidableEq, Repr

/-- The defaults of the `ConstraintSolver` constructor. -/
def defaultSolverConfig : SolverConfig := ⟨100, 1 / 1000000, 4 / 5, 1 / 10⟩

/-- `ConstraintSolver` state: configuration, the id-keyed constraint and
element maps, and the stream of `Math.random()` draws together with the
cursor of the next draw. -/
structure ConstraintSolver where
  config : SolverConfig
  constraints : List (ℕ × Constraint)
  elements : List (ℕ × GeometryElement)
  randStream : ℕ → ℚ
  randIdx : ℕ

/-- `Constraint.calculateError`, dispatched on the constraint kind; `none`
models the non-finite error (`Infinity`) returned on an element-type
mismatch (a missing element entry, impossible in solver-built states, also
yields `none`). -/
def calculateError (ops : NumOps) (elems : List (ℕ × GeometryElement))
    (c : Constraint) : Option ℚ :=
  match c.kind with
  | .parallel =>
    match c.elementIds with
    | [i1, i2] =>
      match mapLookup elems i1, mapLookup elems i2 with
      | some (.line l1), some (.line l2) =>
        let points1 := l1.getControlPoints
        let points2 := l2.getControlPoints
        let dir1 := (Vector.fromPoints (points1.get! 0) (points1.get! 1)).normalize ops
        let dir2 := (Vector.fromPoints (points2.get! 0) (points2.get! 1)).normalize ops
        some ((dir1.cross dir2).length ops)
      | _, _ => none
    | _ => none
  | .perpendicular =>
    match c.elementIds with
    | [i1, i2] =>
      match mapLookup elems i1, mapLookup elems i2 with
      | some (.line l1), some (.line l2) =>
        let points1 := l1.getControlPoints
        let points2 := l2.getControlPoints
        let dir1 := (Vector.fromPoints (points1.get! 0) (points1.get! 1)).normalize ops
        let dir2 := (Vector.fromPoints (points2.get! 0) (points2.get! 1)).normalize ops
        some |dir1.dot dir2|
      | _, _ => none
    | _ => none
  | .tangent =>
    match c.elementIds with
    | [i1, i2] =>
      match mapLookup elems i1, mapLookup elems i2 with
      | some (.line l), some (.circle cir) =>
        let linePoints := l.getControlPoints
        let curvePoints := cir.getControlPoints
        let center := curvePoints.get! 0
        let radius := center.distanceTo ops (curvePoints.get! 1)
        let lineDir := (Vector.fromPoints (linePoints.get! 0) (linePoints.get! 1)).normalize ops
        let centerToStart := Vector.fromPoints (linePoints.get! 0) center
        some |(|(centerToStart.cross lineDir).length ops|) - radius|
      | some (.line l), some (.arc a) =>
        let linePoints := l.getControlPoints
        let curvePoints := a.getControlPoints ops
        let center := curvePoints.get! 0
        let radius := a.radius
        let lineDir := (Vector.fromPoints (linePoints.get! 0) (linePoints.get! 1)).normalize ops
        let centerToStart := Vector.fromPoints (linePoints.get! 0) center
        some |(|(centerToStart.cross lineDir).length ops|) - radius|
      | _, _ => none
    | _ => none
  | .equalLength =>
    match c.elementIds with
    | [i1, i2] =>
      match mapLookup elems i1, mapLookup elems i2 with
      | some (.line l1), some (.line l2) =>
        some |l1.getLength ops - l2.getLength ops|
      | _, _ => none
    | _ => none
  | .distance target =>
    match c.elementIds with
    | [i1, i2] =>
      match mapLookup elems i1, mapLookup elems i2 with
      | some e1, some e2 =>
        some |(e1.getPointAt ops (1 / 2)).distanceTo ops (e2.getPointAt ops (1 / 2)) - target|
      | _, _ => none
    | _ => none

/-- `ConstraintSolver.calculateTotalError`: root of the sum of squared finite
errors. -/
def calculateTotalError (ops : NumOps) (s : ConstraintSolver) : ℚ :=
  ops.sqrt (s.constraints.foldl (fun acc kc =>
    match calculateError ops s.elements kc.2 with
    | some e => acc + e * e
    | none => acc) 0)

/-- `Constraint.updateStatus`: `Satisfied` exactly when the error is finite
and below the constraint tolerance in absolute value. -/
def updateStatus (ops : NumOps) (elems : List (ℕ × GeometryElement))
    (c : Constraint) : Constraint :=
  { c with status :=
      if match calculateError ops elems c with
        | some e => decide (|e| < defaultTolerance)
        | none => false
      then .satisfied else .violated }

/-- `ConstraintSolver.updateConstraintStatuses`. -/
def updateConstraintStatuses (ops : NumOps) (s : ConstraintSolver) : ConstraintSolver :=
  { s with constraints := s.constraints.map (fun kc => (kc.1, updateStatus ops s.elements kc.2)) }

/-- `ConstraintSolver.getMaxConstraintsForElement`: degree-of-freedom budget
per element type (the source's `default: 2` branch is unreachable, the only
`GeometryElement` subclasses being `Line`, `Arc` and `Circle`). -/
def maxConstraintsForElement : GeometryElement → ℕ
  | .line _ => 4
  | .circle _ => 3
  | .arc _ => 5

/-- `ConstraintSolver.detectConflicts`: group the constraints by the elements
they affect (insertion order), then for every over-constrained element report
the constraints beyond its budget (`slice(maxConstraints)`). -/
def detectConflicts (s : ConstraintSolver) : List Constraint :=
  let constraintsByElement := s.constraints.foldl (fun m kc =>
    kc.2.elementIds.foldl (fun m2 eid =>
      mapSet m2 eid ((mapLookup m2 eid).getD [] ++ [kc.2])) m) []
  constraintsByElement.foldl (fun acc pair =>
    match mapLookup s.elements pair.1 with
    | none => acc
    | some el =>
      if maxConstraintsForElement el < pair.2.length then
        acc ++ pair.2.drop (maxConstraintsForElement el)
      else acc) []

/-- `ConstraintSolver.applyConstraintCorrections`: accumulate one random
nudge per control point for every unsatisfied constraint with a finite error
at least the tolerance, then move every element's control points by the
accumulated corrections scaled by `stepSize`. -/
def applyConstraintCorrections (ops : NumOps) (s : ConstraintSolver) : ConstraintSolver :=
  let init : List (ℕ × List Point) := s.elements.map (fun kv =>
    (kv.1, (kv.2.getControlPoints ops).map (fun _ => (⟨0, 0, 0⟩ : Point))))
  let st := s.constraints.foldl (fun st kc =>
    if kc.2.status = .satisfied then st
    else
      match calculateError ops s.elements kc.2 with
      | none => st
      | some e =>
        if e < s.config.tolerance then st
        else
          kc.2.elementIds.foldl (fun st2 eid =>
            match mapLookup st2.1 eid with
            | none => st2
            | some pts =>
              (List.range pts.length).foldl (fun acc i =>
                let rc := (s.randStream acc.2 - 1 / 2) * (e * s.config.dampingFactor) * (1 / 10)
                let cur := (mapLookup acc.1 eid).getD []
                let p := cur.get! i
                (mapSet acc.1 eid (cur.set i ⟨p.x + rc, p.y + rc, p.z⟩), acc.2 + 1)) st2) st)
    ((init, s.randIdx) : List (ℕ × List Point) × ℕ)
  { s with
    elements := s.elements.map (fun kv =>
      match mapLookup st.1 kv.1 with
      | none => kv
      | some ecs =>
        (kv.1, kv.2.updateFromPoints ops ((kv.2.getControlPoints ops).enum.map (fun ip =>
          let corr := ecs.get! ip.1
          ⟨ip.2.x + corr.x * s.config.stepSize, ip.2.y + corr.y * s.config.stepSize,
            ip.2.z + corr.z * s.config.stepSize⟩))))
    randIdx := st.2 }

/-- `SolverResult` (the human-readable `message` field is omitted). -/
structure SolverResult where
  success : Bool
  iterations : ℕ
  finalError : ℚ
  conflictedConstraints : List Constraint
deriving Repr

/-- The iterative loop of `ConstraintSolver.solve`, fueled (the source's
`while` runs at most `maxIterations` passes, so any fuel of at least
`maxIterations + 1` is exact). -/
def solveLoop (ops : NumOps) : ℕ → ℕ → ℚ → ConstraintSolver → ℕ × ℚ × ConstraintSolver
  | 0, iteration, totalError, s => (iteration, totalError, s)
  | fuel + 1, iteration, totalError, s =>
    if iteration < s.config.maxIterations ∧ s.config.tolerance < totalError then
      let s2 := applyConstraintCorrections ops s
      let newError := calculateTotalError ops s2
      if |newError - totalError| < s.config.tolerance * (1 / 10) then (iteration, newError, s2)
      else solveLoop ops fuel (iteration + 1) newError s2
    else (iteration, totalError, s)

/-- `ConstraintSolver.solve`: compute the initial aggregate error, refresh
statuses, bail out with `success := false` and zero iterations when
`detectConflicts` is non-empty, otherwise run the iterative loop, refresh
statuses again and report the still-violated constraints as conflicted. -/
def ConstraintSolver.solve (ops : NumOps) (s : ConstraintSolver) :
    SolverResult × ConstraintSolver :=
  let totalError := calculateTotalError ops s
  let s1 := updateConstraintStatuses ops s
  let conflicts := detectConflicts s1
  if 0 < conflicts.length then
    (⟨false, 0, totalError, conflicts⟩, s1)
  else
    let r := solveLoop ops (s1.config.maxIterations + 1) 0 totalError s1
    let s2 := updateConstraintStatuses ops r.2.2
    let conflicted := (s2.constraints.map Prod.snd).filter (fun c => c.status = .violated)
    (⟨decide (r.2.1 < s2.config.tolerance), r.1, r.2.1, conflicted⟩, s2)

/-- `Feature` (FeatureEngine): id (a random string in the source, a natural
here), display name, dependency ids. -/
structure Feature where
  id : ℕ
  name : String
  dependencies : List ℕ
deriving DecidableEq, Repr

instance : Inhabited Feature := ⟨⟨0, "", []⟩⟩

/-- Structured counterpart of the strings `validateFeatureDependencies`
pushes. -/
inductive DepError where
  | missingDep (name : String) (depId : ℕ)
  | circular (name : String)
deriving DecidableEq, Repr

/-- Mutable state of the `checkCircular` closure. -/
structure DfsState where
  visiting : List ℕ
  visited : List ℕ
  errors : List DepError
deriving DecidableEq, Repr

/-- The `checkCircular` closure of `validateFeatureDependencies`: a
three-color DFS (`visiting`/`visited`/unvisited).  A `visiting` hit pushes a
circular-dependency error and aborts; on abort the `visiting` entry of the
current feature is **not** removed (the source returns early).  The `for`
loop over dependencies, which returns early on the first failing dependency,
is folded with a continuation flag.  The recursion is fueled; any fuel
exceeding the feature count is exact because each level adds a distinct
feature id to `visiting`. -/
def checkCircular (features : List Feature) : ℕ → Feature → DfsState → Bool × DfsState
  | 0, _, st => (false, st)
  | fuel + 1, f, st =>
    if f.id ∈ st.visiting then
      (false, { st with errors := st.errors ++ [.circular f.name] })
    else if f.id ∈ st.visited then (true, st)
    else
      let st1 := { st with visiting := st.visiting ++ [f.id] }
      let r := f.dependencies.foldl (fun acc d =>
        if acc.1 then
          match features.find? (fun g => g.id == d) with
          | some g => checkCircular features fuel g acc.2
          | none => acc
        else acc) (true, st1)
      if r.1 then
        (true, { r.2 with visiting := r.2.visiting.erase f.id, visited := r.2.visited ++ [f.id] })
      else (false, r.2)

/-- The single step of the `for` loop of `checkCircular` over the current
feature's dependency ids, named for proofs; definitionally the literal
fold function of `checkCircular`. -/
def dfsStep (features : List Feature) (fuel : ℕ) (acc : Bool × DfsState) (d : ℕ) :
    Bool × DfsState :=
  if acc.1 then
    match features.find? (fun g => g.id == d) with
    | some g => checkCircular features fuel g acc.2
    | none => acc
  else acc

/-- The first loop of `validateFeatureDependencies`: one error per
dependency id not present among the feature ids, in iteration order. -/
def missingDepErrors (features : List Feature) : List DepError :=
  let featureIds := features.map (fun f => f.id)
  features.flatMap (fun f =>
    f.dependencies.filterMap (fun depId =>
      if depId ∈ featureIds then none else some (.missingDep f.name depId)))

/-- One step of the outer DFS loop of `validateFeatureDependencies`: skip
already-visited features, otherwise run `checkCircular` (any fuel above the
feature count is exact; the source recursion's depth is bounded by the
number of distinct ids in `visiting`). -/
def dfsDrive (features : List Feature) (st : DfsState) (f : Feature) : DfsState :=
  if f.id ∈ st.visited then st else (checkCircular features (features.length + 1) f st).2

/-- `FeatureEngine.validateFeatureDependencies`: report dependencies on
non-existent ids, then run the three-color DFS from every not-yet-visited
feature; valid exactly when no error was pushed. -/
def validateFeatureDependencies (features : List Feature) : Bool × List DepError :=
  let stFinal := features.foldl (dfsDrive features) ⟨[], [], missingDepErrors features⟩
  (stFinal.errors.length = 0, stFinal.errors)

/-- Position of the first occurrence of `x` (the length when absent). -/
def listPos : List ℕ → ℕ → ℕ
  | [], _ => 0
  | y :: t, x => if y = x then 0 else listPos t x + 1

/-- The visited list is topologically consistent: every found dependency of
a visited feature was visited strictly earlier. -/
def goodOrder (features : List Feature) (visited : List ℕ) : Prop :=
  ∀ x ∈ visited, ∀ fx, features.find? (fun g => g.id == x) = some fx →
    ∀ d ∈ fx.dependencies, ∀ g, features.find? (fun g2 => g2.id == d) = some g →
      g.id ∈ visited ∧ listPos visited g.id < listPos visited x

/-- State invariant of the DFS of `validateFeatureDependencies`: `visiting`
holds distinct existing feature ids none of which is finished, and the
finished features are topologically ordered. -/
def DfsInv (features : List Feature) (st : DfsState) : Prop :=
  st.visiting.Nodup ∧
  (∀ x ∈ st.visiting, x ∈ features.map Feature.id) ∧
  (∀ x ∈ st.visiting, x ∉ st.visited) ∧
  goodOrder features st.visited

/-- What one DFS call does to the state: it only appends errors (all of them
circular-dependency reports naming existing features, with at least one
whenever the call fails), only appends finished features, and preserves the
invariant. -/
def DfsProgress (features : List Feature) (st : DfsState) (r : Bool × DfsState) : Prop :=
  (∃ etail, r.2.errors = st.errors ++ etail ∧
    (∀ er ∈ etail, ∃ g, g ∈ features ∧ er = DepError.circular g.name) ∧
    (r.1 = false → etail ≠ [])) ∧
  (∃ vtail, r.2.visited = st.visited ++ vtail) ∧
  DfsInv features r.2

/-- A concrete line element used by solver scenarios. -/
def sampleLine : Line := Line.make ⟨0, 0, 0⟩ ⟨1, 0, 0⟩

/-- An over-constrained solver state: five parallel constraints all attached
to a single line (budget 4). -/
def overSolver : ConstraintSolver :=
  ⟨defaultSolverConfig,
   [(0, ⟨0, .parallel, [0], .violated⟩), (1, ⟨1, .parallel, [0], .violated⟩),
    (2, ⟨2, .parallel, [0], .violated⟩), (3, ⟨3, .parallel, [0], .violated⟩),
    (4, ⟨4, .parallel, [0], .violated⟩)],
   [(0, .line sampleLine)], fun _ => 0, 0⟩

/-- A converged solver state: one equal-length constraint between two
identical lines (error exactly zero). -/
def convergedSolver : ConstraintSolver :=
  ⟨defaultSolverConfig, [(0, ⟨0, .equalLength, [0, 1], .violated⟩)],
   [(0, .line sampleLine), (1, .line sampleLine)], fun _ => 0, 0⟩

/-- The canonical two-feature dependency cycle: `A` depends on `B` and `B`
depends on `A`. -/
def cycleFeatures : List Feature := [⟨0, "A", [1]⟩, ⟨1, "B", [0]⟩]

/-- The world/plane round trip always lands on the plane's projection of the
input point; helper identity behind claim C3.  Requires the documented
orthonormal-frame invariant (unit normal and u axis, perpendicular to each
other) together with the constructor fact `vAxis = normal × uAxis`. -/
theorem planeToWorld_worldToPlane (pl : Plane)
    (hn : pl.normal.dot pl.normal = 1)
    (hu : pl.uAxis.dot pl.uAxis = 1)
    (hnu : pl.normal.dot pl.uAxis = 0)
    (hv : pl.vAxis = pl.normal.cross pl.uAxis)
    (p : Point) :
    pl.planeToWorld (pl.worldToPlane p) = pl.projectPoint p := by
  obtain ⟨⟨o1, o2, o3⟩, ⟨a1, a2, a3⟩, ⟨b1, b2, b3⟩, vax⟩ := pl
  obtain ⟨p1, p2, p3⟩ := p
  simp only [Vector.dot, Vector.cross] at hn hu hnu hv
  subst hv
  simp only [Plane.planeToWorld, Plane.worldToPlane, Plane.projectPoint,
    Plane.distanceToPoint, Vector.fromPoints, Vector.dot, Vector.multiply,
    Vector.add, Vector.cross, Point.subtract, Point.add, Point.mk.injEq]
  refine ⟨?_, ?_, ?_⟩
  · linear_combination
      ((p1 - o1) * (b1 * b1 + b2 * b2 + b3 * b3) -
        b1 * ((p1 - o1) * b1 + (p2 - o2) * b2 + (p3 - o3) * b3)) * hn +
      ((p1 - o1) - a1 * ((p1 - o1) * a1 + (p2 - o2) * a2 + (p3 - o3) * a3)) * hu +
      (a1 * ((p1 - o1) * b1 + (p2 - o2) * b2 + (p3 - o3) * b3) -
        (p1 - o1) * (a1 * b1 + a2 * b2 + a3 * b3)) * hnu
  · linear_combination
      ((p2 - o2) * (b1 * b1 + b2 * b2 + b3 * b3) -
        b2 * ((p1 - o1) * b1 + (p2 - o2) * b2 + (p3 - o3) * b3)) * hn +
      ((p2 - o2) - a2 * ((p1 - o1) * a1 + (p2 - o2) * a2 + (p3 - o3) * a3)) * hu +
      (a2 * ((p1 - o1) * b1 + (p2 - o2) * b2 + (p3 - o3) * b3) -
        (p2 - o2) * (a1 * b1 + a2 * b2 + a3 * b3)) * hnu
  · linear_combination
      ((p3 - o3) * (b1 * b1 + b2 * b2 + b3 * b3) -
        b3 * ((p1 - o1) * b1 + (p2 - o2) * b2 + (p3 - o3) * b3)) * hn +
      ((p3 - o3) - a3 * ((p1 - o1) * a1 + (p2 - o2) * a2 + (p3 - o3) * a3)) * hu +
      (a3 * ((p1 - o1) * b1 + (p2 - o2) * b2 + (p3 - o3) * b3) -
        (p3 - o3) * (a1 * b1 + a2 * b2 + a3 * b3)) * hnu

theorem ratSqrt_one : ratSqrt 1 = 1 := ratOps.sqrt_exact 1 1 (by norm_num) (by norm_num)

theorem ratSqrt_zero : ratSqrt 0 = 0 := ratOps.sqrt_exact 0 0 (by norm_num) (by norm_num)

/-- The frame the source constructor produces for `Plane.XY()`. -/
theorem planeXY_val :
    Plane.planeXY = ⟨⟨0, 0, 0⟩, ⟨0, 0, 1⟩, ⟨0, 1, 0⟩, ⟨-1, 0, 0⟩⟩ := by
  unfold Plane.planeXY Plane.create
  norm_num [ratOps, Vector.normalize, Vector.length, Vector.cross, ratSqrt_one]

/-- C3 counterexample: on the XY plane exactly as the source constructor
builds it, the point `(0,0,1)` does not survive the
`planeToWorld ∘ worldToPlane` round trip: the round trip returns `(0,0,0)`,
which differs from the input by `1` in the z coordinate, far beyond the
`1e-6` tolerance. -/
theorem claim3_roundtrip_counterexample :
    Plane.planeXY.planeToWorld (Plane.planeXY.worldToPlane ⟨0, 0, 1⟩) = ⟨0, 0, 0⟩ ∧
    ¬ Point.equals (Plane.planeXY.planeToWorld (Plane.planeXY.worldToPlane ⟨0, 0, 1⟩))
        ⟨0, 0, 1⟩ defaultTolerance := by
  rw [planeXY_val]
  norm_num [Plane.planeToWorld, Plane.worldToPlane, Plane.projectPoint,
    Plane.distanceToPoint, Vector.fromPoints, Vector.dot, Vector.multiply,
    Vector.add, Point.add, Point.subtract, Point.equals, Point.mk.injEq,
    defaultTolerance]

/-- C3 (amended): for a plane satisfying the documented orthonormal-frame
invariant (unit, mutually perpendicular normal and u axis, and
`vAxis = normal × uAxis` as the constructor computes it), the round trip
`planeToWorld (worldToPlane p)` equals the projection of `p` onto the
plane; consequently it equals `p` within the `1e-6` tolerance whenever `p`
lies on the plane (distance below tolerance) — but not for arbitrary
points off the plane. -/
theorem claim3_plane_roundtrip (pl : Plane)
    (hn : pl.normal.dot pl.normal = 1)
    (hu : pl.uAxis.dot pl.uAxis = 1)
    (hnu : pl.normal.dot pl.uAxis = 0)
    (hv : pl.vAxis = pl.normal.cross pl.uAxis)
    (p : Point) :
    pl.planeToWorld (pl.worldToPlane p) = pl.projectPoint p ∧
    (|pl.distanceToPoint p| < defaultTolerance →
      Point.equals (pl.planeToWorld (pl.worldToPlane p)) p defaultTolerance) := by
  refine ⟨planeToWorld_worldToPlane pl hn hu hnu hv p, fun hd => ?_⟩
  rw [planeToWorld_worldToPlane pl hn hu hnu hv p]
  have habs : ∀ a c e : ℚ, c * c ≤ 1 → |e| < defaultTolerance →
      |a - c * e - a| < defaultTolerance := by
    intro a c e hc hdlt
    have h0 : a - c * e - a = -(e * c) := by ring
    rw [h0, abs_neg, abs_mul]
    have h1 : |c| ≤ 1 := abs_le_one_iff_mul_self_le_one.mpr hc
    calc |e| * |c| ≤ |e| * 1 := mul_le_mul_of_nonneg_left h1 (abs_nonneg e)
    _ = |e| := mul_one _
    _ < defaultTolerance := hdlt
  simp only [Vector.dot] at hn
  simp only [Plane.projectPoint, Plane.distanceToPoint, Vector.multiply,
    Vector.fromPoints, Vector.dot, Point.subtract, Point.equals] at hd ⊢
  exact ⟨habs _ _ _ (by nlinarith [mul_self_nonneg pl.normal.y, mul_self_nonneg pl.normal.z]) hd,
    habs _ _ _ (by nlinarith [mul_self_nonneg pl.normal.x, mul_self_nonneg pl.normal.z]) hd,
    habs _ _ _ (by nlinarith [mul_self_nonneg pl.normal.x, mul_self_nonneg pl.normal.y]) hd⟩

/-- Witness for C3 (amended): concrete application on the XY plane with the
on-plane point `(3, 5, 0)`. -/
theorem claim3_plane_roundtrip_witness :
    Plane.planeXY.planeToWorld (Plane.planeXY.worldToPlane ⟨3, 5, 0⟩) =
      Plane.planeXY.projectPoint ⟨3, 5, 0⟩ ∧
    Point.equals (Plane.planeXY.planeToWorld (Plane.planeXY.worldToPlane ⟨3, 5, 0⟩))
      ⟨3, 5, 0⟩ defaultTolerance := by
  have h := claim3_plane_roundtrip Plane.planeXY
    (by rw [planeXY_val]; norm_num [Vector.dot])
    (by rw [planeXY_val]; norm_num [Vector.dot])
    (by rw [planeXY_val]; norm_num [Vector.dot])
    (by rw [planeXY_val]; norm_num [Vector.cross])
    ⟨3, 5, 0⟩
  refine ⟨h.1, h.2 ?_⟩
  rw [planeXY_val]
  norm_num [Plane.distanceToPoint, Vector.fromPoints, Vector.dot, defaultTolerance]


theorem ne_zero_of_not_abs_lt_eps {a : ℚ} (h : ¬ |a| < transformEps) : a ≠ 0 := by
  intro h0
  exact h (by rw [h0]; norm_num [transformEps])

/-- Abstract arithmetic core of the transform round trip: if the adjugate
rows act on the homogeneous image of `p` as `det • (p, 1)`, then applying
the scaled adjugate to the perspective-divided image and dividing again
recovers the original coordinates. -/
theorem inv_roundtrip_core
    {det w1 px py pz X Y Z : ℚ}
    {a00 a01 a02 a03 a10 a11 a12 a13 a20 a21 a22 a23 a30 a31 a32 a33 : ℚ}
    (hdet : det ≠ 0) (hw1 : w1 ≠ 0)
    (hB0 : a00 * X + a01 * Y + a02 * Z + a03 * w1 = det * px)
    (hB1 : a10 * X + a11 * Y + a12 * Z + a13 * w1 = det * py)
    (hB2 : a20 * X + a21 * Y + a22 * Z + a23 * w1 = det * pz)
    (hB3 : a30 * X + a31 * Y + a32 * Z + a33 * w1 = det) :
    (a00 / det * (X / w1) + a01 / det * (Y / w1) + a02 / det * (Z / w1) + a03 / det) /
      (a30 / det * (X / w1) + a31 / det * (Y / w1) + a32 / det * (Z / w1) + a33 / det) = px ∧
    (a10 / det * (X / w1) + a11 / det * (Y / w1) + a12 / det * (Z / w1) + a13 / det) /
      (a30 / det * (X / w1) + a31 / det * (Y / w1) + a32 / det * (Z / w1) + a33 / det) = py ∧
    (a20 / det * (X / w1) + a21 / det * (Y / w1) + a22 / det * (Z / w1) + a23 / det) /
      (a30 / det * (X / w1) + a31 / det * (Y / w1) + a32 / det * (Z / w1) + a33 / det) = pz := by
  have hcomb : ∀ b0 b1 b2 b3 : ℚ,
      b0 / det * (X / w1) + b1 / det * (Y / w1) + b2 / det * (Z / w1) + b3 / det =
        (b0 * X + b1 * Y + b2 * Z + b3 * w1) / (det * w1) := by
    intro b0 b1 b2 b3
    field_simp
    ring
  simp only [hcomb]
  rw [hB0, hB1, hB2, hB3]
  have hdw : det * w1 ≠ 0 := mul_ne_zero hdet hw1
  have hden : det / (det * w1) = 1 / w1 := by
    field_simp
  rw [hden]
  refine ⟨?_, ?_, ?_⟩ <;>
    · field_simp
      ring

set_option maxHeartbeats 1600000 in
/-- C6: applying a transform whose inverse exists and then the inverse
recovers the original point exactly (hence within tolerance), provided
both homogeneous applications are themselves defined; and `inverse()`
fails precisely when the determinant is below `1e-10` in magnitude. -/
theorem claim6_transform_inverse (t tinv : Transform) (p q r : Point)
    (hinv : t.inverse = some tinv)
    (hq : t.transformPoint p = some q)
    (hr : tinv.transformPoint q = some r) :
    r = p ∧ Point.equals r p defaultTolerance ∧
    (∀ s : Transform, s.inverse = none ↔ |s.determinant| < transformEps) := by
  have hiff : ∀ s : Transform, s.inverse = none ↔ |s.determinant| < transformEps := by
    intro s
    unfold Transform.inverse
    split
    · simp_all
    · simp_all
  have hrp : r = p := by
    unfold Transform.inverse at hinv
    split at hinv
    · exact absurd hinv (by simp)
    · rename_i hdetlt
      have hdet : t.determinant ≠ 0 := ne_zero_of_not_abs_lt_eps hdetlt
      obtain ⟨px, py, pz⟩ := p
      unfold Transform.transformPoint at hq
      dsimp only at hq
      split at hq
      · exact absurd hq (by simp)
      · rename_i hw1lt
        have hw1 : t.m30 * px + t.m31 * py + t.m32 * pz + t.m33 ≠ 0 :=
          ne_zero_of_not_abs_lt_eps hw1lt
        replace hinv := Option.some.inj hinv
        replace hq := Option.some.inj hq
        subst hinv
        subst hq
        unfold Transform.transformPoint at hr
        dsimp only at hr
        split at hr
        · exact absurd hr (by simp)
        · replace hr := Option.some.inj hr
          subst hr
          rw [Point.mk.injEq]
          exact inv_roundtrip_core hdet hw1
            (by unfold Transform.determinant; ring)
            (by unfold Transform.determinant; ring)
            (by unfold Transform.determinant; ring)
            (by unfold Transform.determinant; ring)
  refine ⟨hrp, ?_, hiff⟩
  rw [hrp]
  unfold Point.equals defaultTolerance
  norm_num

/-- Witness for C6: the translation by `(1,2,3)` applied to the origin and
then undone through `inverse()`. -/
theorem claim6_transform_inverse_witness :
    (⟨0, 0, 0⟩ : Point) = ⟨0, 0, 0⟩ ∧ Point.equals ⟨0, 0, 0⟩ ⟨0, 0, 0⟩ defaultTolerance ∧
    (∀ s : Transform, s.inverse = none ↔ |s.determinant| < transformEps) := by
  exact claim6_transform_inverse (Transform.translation 1 2 3)
    (Transform.translation (-1) (-2) (-3)) ⟨0, 0, 0⟩ ⟨1, 2, 3⟩ ⟨0, 0, 0⟩
    (by norm_num [Transform.inverse, Transform.determinant, Transform.translation, transformEps])
    (by norm_num [Transform.transformPoint, Transform.translation, transformEps])
    (by norm_num [Transform.transformPoint, Transform.translation, transformEps])


/-- C8 counterexample: the arc constructed with radius `1` and equal start
and end angles has a strictly positive radius and is nevertheless invalid,
because `Arc.isValid` additionally requires `startAngle !== endAngle`.
This refutes "an Arc is invalid if and only if its radius ≤ 0". -/
theorem claim8_arc_validity_counterexample :
    ¬ (Arc.make ⟨0, 0, 0⟩ 1 0 0).isValid ∧ ¬ ((Arc.make ⟨0, 0, 0⟩ 1 0 0).radius ≤ 0) := by
  norm_num [Arc.make, Arc.isValid]

/-- C8 (amended): a Line is invalid iff its end points coincide within
tolerance and a Circle is invalid iff its radius is ≤ 0, as claimed; an
Arc however is invalid iff its radius is ≤ 0 or its start and end angles
are exactly equal. -/
theorem claim8_element_validity :
    (∀ l : Line, ¬ l.isValid ↔ l.startPoint.equals l.endPoint defaultTolerance) ∧
    (∀ c : Circle, ¬ c.isValid ↔ c.radius ≤ 0) ∧
    (∀ a : Arc, ¬ a.isValid ↔ a.radius ≤ 0 ∨ a.startAngle = a.endAngle) := by
  refine ⟨fun l => ?_, fun c => ?_, fun a => ?_⟩
  · unfold Line.isValid
    exact not_not
  · unfold Circle.isValid
    exact not_lt
  · unfold Arc.isValid
    rw [not_and_or, not_lt, not_not]

/-- C10 counterexample: constructing an `Arc` with a negative radius does
give a positive stored radius, but not necessarily a valid element — with
equal start and end angles the element is invalid, refuting the claim's
"valid element rather than an invalid one" for the constructors in
general. -/
theorem claim10_negative_radius_counterexample :
    (Arc.make ⟨0, 0, 0⟩ (-1) 0 0).radius = 1 ∧ ¬ (Arc.make ⟨0, 0, 0⟩ (-1) 0 0).isValid := by
  norm_num [Arc.make, Arc.isValid]

/-- C10 (amended): `Arc` and `Circle` constructors store `|radius|`, which
is never negative; `updateFromPoints` recomputes the radius as a
`Math.sqrt` distance (or keeps it when too few points are supplied), so a
non-negative radius is preserved; a Circle constructed with a negative
radius is valid, while an Arc constructed with a negative radius is valid
iff its two angles differ. -/
theorem claim10_radius_invariant (ops : NumOps) :
    (∀ c r sa ea, (Arc.make c r sa ea).radius = |r| ∧ 0 ≤ (Arc.make c r sa ea).radius) ∧
    (∀ c r, (Circle.make c r).radius = |r| ∧ 0 ≤ (Circle.make c r).radius) ∧
    (∀ a : Arc, ∀ pts, 0 ≤ a.radius → 0 ≤ (a.updateFromPoints ops pts).radius) ∧
    (∀ c : Circle, ∀ pts, 0 ≤ c.radius → 0 ≤ (c.updateFromPoints ops pts).radius) ∧
    (∀ c r, r < 0 → (Circle.make c r).isValid) ∧
    (∀ c r sa ea, r < 0 → ((Arc.make c r sa ea).isValid ↔ sa ≠ ea)) := by
  refine ⟨fun c r sa ea => ⟨rfl, abs_nonneg r⟩, fun c r => ⟨rfl, abs_nonneg r⟩,
    fun a pts ha => ?_, fun c pts hc => ?_, fun c r hr => ?_, fun c r sa ea hr => ?_⟩
  · unfold Arc.updateFromPoints
    split
    · exact ops.sqrt_nonneg _
    · exact ha
  · unfold Circle.updateFromPoints
    split
    · exact ops.sqrt_nonneg _
    · exact hc
  · unfold Circle.make Circle.isValid
    exact abs_pos.mpr (ne_of_lt hr)
  · unfold Arc.make Arc.isValid
    simp only [abs_pos, ne_of_lt hr, ne_eq, not_false_eq_true, true_and]

/-- Witness for C10: concrete instantiation with the exact-sqrt numeric
operations, a negative-radius circle and arc, and an update shrinking the
radius to a concrete distance. -/
theorem claim10_radius_invariant_witness :
    ((Arc.make ⟨0, 0, 0⟩ (-2) 0 1).radius = |(-2 : ℚ)| ∧
      0 ≤ (Arc.make ⟨0, 0, 0⟩ (-2) 0 1).radius) ∧
    ((Circle.make ⟨0, 0, 0⟩ (-3)).radius = |(-3 : ℚ)| ∧
      0 ≤ (Circle.make ⟨0, 0, 0⟩ (-3)).radius) ∧
    (0 ≤ ((Arc.make ⟨0, 0, 0⟩ (-2) 0 1).updateFromPoints ratOps
        [⟨0, 0, 0⟩, ⟨3, 4, 0⟩, ⟨5, 0, 0⟩]).radius) ∧
    (0 ≤ ((Circle.make ⟨0, 0, 0⟩ (-3)).updateFromPoints ratOps [⟨0, 0, 0⟩, ⟨3, 4, 0⟩]).radius) ∧
    (Circle.make ⟨0, 0, 0⟩ (-3)).isValid ∧
    ((Arc.make ⟨0, 0, 0⟩ (-2) 0 1).isValid ↔ (0 : ℚ) ≠ 1) := by
  have h := claim10_radius_invariant ratOps
  exact ⟨h.1 ⟨0, 0, 0⟩ (-2) 0 1, h.2.1 ⟨0, 0, 0⟩ (-3),
    h.2.2.1 _ _ (h.1 ⟨0, 0, 0⟩ (-2) 0 1).2, h.2.2.2.1 _ _ (h.2.1 ⟨0, 0, 0⟩ (-3)).2,
    h.2.2.2.2.1 ⟨0, 0, 0⟩ (-3) (by norm_num),
    h.2.2.2.2.2 ⟨0, 0, 0⟩ (-2) 0 1 (by norm_num)⟩


theorem countP_map_false {α : Type} (l : List α) (f : α → ValidationError)
    (p : ValidationError → Bool) (h : ∀ x, p (f x) = false) : (l.map f).countP p = 0 := by
  rw [List.countP_map, List.countP_eq_zero]
  intro a _
  simp [Function.comp, h a]


section MapLemmas

variable {K V : Type} [DecidableEq K]

theorem mapLookup_eq_none_iff (l : List (K × V)) (k : K) :
    mapLookup l k = none ↔ k ∉ l.map Prod.fst := by
  induction l with
  | nil => simp [mapLookup]
  | cons hd t ih =>
    obtain ⟨k', v'⟩ := hd
    by_cases h : k' = k
    · subst h
      simp [mapLookup]
    · simp [mapLookup, h, ih, Ne.symm h]

theorem mapLookup_isSome_of_mem_keys {l : List (K × V)} {k : K}
    (h : k ∈ l.map Prod.fst) : (mapLookup l k).isSome := by
  cases hl : mapLookup l k with
  | none => exact absurd ((mapLookup_eq_none_iff l k).mp hl) (not_not.mpr h)
  | some v => rfl

theorem mapLookup_mem {l : List (K × V)} {k : K} {v : V}
    (h : mapLookup l k = some v) : (k, v) ∈ l := by
  induction l with
  | nil => simp [mapLookup] at h
  | cons hd t ih =>
    obtain ⟨k', v'⟩ := hd
    by_cases hk : k' = k
    · subst hk
      simp [mapLookup] at h
      simp [h]
    · simp only [mapLookup, if_neg hk] at h
      simp [ih h]

theorem mapLookup_of_mem_nodup {l : List (K × V)} {k : K} {v : V}
    (hnd : (l.map Prod.fst).Nodup) (h : (k, v) ∈ l) : mapLookup l k = some v := by
  induction l with
  | nil => simp at h
  | cons hd t ih =>
    obtain ⟨k', v'⟩ := hd
    simp only [List.map_cons, List.nodup_cons] at hnd
    rcases List.mem_cons.mp h with h1 | h1
    · obtain ⟨rfl, rfl⟩ := Prod.mk.injEq .. ▸ h1
      simp [mapLookup]
    · have hk : k' ≠ k := by
        rintro rfl
        exact hnd.1 (List.mem_map.mpr ⟨_, h1, rfl⟩)
      simp only [mapLookup, if_neg hk]
      exact ih hnd.2 h1

theorem mapSet_fresh {l : List (K × V)} {k : K} (v : V)
    (h : k ∉ l.map Prod.fst) : mapSet l k v = l ++ [(k, v)] := by
  induction l with
  | nil => simp [mapSet]
  | cons hd t ih =>
    obtain ⟨k', v'⟩ := hd
    simp only [List.map_cons, List.mem_cons, not_or] at h
    simp only [mapSet, if_neg (Ne.symm h.1)]
    simp [ih h.2]

theorem mapSet_self {l : List (K × V)} {k : K} {v : V}
    (h : mapLookup l k = some v) : mapSet l k v = l := by
  induction l with
  | nil => simp [mapLookup] at h
  | cons hd t ih =>
    obtain ⟨k', v'⟩ := hd
    by_cases hk : k' = k
    · subst hk
      have hv : v' = v := by simpa [mapLookup] using h
      subst hv
      simp [mapSet]
    · simp only [mapLookup, if_neg hk] at h
      simp [mapSet, hk, ih h]

theorem mapLookup_append_some {l1 l2 : List (K × V)} {k : K} {v : V}
    (h : mapLookup l1 k = some v) : mapLookup (l1 ++ l2) k = some v := by
  induction l1 with
  | nil => simp [mapLookup] at h
  | cons hd t ih =>
    obtain ⟨k', v'⟩ := hd
    by_cases hk : k' = k
    · subst hk
      have hv : v' = v := by simpa [mapLookup] using h
      subst hv
      simp [mapLookup]
    · simp only [mapLookup, if_neg hk] at h
      simp only [List.cons_append, mapLookup, if_neg hk]
      exact ih h

theorem mapLookup_append_none {l1 l2 : List (K × V)} {k : K}
    (h : mapLookup l1 k = none) : mapLookup (l1 ++ l2) k = mapLookup l2 k := by
  induction l1 with
  | nil => rw [List.nil_append]
  | cons hd t ih =>
    obtain ⟨k', v'⟩ := hd
    by_cases hk : k' = k
    · subst hk
      simp [mapLookup] at h
    · simp only [mapLookup, if_neg hk] at h
      simp only [List.cons_append, mapLookup, if_neg hk]
      exact ih h

end MapLemmas

namespace BoundaryRepresentation

theorem addVertex_fresh (b : BoundaryRepresentation) (v : Vertex)
    (h : v.id ∉ b.vertices.map Prod.fst) :
    b.addVertex v = { b with vertices := b.vertices ++ [(v.id, v)] } := by
  unfold addVertex
  rw [mapSet_fresh v h]

theorem addVertex_noop (b : BoundaryRepresentation) (v : Vertex)
    (h : mapLookup b.vertices v.id = some v) : b.addVertex v = b := by
  unfold addVertex
  rw [mapSet_self h]

theorem foldl_addVertex_spec (L : List ((ℕ × ℕ) × Vertex)) (b : BoundaryRepresentation)
    (hfresh : ∀ kv ∈ L, kv.2.id ∉ b.vertices.map Prod.fst)
    (hnd : (L.map (fun kv => kv.2.id)).Nodup) :
    L.foldl (fun b kv => b.addVertex kv.2) b =
      { b with vertices := b.vertices ++ L.map (fun kv => (kv.2.id, kv.2)) } := by
  induction L generalizing b with
  | nil => simp
  | cons hd t ih =>
    simp only [List.map_cons, List.nodup_cons] at hnd
    simp only [List.foldl_cons]
    rw [addVertex_fresh b hd.2 (hfresh hd (List.mem_cons_self hd t))]
    rw [ih _ ?_ hnd.2]
    · simp
    · intro kv hkv
      simp only [List.map_append, List.mem_append, not_or]
      refine ⟨hfresh kv (List.mem_cons_of_mem hd hkv), ?_⟩
      simp only [List.map_cons, List.map_nil, List.mem_singleton]
      intro hcon
      exact hnd.1 (hcon ▸ List.mem_map.mpr ⟨kv, hkv, rfl⟩)

theorem addEdge_spec (b : BoundaryRepresentation) (e : Edge)
    (hs : mapLookup b.vertices e.startVertex.id = some e.startVertex)
    (he : mapLookup b.vertices e.endVertex.id = some e.endVertex) :
    b.addEdge e = { b with edges := mapSet b.edges e.id e } := by
  unfold addEdge
  rw [addVertex_noop ({ b with edges := mapSet b.edges e.id e }) e.startVertex hs,
    addVertex_noop ({ b with edges := mapSet b.edges e.id e }) e.endVertex he]

theorem addEdge_fresh (b : BoundaryRepresentation) (e : Edge)
    (hs : mapLookup b.vertices e.startVertex.id = some e.startVertex)
    (he : mapLookup b.vertices e.endVertex.id = some e.endVertex)
    (hfresh : e.id ∉ b.edges.map Prod.fst) :
    b.addEdge e = { b with edges := b.edges ++ [(e.id, e)] } := by
  rw [addEdge_spec b e hs he, mapSet_fresh e hfresh]

theorem addEdge_noop (b : BoundaryRepresentation) (e : Edge)
    (hs : mapLookup b.vertices e.startVertex.id = some e.startVertex)
    (he : mapLookup b.vertices e.endVertex.id = some e.endVertex)
    (hed : mapLookup b.edges e.id = some e) : b.addEdge e = b := by
  rw [addEdge_spec b e hs he, mapSet_self hed]

theorem foldl_addEdge_spec (L : List Edge) (b : BoundaryRepresentation)
    (hv : ∀ e ∈ L, mapLookup b.vertices e.startVertex.id = some e.startVertex ∧
      mapLookup b.vertices e.endVertex.id = some e.endVertex)
    (hfresh : ∀ e ∈ L, e.id ∉ b.edges.map Prod.fst)
    (hnd : (L.map Edge.id).Nodup) :
    L.foldl addEdge b = { b with edges := b.edges ++ L.map (fun e => (e.id, e)) } := by
  induction L generalizing b with
  | nil => simp
  | cons hd t ih =>
    simp only [List.map_cons, List.nodup_cons] at hnd
    simp only [List.foldl_cons]
    rw [addEdge_fresh b hd (hv hd (List.mem_cons_self hd t)).1
      (hv hd (List.mem_cons_self hd t)).2 (hfresh hd (List.mem_cons_self hd t))]
    rw [ih _ ?_ ?_ hnd.2]
    · simp
    · intro e hee
      exact hv e (List.mem_cons_of_mem hd hee)
    · intro e hee
      simp only [List.map_append, List.mem_append, not_or]
      refine ⟨hfresh e (List.mem_cons_of_mem hd hee), ?_⟩
      simp only [List.map_cons, List.map_nil, List.mem_singleton]
      intro hcon
      exact hnd.1 (hcon ▸ List.mem_map.mpr ⟨e, hee, rfl⟩)

theorem foldl_addEdge_noop (L : List Edge) (b : BoundaryRepresentation)
    (hv : ∀ e ∈ L, mapLookup b.vertices e.startVertex.id = some e.startVertex ∧
      mapLookup b.vertices e.endVertex.id = some e.endVertex)
    (hed : ∀ e ∈ L, mapLookup b.edges e.id = some e) :
    L.foldl addEdge b = b := by
  induction L with
  | nil => simp
  | cons hd t ih =>
    simp only [List.foldl_cons]
    rw [addEdge_noop b hd (hv hd (List.mem_cons_self hd t)).1
      (hv hd (List.mem_cons_self hd t)).2 (hed hd (List.mem_cons_self hd t))]
    exact ih (fun e hee => hv e (List.mem_cons_of_mem hd hee))
      (fun e hee => hed e (List.mem_cons_of_mem hd hee))

theorem addFace_existing (b : BoundaryRepresentation) (f : Face)
    (hface : f.id ∉ b.faces.map Prod.fst)
    (hv : ∀ e ∈ f.getEdges, mapLookup b.vertices e.startVertex.id = some e.startVertex ∧
      mapLookup b.vertices e.endVertex.id = some e.endVertex)
    (hed : ∀ e ∈ f.getEdges, mapLookup b.edges e.id = some e) :
    b.addFace f = { b with faces := b.faces ++ [(f.id, f)] } := by
  unfold addFace
  rw [mapSet_fresh f hface]
  exact foldl_addEdge_noop _ _ hv hed

theorem addFace_two_fresh (b : BoundaryRepresentation) (f : Face) (e1 e2 g1 g2 : Edge)
    (hloop : f.getEdges = [e1, e2, g1, g2])
    (hface : f.id ∉ b.faces.map Prod.fst)
    (hv : ∀ e ∈ f.getEdges, mapLookup b.vertices e.startVertex.id = some e.startVertex ∧
      mapLookup b.vertices e.endVertex.id = some e.endVertex)
    (he1 : mapLookup b.edges e1.id = some e1)
    (he2 : mapLookup b.edges e2.id = some e2)
    (hg1 : g1.id ∉ b.edges.map Prod.fst)
    (hg2 : g2.id ∉ b.edges.map Prod.fst)
    (hgne : g2.id ≠ g1.id) :
    b.addFace f = { b with
      faces := b.faces ++ [(f.id, f)]
      edges := b.edges ++ [(g1.id, g1), (g2.id, g2)] } := by
  unfold addFace
  rw [mapSet_fresh f hface, hloop]
  have h1 := hv e1 (by rw [hloop]; simp)
  have h2 := hv e2 (by rw [hloop]; simp)
  have h3 := hv g1 (by rw [hloop]; simp)
  have h4 := hv g2 (by rw [hloop]; simp)
  simp only [List.foldl_cons, List.foldl_nil]
  rw [addEdge_noop ({ b with faces := b.faces ++ [(f.id, f)] }) e1 h1.1 h1.2 he1,
    addEdge_noop ({ b with faces := b.faces ++ [(f.id, f)] }) e2 h2.1 h2.2 he2,
    addEdge_fresh ({ b with faces := b.faces ++ [(f.id, f)] }) g1 h3.1 h3.2 hg1]
  rw [addEdge_fresh ({ b with
      faces := b.faces ++ [(f.id, f)]
      edges := b.edges ++ [(g1.id, g1)] }) g2 h4.1 h4.2 ?_]
  · simp
  · simp only [List.map_append, List.mem_append, not_or]
    exact ⟨hg2, by simpa using hgne⟩

end BoundaryRepresentation

theorem get_bang {α : Type _} [Inhabited α] (l : List α) (i : ℕ) (h : i < l.length) :
    l.get! i = l[i] := by
  induction l generalizing i with
  | nil => simp at h
  | cons a t ih =>
    cases i with
    | zero => rfl
    | succ j =>
      have h1 : (a :: t).get! (j + 1) = t.get! j := rfl
      rw [h1, ih j (by simpa using h)]
      simp

theorem mapLookup_getD_mem {K V : Type} [DecidableEq K] {l : List (K × V)} {k : K} (d : V)
    (hk : k ∈ l.map Prod.fst) : (k, (mapLookup l k).getD d) ∈ l := by
  obtain ⟨v, hv⟩ := Option.isSome_iff_exists.mp (mapLookup_isSome_of_mem_keys hk)
  rw [hv]
  simpa using mapLookup_mem hv

theorem mem_range_map_add (a k b : ℕ) :
    b ∈ (List.range k).map (fun j => a + j) ↔ a ≤ b ∧ b < a + k := by
  simp only [List.mem_map, List.mem_range]
  constructor
  · rintro ⟨j, hj, rfl⟩
    omega
  · rintro ⟨h1, h2⟩
    exact ⟨b - a, by omega, by omega⟩

theorem nodup_range_map_add (a k : ℕ) : ((List.range k).map (fun j => a + j)).Nodup :=
  List.Nodup.map (fun x y h => by omega) (List.nodup_range k)

theorem flatMap_consecutive_pairs (c : ℕ) (k : ℕ) :
    (List.range k).flatMap (fun i => [c + 2 * i, c + 2 * i + 1]) =
      (List.range (2 * k)).map (fun j => c + j) := by
  induction k with
  | zero => simp
  | succ k ih =>
    rw [List.range_succ, List.flatMap_append, ih]
    have h2 : 2 * (k + 1) = 2 * k + 1 + 1 := by ring
    rw [h2, List.range_succ, List.range_succ, List.map_append, List.map_append]
    simp [Nat.add_assoc]

section ExtrudeFacts

variable (ops : NumOps) (sk : Sketch) (d : ℚ) (dir : Option Vector) (tp : Option ℚ)

theorem controlPoints_length_ge_two (e : GeometryElement) :
    2 ≤ (e.getControlPoints ops).length := by
  cases e <;>
    simp [GeometryElement.getControlPoints, Line.getControlPoints,
      Arc.getControlPoints, Circle.getControlPoints]

theorem extractSketchVertices_keys_eq :
    (extractSketchVertices ops sk).map Prod.fst =
      sk.elements.flatMap (fun ie =>
        (List.range (ie.2.getControlPoints ops).length).map (fun j => (ie.1, j))) := by
  unfold extractSketchVertices
  rw [List.map_flatMap]
  congr 1
  funext ie
  rw [List.map_map]
  have h1 : (Prod.fst ∘ fun jp : ℕ × Point => ((ie.1, jp.1), jp.2)) =
      ((fun j => (ie.1, j)) ∘ Prod.fst) := rfl
  rw [h1, ← List.map_map, List.enum_map_fst]

theorem flatMap_key_blocks_nodup {β : Type} (l : List (ℕ × β)) (len : ℕ × β → ℕ)
    (hnd : (l.map Prod.fst).Nodup) :
    (l.flatMap (fun ie => (List.range (len ie)).map (fun j => (ie.1, j)))).Nodup := by
  induction l with
  | nil => simp
  | cons ie rest ih =>
    simp only [List.map_cons, List.nodup_cons] at hnd
    simp only [List.flatMap_cons]
    rw [List.nodup_append]
    refine ⟨?_, ih hnd.2, ?_⟩
    · exact List.Nodup.map (fun x y h => by simpa using h) (List.nodup_range _)
    · intro a ha hb
      simp only [List.mem_map, List.mem_range] at ha
      obtain ⟨j, _, rfl⟩ := ha
      simp only [List.mem_flatMap, List.mem_map, List.mem_range] at hb
      obtain ⟨ie2, hie2, j2, _, hj2⟩ := hb
      have hfst : ie2.1 = ie.1 := (Prod.ext_iff.mp hj2).1
      exact hnd.1 (hfst ▸ List.mem_map.mpr ⟨ie2, hie2, rfl⟩)

theorem extractSketchVertices_keys_nodup
    (hnd : (sk.elements.map Prod.fst).Nodup) :
    ((extractSketchVertices ops sk).map Prod.fst).Nodup := by
  rw [extractSketchVertices_keys_eq]
  exact flatMap_key_blocks_nodup sk.elements
    (fun ie => (ie.2.getControlPoints ops).length) hnd

theorem createEdgesFromSketch_keys_mem (kk : (ℕ × ℕ) × (ℕ × ℕ))
    (hkk : kk ∈ createEdgesFromSketch sk) :
    kk.1 ∈ (extractSketchVertices ops sk).map Prod.fst ∧
    kk.2 ∈ (extractSketchVertices ops sk).map Prod.fst := by
  simp only [createEdgesFromSketch, List.mem_filterMap] at hkk
  obtain ⟨ie, hie, hmatch⟩ := hkk
  cases hel : ie.2 with
  | line l =>
    rw [hel] at hmatch
    simp only [Option.some.injEq] at hmatch
    subst hmatch
    constructor <;>
    · rw [extractSketchVertices_keys_eq]
      refine List.mem_flatMap.mpr ⟨ie, hie, ?_⟩
      refine List.mem_map.mpr ⟨_, List.mem_range.mpr ?_, rfl⟩
      rw [hel]
      simp [GeometryElement.getControlPoints, Line.getControlPoints]
  | arc a =>
    rw [hel] at hmatch
    simp at hmatch
  | circle c =>
    rw [hel] at hmatch
    simp at hmatch

theorem extractSketchVertices_length_ge :
    2 * sk.elements.length ≤ (extractSketchVertices ops sk).length := by
  unfold extractSketchVertices
  induction sk.elements with
  | nil => simp
  | cons ie rest ih =>
    simp only [List.flatMap_cons, List.length_append, List.length_map, List.enum_length,
      List.length_cons]
    have h2 := controlPoints_length_ge_two ops ie.2
    omega

theorem createEdgesFromSketch_length_le :
    (createEdgesFromSketch sk).length ≤ sk.elements.length :=
  List.length_filterMap_le _ _

theorem edge_count_lt_vertex_count (hne : sk.elements ≠ []) :
    (createEdgesFromSketch sk).length < (extractSketchVertices ops sk).length := by
  have h1 := createEdgesFromSketch_length_le sk
  have h2 := extractSketchVertices_length_ge ops sk
  have h3 : 0 < sk.elements.length := List.length_pos.mpr hne
  omega

end ExtrudeFacts

section ExtrudePhases

variable (ops : NumOps) (sk : Sketch) (d : ℚ) (dir : Option Vector) (tp : Option ℚ)

theorem extrudeBottomVertices_length :
    (extrudeBottomVertices ops sk).length = (extractSketchVertices ops sk).length := by
  simp [extrudeBottomVertices]

theorem extrudeTopVertices_length :
    (extrudeTopVertices ops sk d dir tp).length = (extractSketchVertices ops sk).length := by
  simp [extrudeTopVertices, extrudeBottomVertices]

theorem extrudeBottomVertices_keys :
    (extrudeBottomVertices ops sk).map Prod.fst =
      (extractSketchVertices ops sk).map Prod.fst := by
  have h1 : (extrudeBottomVertices ops sk).map Prod.fst =
      ((extractSketchVertices ops sk).enum.map Prod.snd).map Prod.fst := by
    simp only [extrudeBottomVertices, List.map_map]
    rfl
  rw [h1, List.enum_map_snd]

theorem extrudeBottomVertices_ids :
    (extrudeBottomVertices ops sk).map (fun kv => kv.2.id) =
      List.range (extractSketchVertices ops sk).length := by
  have h1 : (extrudeBottomVertices ops sk).map (fun kv => kv.2.id) =
      (extractSketchVertices ops sk).enum.map Prod.fst := by
    simp only [extrudeBottomVertices, List.map_map]
    rfl
  rw [h1, List.enum_map_fst]

theorem extrudeTopVertices_keys :
    (extrudeTopVertices ops sk d dir tp).map Prod.fst =
      (extractSketchVertices ops sk).map Prod.fst := by
  have h1 : (extrudeTopVertices ops sk d dir tp).map Prod.fst =
      ((extrudeBottomVertices ops sk).enum.map Prod.snd).map Prod.fst := by
    simp only [extrudeTopVertices, List.map_map]
    rfl
  rw [h1, List.enum_map_snd, extrudeBottomVertices_keys]

theorem extrudeTopVertices_ids :
    (extrudeTopVertices ops sk d dir tp).map (fun kv => kv.2.id) =
      (List.range (extractSketchVertices ops sk).length).map
        (fun j => (extractSketchVertices ops sk).length + j) := by
  have h1 : (extrudeTopVertices ops sk d dir tp).map (fun kv => kv.2.id) =
      ((extrudeBottomVertices ops sk).enum.map Prod.fst).map
        (fun j => (extractSketchVertices ops sk).length + j) := by
    simp only [extrudeTopVertices, List.map_map]
    rfl
  rw [h1, List.enum_map_fst, extrudeBottomVertices_length]

theorem extrudeBottomEdges_length :
    (extrudeBottomEdges ops sk).length = (createEdgesFromSketch sk).length := by
  simp [extrudeBottomEdges]

theorem extrudeTopEdges_length :
    (extrudeTopEdges ops sk d dir tp).length = (createEdgesFromSketch sk).length := by
  simp [extrudeTopEdges]

theorem extrudeVerticalEdges_length :
    (extrudeVerticalEdges ops sk d dir tp).length = (extractSketchVertices ops sk).length := by
  simp [extrudeVerticalEdges, extrudeBottomVertices]

theorem extrudeBottomEdges_ids :
    (extrudeBottomEdges ops sk).map Edge.id =
      List.range (createEdgesFromSketch sk).length := by
  have h1 : (extrudeBottomEdges ops sk).map Edge.id =
      (createEdgesFromSketch sk).enum.map Prod.fst := by
    simp only [extrudeBottomEdges, List.map_map]
    rfl
  rw [h1, List.enum_map_fst]

theorem extrudeTopEdges_ids :
    (extrudeTopEdges ops sk d dir tp).map Edge.id =
      (List.range (createEdgesFromSketch sk).length).map
        (fun j => (createEdgesFromSketch sk).length + j) := by
  have h1 : (extrudeTopEdges ops sk d dir tp).map Edge.id =
      ((createEdgesFromSketch sk).enum.map Prod.fst).map
        (fun j => (createEdgesFromSketch sk).length + j) := by
    simp only [extrudeTopEdges, List.map_map]
    rfl
  rw [h1, List.enum_map_fst]

theorem extrudeVerticalEdges_ids :
    (extrudeVerticalEdges ops sk d dir tp).map Edge.id =
      (List.range (extractSketchVertices ops sk).length).map
        (fun j => 2 * (createEdgesFromSketch sk).length + j) := by
  have h1 : (extrudeVerticalEdges ops sk d dir tp).map Edge.id =
      ((extrudeBottomVertices ops sk).enum.map Prod.fst).map
        (fun j => 2 * (createEdgesFromSketch sk).length + j) := by
    simp only [extrudeVerticalEdges, List.map_map]
    rfl
  rw [h1, List.enum_map_fst, extrudeBottomVertices_length]

theorem extrudeBottomVertices_get (j : ℕ) (h : j < (extractSketchVertices ops sk).length) :
    (extrudeBottomVertices ops sk).get! j =
      (((extractSketchVertices ops sk).get! j).1,
        ⟨j, sk.sketchToWorld ((extractSketchVertices ops sk).get! j).2⟩) := by
  rw [get_bang _ j (by rw [extrudeBottomVertices_length]; exact h), get_bang _ j h]
  simp only [extrudeBottomVertices]
  rw [List.getElem_map, List.getElem_enum]

theorem extrudeTopVertices_get_key (j : ℕ) (h : j < (extractSketchVertices ops sk).length) :
    ((extrudeTopVertices ops sk d dir tp).get! j).1 =
      ((extrudeBottomVertices ops sk).get! j).1 := by
  rw [get_bang _ j (by rw [extrudeTopVertices_length]; exact h),
    get_bang _ j (by rw [extrudeBottomVertices_length]; exact h)]
  simp only [extrudeTopVertices]
  rw [List.getElem_map, List.getElem_enum]

theorem extrudeTopVertices_get_id (j : ℕ) (h : j < (extractSketchVertices ops sk).length) :
    ((extrudeTopVertices ops sk d dir tp).get! j).2.id =
      (extractSketchVertices ops sk).length + j := by
  rw [get_bang _ j (by rw [extrudeTopVertices_length]; exact h)]
  simp only [extrudeTopVertices]
  rw [List.getElem_map, List.getElem_enum]

theorem extrudeBottomEdges_get (i : ℕ) (h : i < (createEdgesFromSketch sk).length) :
    (extrudeBottomEdges ops sk).get! i =
      ⟨i,
        (mapLookup (extrudeBottomVertices ops sk)
          ((createEdgesFromSketch sk).get! i).1).getD default,
        (mapLookup (extrudeBottomVertices ops sk)
          ((createEdgesFromSketch sk).get! i).2).getD default⟩ := by
  rw [get_bang _ i (by rw [extrudeBottomEdges_length]; exact h), get_bang _ i h]
  simp only [extrudeBottomEdges]
  rw [List.getElem_map, List.getElem_enum]

theorem extrudeTopEdges_get (i : ℕ) (h : i < (createEdgesFromSketch sk).length) :
    (extrudeTopEdges ops sk d dir tp).get! i =
      ⟨(createEdgesFromSketch sk).length + i,
        (mapLookup (extrudeTopVertices ops sk d dir tp)
          ((createEdgesFromSketch sk).get! i).1).getD default,
        (mapLookup (extrudeTopVertices ops sk d dir tp)
          ((createEdgesFromSketch sk).get! i).2).getD default⟩ := by
  rw [get_bang _ i (by rw [extrudeTopEdges_length]; exact h), get_bang _ i h]
  simp only [extrudeTopEdges]
  rw [List.getElem_map, List.getElem_enum]

theorem extrudeVerticalEdges_get (j : ℕ) (h : j < (extractSketchVertices ops sk).length) :
    (extrudeVerticalEdges ops sk d dir tp).get! j =
      ⟨2 * (createEdgesFromSketch sk).length + j, ((extrudeBottomVertices ops sk).get! j).2,
        (mapLookup (extrudeTopVertices ops sk d dir tp)
          ((extrudeBottomVertices ops sk).get! j).1).getD default⟩ := by
  rw [get_bang _ j (by rw [extrudeVerticalEdges_length]; exact h),
    get_bang _ j (by rw [extrudeBottomVertices_length]; exact h)]
  simp only [extrudeVerticalEdges]
  rw [List.getElem_map, List.getElem_enum]

end ExtrudePhases

section ExtrudeAssembly

variable (ops : NumOps) (sk : Sketch) (d : ℚ) (dir : Option Vector) (tp : Option ℚ)

theorem extrudeVertexPairs_keys :
    (extrudeVertexPairs ops sk d dir tp).map Prod.fst =
      List.range (extractSketchVertices ops sk).length ++
        (List.range (extractSketchVertices ops sk).length).map
          (fun j => (extractSketchVertices ops sk).length + j) := by
  unfold extrudeVertexPairs
  rw [List.map_append, List.map_map, List.map_map]
  have h1 : (Prod.fst ∘ fun kv : (ℕ × ℕ) × Vertex => (kv.2.id, kv.2)) =
      (fun kv : (ℕ × ℕ) × Vertex => kv.2.id) := rfl
  rw [h1, extrudeBottomVertices_ids, extrudeTopVertices_ids]

theorem extrudeVertexPairs_keys_nodup :
    ((extrudeVertexPairs ops sk d dir tp).map Prod.fst).Nodup := by
  rw [extrudeVertexPairs_keys, List.nodup_append]
  refine ⟨List.nodup_range _, nodup_range_map_add _ _, ?_⟩
  intro a ha hb
  rw [List.mem_range] at ha
  rw [mem_range_map_add] at hb
  omega

theorem extrudeVertexPairs_lookup_bottom (kv : (ℕ × ℕ) × Vertex)
    (hkv : kv ∈ extrudeBottomVertices ops sk) :
    mapLookup (extrudeVertexPairs ops sk d dir tp) kv.2.id = some kv.2 := by
  apply mapLookup_of_mem_nodup (extrudeVertexPairs_keys_nodup ops sk d dir tp)
  unfold extrudeVertexPairs
  exact List.mem_append_left _ (List.mem_map.mpr ⟨kv, hkv, rfl⟩)

theorem extrudeVertexPairs_lookup_top (kv : (ℕ × ℕ) × Vertex)
    (hkv : kv ∈ extrudeTopVertices ops sk d dir tp) :
    mapLookup (extrudeVertexPairs ops sk d dir tp) kv.2.id = some kv.2 := by
  apply mapLookup_of_mem_nodup (extrudeVertexPairs_keys_nodup ops sk d dir tp)
  unfold extrudeVertexPairs
  exact List.mem_append_right _ (List.mem_map.mpr ⟨kv, hkv, rfl⟩)

theorem extrudeBottomEdges_endpoints (e : Edge) (he : e ∈ extrudeBottomEdges ops sk) :
    mapLookup (extrudeVertexPairs ops sk d dir tp) e.startVertex.id = some e.startVertex ∧
    mapLookup (extrudeVertexPairs ops sk d dir tp) e.endVertex.id = some e.endVertex := by
  simp only [extrudeBottomEdges, List.mem_map] at he
  obtain ⟨ie, hie, rfl⟩ := he
  have hie2 : ie.2 ∈ createEdgesFromSketch sk := by
    have h2 := List.enum_map_snd (createEdgesFromSketch sk)
    exact h2 ▸ List.mem_map_of_mem Prod.snd hie
  obtain ⟨h1, h2⟩ := createEdgesFromSketch_keys_mem ops sk ie.2 hie2
  rw [← extrudeBottomVertices_keys] at h1 h2
  constructor
  · exact extrudeVertexPairs_lookup_bottom ops sk d dir tp _ (mapLookup_getD_mem default h1)
  · exact extrudeVertexPairs_lookup_bottom ops sk d dir tp _ (mapLookup_getD_mem default h2)

theorem extrudeTopEdges_endpoints (e : Edge) (he : e ∈ extrudeTopEdges ops sk d dir tp) :
    mapLookup (extrudeVertexPairs ops sk d dir tp) e.startVertex.id = some e.startVertex ∧
    mapLookup (extrudeVertexPairs ops sk d dir tp) e.endVertex.id = some e.endVertex := by
  simp only [extrudeTopEdges, List.mem_map] at he
  obtain ⟨ie, hie, rfl⟩ := he
  have hie2 : ie.2 ∈ createEdgesFromSketch sk := by
    have h2 := List.enum_map_snd (createEdgesFromSketch sk)
    exact h2 ▸ List.mem_map_of_mem Prod.snd hie
  obtain ⟨h1, h2⟩ := createEdgesFromSketch_keys_mem ops sk ie.2 hie2
  rw [← extrudeTopVertices_keys ops sk d dir tp] at h1 h2
  constructor
  · exact extrudeVertexPairs_lookup_top ops sk d dir tp _ (mapLookup_getD_mem default h1)
  · exact extrudeVertexPairs_lookup_top ops sk d dir tp _ (mapLookup_getD_mem default h2)

theorem extrudeVerticalEdges_endpoints (e : Edge)
    (he : e ∈ extrudeVerticalEdges ops sk d dir tp) :
    mapLookup (extrudeVertexPairs ops sk d dir tp) e.startVertex.id = some e.startVertex ∧
    mapLookup (extrudeVertexPairs ops sk d dir tp) e.endVertex.id = some e.endVertex := by
  simp only [extrudeVerticalEdges, List.mem_map] at he
  obtain ⟨jkv, hjkv, rfl⟩ := he
  have hmem : jkv.2 ∈ extrudeBottomVertices ops sk := by
    have h2 := List.enum_map_snd (extrudeBottomVertices ops sk)
    exact h2 ▸ List.mem_map_of_mem Prod.snd hjkv
  constructor
  · exact extrudeVertexPairs_lookup_bottom ops sk d dir tp jkv.2 hmem
  · have hk : jkv.2.1 ∈ (extrudeTopVertices ops sk d dir tp).map Prod.fst := by
      rw [extrudeTopVertices_keys, ← extrudeBottomVertices_keys]
      exact List.mem_map_of_mem Prod.fst hmem
    exact extrudeVertexPairs_lookup_top ops sk d dir tp _ (mapLookup_getD_mem default hk)

theorem extrudeSideEdgePairs_keys (k : ℕ) :
    (extrudeSideEdgePairs ops sk d dir tp k).map Prod.fst =
      (List.range (2 * k)).map
        (fun j => 2 * (createEdgesFromSketch sk).length +
          (extractSketchVertices ops sk).length + j) := by
  rw [← flatMap_consecutive_pairs]
  simp only [extrudeSideEdgePairs, List.map_flatMap, List.map_cons, List.map_nil]

theorem extrudeEdgePairs_partial_keys (k : ℕ) :
    (((extrudeBottomEdges ops sk).map (fun e => (e.id, e)) ++
      (extrudeTopEdges ops sk d dir tp).map (fun e => (e.id, e)) ++
      (extrudeVerticalEdges ops sk d dir tp).map (fun e => (e.id, e)) ++
      extrudeSideEdgePairs ops sk d dir tp k).map Prod.fst) =
      List.range (createEdgesFromSketch sk).length ++
      (List.range (createEdgesFromSketch sk).length).map
        (fun j => (createEdgesFromSketch sk).length + j) ++
      (List.range (extractSketchVertices ops sk).length).map
        (fun j => 2 * (createEdgesFromSketch sk).length + j) ++
      (List.range (2 * k)).map
        (fun j => 2 * (createEdgesFromSketch sk).length +
          (extractSketchVertices ops sk).length + j) := by
  simp only [List.map_append, List.map_map]
  have h1 : (Prod.fst ∘ fun e : Edge => (e.id, e)) = Edge.id := rfl
  rw [h1, extrudeBottomEdges_ids, extrudeTopEdges_ids, extrudeVerticalEdges_ids,
    extrudeSideEdgePairs_keys]

theorem ranges_four_nodup (n m k : ℕ) :
    (List.range n ++ (List.range n).map (fun j => n + j) ++
      (List.range m).map (fun j => 2 * n + j) ++
      (List.range k).map (fun j => 2 * n + m + j)).Nodup := by
  refine List.Nodup.append (List.Nodup.append (List.Nodup.append ?_ ?_ ?_) ?_ ?_) ?_ ?_
  · exact List.nodup_range n
  · exact nodup_range_map_add n n
  · intro a ha hb
    rw [List.mem_range] at ha
    rw [mem_range_map_add] at hb
    omega
  · exact nodup_range_map_add (2 * n) m
  · intro a ha hb
    rw [mem_range_map_add] at hb
    rcases List.mem_append.mp ha with h | h
    · rw [List.mem_range] at h
      omega
    · rw [mem_range_map_add] at h
      omega
  · exact nodup_range_map_add (2 * n + m) k
  · intro a ha hb
    rw [mem_range_map_add] at hb
    rcases List.mem_append.mp ha with h | h
    · rcases List.mem_append.mp h with h2 | h2
      · rw [List.mem_range] at h2
        omega
      · rw [mem_range_map_add] at h2
        omega
    · rw [mem_range_map_add] at h
      omega

theorem extrudeEdgePairs_partial_keys_nodup (k : ℕ) :
    (((extrudeBottomEdges ops sk).map (fun e => (e.id, e)) ++
      (extrudeTopEdges ops sk d dir tp).map (fun e => (e.id, e)) ++
      (extrudeVerticalEdges ops sk d dir tp).map (fun e => (e.id, e)) ++
      extrudeSideEdgePairs ops sk d dir tp k).map Prod.fst).Nodup := by
  rw [extrudeEdgePairs_partial_keys]
  exact ranges_four_nodup _ _ _

theorem extrudeEdgePairs_partial_lookup_bottom (k : ℕ) (e : Edge)
    (he : e ∈ extrudeBottomEdges ops sk) :
    mapLookup ((extrudeBottomEdges ops sk).map (fun e => (e.id, e)) ++
      (extrudeTopEdges ops sk d dir tp).map (fun e => (e.id, e)) ++
      (extrudeVerticalEdges ops sk d dir tp).map (fun e => (e.id, e)) ++
      extrudeSideEdgePairs ops sk d dir tp k) e.id = some e :=
  mapLookup_of_mem_nodup (extrudeEdgePairs_partial_keys_nodup ops sk d dir tp k)
    (List.mem_append_left _ (List.mem_append_left _
      (List.mem_append_left _ (List.mem_map.mpr ⟨e, he, rfl⟩))))

theorem extrudeEdgePairs_partial_lookup_top (k : ℕ) (e : Edge)
    (he : e ∈ extrudeTopEdges ops sk d dir tp) :
    mapLookup ((extrudeBottomEdges ops sk).map (fun e => (e.id, e)) ++
      (extrudeTopEdges ops sk d dir tp).map (fun e => (e.id, e)) ++
      (extrudeVerticalEdges ops sk d dir tp).map (fun e => (e.id, e)) ++
      extrudeSideEdgePairs ops sk d dir tp k) e.id = some e :=
  mapLookup_of_mem_nodup (extrudeEdgePairs_partial_keys_nodup ops sk d dir tp k)
    (List.mem_append_left _ (List.mem_append_left _
      (List.mem_append_right _ (List.mem_map.mpr ⟨e, he, rfl⟩))))

theorem extrudeEdgePairs_partial_lookup_vertical (k : ℕ) (e : Edge)
    (he : e ∈ extrudeVerticalEdges ops sk d dir tp) :
    mapLookup ((extrudeBottomEdges ops sk).map (fun e => (e.id, e)) ++
      (extrudeTopEdges ops sk d dir tp).map (fun e => (e.id, e)) ++
      (extrudeVerticalEdges ops sk d dir tp).map (fun e => (e.id, e)) ++
      extrudeSideEdgePairs ops sk d dir tp k) e.id = some e :=
  mapLookup_of_mem_nodup (extrudeEdgePairs_partial_keys_nodup ops sk d dir tp k)
    (List.mem_append_left _ (List.mem_append_right _ (List.mem_map.mpr ⟨e, he, rfl⟩)))

end ExtrudeAssembly

theorem Face.make_getEdges (ops : NumOps) (id : ℕ) (L : List Edge) :
    (Face.make ops id L).getEdges = L := by
  simp [Face.make, Face.getEdges]

theorem Face.make_area (ops : NumOps) (id : ℕ) (L : List Edge) :
    (Face.make ops id L).area = none := rfl

theorem Face.make_id (ops : NumOps) (id : ℕ) (L : List Edge) :
    (Face.make ops id L).id = id := rfl

theorem extrudeSideFacePairs_keys (ops : NumOps) (sk : Sketch) (d : ℚ) (dir : Option Vector)
    (tp : Option ℚ) (k : ℕ) :
    (extrudeSideFacePairs ops sk d dir tp k).map Prod.fst =
      (List.range k).map (fun i => 2 + i) := by
  unfold extrudeSideFacePairs
  rw [List.map_map]
  rfl

set_option maxHeartbeats 2000000 in
theorem extrudeBrep_spec (ops : NumOps) (sk : Sketch) (d : ℚ) (dir : Option Vector)
    (tp : Option ℚ) (hne : sk.elements ≠ []) :
    extrudeBrep ops sk d dir tp =
      { vertices := extrudeVertexPairs ops sk d dir tp
        edges := extrudeEdgePairs ops sk d dir tp
        faces := extrudeFacePairs ops sk d dir tp } := by
  have hnm : (createEdgesFromSketch sk).length < (extractSketchVertices ops sk).length :=
    edge_count_lt_vertex_count ops sk hne
  have hpv : (Prod.fst ∘ fun kv : (ℕ × ℕ) × Vertex => (kv.2.id, kv.2)) =
      (fun kv : (ℕ × ℕ) × Vertex => kv.2.id) := rfl
  have hpe : (Prod.fst ∘ fun e : Edge => (e.id, e)) = Edge.id := rfl
  have hside0 : extrudeSideEdgePairs ops sk d dir tp 0 = [] := rfl
  -- Phase 1: bottom vertices into the empty B-Rep.
  have h1 : (extrudeBottomVertices ops sk).foldl (fun b kv => b.addVertex kv.2)
      BoundaryRepresentation.empty =
      (⟨(extrudeBottomVertices ops sk).map (fun kv => (kv.2.id, kv.2)), [], []⟩ :
        BoundaryRepresentation) := by
    have hf : ∀ kv ∈ extrudeBottomVertices ops sk,
        kv.2.id ∉ (BoundaryRepresentation.empty).vertices.map Prod.fst := by
      intro kv _
      simp [BoundaryRepresentation.empty]
    have hnd : ((extrudeBottomVertices ops sk).map (fun kv => kv.2.id)).Nodup := by
      rw [extrudeBottomVertices_ids]
      exact List.nodup_range _
    rw [BoundaryRepresentation.foldl_addVertex_spec _ _ hf hnd]
    rfl
  -- Phase 2: top vertices.
  have h2 : (extrudeTopVertices ops sk d dir tp).foldl (fun b kv => b.addVertex kv.2)
      (⟨(extrudeBottomVertices ops sk).map (fun kv => (kv.2.id, kv.2)), [], []⟩ :
        BoundaryRepresentation) =
      (⟨extrudeVertexPairs ops sk d dir tp, [], []⟩ : BoundaryRepresentation) := by
    have hf : ∀ kv ∈ extrudeTopVertices ops sk d dir tp,
        kv.2.id ∉ ((⟨(extrudeBottomVertices ops sk).map (fun kv => (kv.2.id, kv.2)), [], []⟩ :
          BoundaryRepresentation)).vertices.map Prod.fst := by
      intro kv hkv
      have hid : kv.2.id ∈ (extrudeTopVertices ops sk d dir tp).map (fun kv => kv.2.id) :=
        List.mem_map_of_mem _ hkv
      rw [extrudeTopVertices_ids, mem_range_map_add] at hid
      intro hcon
      rw [List.map_map, hpv, extrudeBottomVertices_ids, List.mem_range] at hcon
      omega
    have hnd : ((extrudeTopVertices ops sk d dir tp).map (fun kv => kv.2.id)).Nodup := by
      rw [extrudeTopVertices_ids]
      exact nodup_range_map_add _ _
    rw [BoundaryRepresentation.foldl_addVertex_spec _ _ hf hnd]
    rfl
  -- Phase 3: bottom edges.
  have h3 : (extrudeBottomEdges ops sk).foldl BoundaryRepresentation.addEdge
      (⟨extrudeVertexPairs ops sk d dir tp, [], []⟩ : BoundaryRepresentation) =
      (⟨extrudeVertexPairs ops sk d dir tp,
        (extrudeBottomEdges ops sk).map (fun e => (e.id, e)), []⟩ :
        BoundaryRepresentation) := by
    have hfresh : ∀ e ∈ extrudeBottomEdges ops sk,
        e.id ∉ ((⟨extrudeVertexPairs ops sk d dir tp, [], []⟩ :
          BoundaryRepresentation)).edges.map Prod.fst := by
      intro e _ hcon
      simp at hcon
    have hnd : ((extrudeBottomEdges ops sk).map Edge.id).Nodup := by
      rw [extrudeBottomEdges_ids]
      exact List.nodup_range _
    rw [BoundaryRepresentation.foldl_addEdge_spec _ _
      (fun e he => extrudeBottomEdges_endpoints ops sk d dir tp e he) hfresh hnd]
    rfl
  -- Phase 4: top edges.
  have h4 : (extrudeTopEdges ops sk d dir tp).foldl BoundaryRepresentation.addEdge
      (⟨extrudeVertexPairs ops sk d dir tp,
        (extrudeBottomEdges ops sk).map (fun e => (e.id, e)), []⟩ :
        BoundaryRepresentation) =
      (⟨extrudeVertexPairs ops sk d dir tp,
        (extrudeBottomEdges ops sk).map (fun e => (e.id, e)) ++
          (extrudeTopEdges ops sk d dir tp).map (fun e => (e.id, e)), []⟩ :
        BoundaryRepresentation) := by
    have hfresh : ∀ e ∈ extrudeTopEdges ops sk d dir tp,
        e.id ∉ ((⟨extrudeVertexPairs ops sk d dir tp,
          (extrudeBottomEdges ops sk).map (fun e => (e.id, e)), []⟩ :
          BoundaryRepresentation)).edges.map Prod.fst := by
      intro e he hcon
      have hid : e.id ∈ (extrudeTopEdges ops sk d dir tp).map Edge.id :=
        List.mem_map_of_mem _ he
      rw [extrudeTopEdges_ids, mem_range_map_add] at hid
      rw [List.map_map, hpe, extrudeBottomEdges_ids, List.mem_range] at hcon
      omega
    have hnd : ((extrudeTopEdges ops sk d dir tp).map Edge.id).Nodup := by
      rw [extrudeTopEdges_ids]
      exact nodup_range_map_add _ _
    rw [BoundaryRepresentation.foldl_addEdge_spec _ _
      (fun e he => extrudeTopEdges_endpoints ops sk d dir tp e he) hfresh hnd]
  -- Phase 5: vertical edges.
  have h5 : (extrudeVerticalEdges ops sk d dir tp).foldl BoundaryRepresentation.addEdge
      (⟨extrudeVertexPairs ops sk d dir tp,
        (extrudeBottomEdges ops sk).map (fun e => (e.id, e)) ++
          (extrudeTopEdges ops sk d dir tp).map (fun e => (e.id, e)), []⟩ :
        BoundaryRepresentation) =
      (⟨extrudeVertexPairs ops sk d dir tp,
        (extrudeBottomEdges ops sk).map (fun e => (e.id, e)) ++
          (extrudeTopEdges ops sk d dir tp).map (fun e => (e.id, e)) ++
          (extrudeVerticalEdges ops sk d dir tp).map (fun e => (e.id, e)), []⟩ :
        BoundaryRepresentation) := by
    have hfresh : ∀ e ∈ extrudeVerticalEdges ops sk d dir tp,
        e.id ∉ ((⟨extrudeVertexPairs ops sk d dir tp,
          (extrudeBottomEdges ops sk).map (fun e => (e.id, e)) ++
            (extrudeTopEdges ops sk d dir tp).map (fun e => (e.id, e)), []⟩ :
          BoundaryRepresentation)).edges.map Prod.fst := by
      intro e he hcon
      have hid : e.id ∈ (extrudeVerticalEdges ops sk d dir tp).map Edge.id :=
        List.mem_map_of_mem _ he
      rw [extrudeVerticalEdges_ids, mem_range_map_add] at hid
      rw [List.map_append, List.map_map, List.map_map, hpe] at hcon
      rcases List.mem_append.mp hcon with h | h
      · rw [extrudeBottomEdges_ids, List.mem_range] at h
        omega
      · rw [extrudeTopEdges_ids, mem_range_map_add] at h
        omega
    have hnd : ((extrudeVerticalEdges ops sk d dir tp).map Edge.id).Nodup := by
      rw [extrudeVerticalEdges_ids]
      exact nodup_range_map_add _ _
    rw [BoundaryRepresentation.foldl_addEdge_spec _ _
      (fun e he => extrudeVerticalEdges_endpoints ops sk d dir tp e he) hfresh hnd]
  -- Phase 6: bottom cap face.
  have h6 : ((⟨extrudeVertexPairs ops sk d dir tp,
      (extrudeBottomEdges ops sk).map (fun e => (e.id, e)) ++
        (extrudeTopEdges ops sk d dir tp).map (fun e => (e.id, e)) ++
        (extrudeVerticalEdges ops sk d dir tp).map (fun e => (e.id, e)), []⟩ :
      BoundaryRepresentation)).addFace (Face.make ops 0 (extrudeBottomEdges ops sk)) =
      (⟨extrudeVertexPairs ops sk d dir tp,
        (extrudeBottomEdges ops sk).map (fun e => (e.id, e)) ++
          (extrudeTopEdges ops sk d dir tp).map (fun e => (e.id, e)) ++
          (extrudeVerticalEdges ops sk d dir tp).map (fun e => (e.id, e)),
        [(0, Face.make ops 0 (extrudeBottomEdges ops sk))]⟩ :
        BoundaryRepresentation) := by
    have hface : (Face.make ops 0 (extrudeBottomEdges ops sk)).id ∉
        (([] : List (ℕ × Face)).map Prod.fst) := by
      simp
    have hv : ∀ e ∈ (Face.make ops 0 (extrudeBottomEdges ops sk)).getEdges,
        mapLookup (extrudeVertexPairs ops sk d dir tp) e.startVertex.id = some e.startVertex ∧
        mapLookup (extrudeVertexPairs ops sk d dir tp) e.endVertex.id = some e.endVertex := by
      intro e he
      rw [Face.make_getEdges] at he
      exact extrudeBottomEdges_endpoints ops sk d dir tp e he
    have hed : ∀ e ∈ (Face.make ops 0 (extrudeBottomEdges ops sk)).getEdges,
        mapLookup ((extrudeBottomEdges ops sk).map (fun e => (e.id, e)) ++
          (extrudeTopEdges ops sk d dir tp).map (fun e => (e.id, e)) ++
          (extrudeVerticalEdges ops sk d dir tp).map (fun e => (e.id, e))) e.id = some e := by
      intro e he
      rw [Face.make_getEdges] at he
      have hl := extrudeEdgePairs_partial_lookup_bottom ops sk d dir tp 0 e he
      rw [hside0, List.append_nil] at hl
      exact hl
    rw [BoundaryRepresentation.addFace_existing _ _ hface hv hed]
    rfl
  -- Phase 7: top cap face.
  have h7 : ((⟨extrudeVertexPairs ops sk d dir tp,
      (extrudeBottomEdges ops sk).map (fun e => (e.id, e)) ++
        (extrudeTopEdges ops sk d dir tp).map (fun e => (e.id, e)) ++
        (extrudeVerticalEdges ops sk d dir tp).map (fun e => (e.id, e)),
      [(0, Face.make ops 0 (extrudeBottomEdges ops sk))]⟩ :
      BoundaryRepresentation)).addFace
        (Face.make ops 1 (extrudeTopEdges ops sk d dir tp).reverse) =
      (⟨extrudeVertexPairs ops sk d dir tp,
        (extrudeBottomEdges ops sk).map (fun e => (e.id, e)) ++
          (extrudeTopEdges ops sk d dir tp).map (fun e => (e.id, e)) ++
          (extrudeVerticalEdges ops sk d dir tp).map (fun e => (e.id, e)),
        [(0, Face.make ops 0 (extrudeBottomEdges ops sk)),
         (1, Face.make ops 1 (extrudeTopEdges ops sk d dir tp).reverse)]⟩ :
        BoundaryRepresentation) := by
    have hface : (Face.make ops 1 (extrudeTopEdges ops sk d dir tp).reverse).id ∉
        ([(0, Face.make ops 0 (extrudeBottomEdges ops sk))].map Prod.fst) := by
      simp [Face.make_id]
    have hv : ∀ e ∈ (Face.make ops 1 (extrudeTopEdges ops sk d dir tp).reverse).getEdges,
        mapLookup (extrudeVertexPairs ops sk d dir tp) e.startVertex.id = some e.startVertex ∧
        mapLookup (extrudeVertexPairs ops sk d dir tp) e.endVertex.id = some e.endVertex := by
      intro e he
      rw [Face.make_getEdges, List.mem_reverse] at he
      exact extrudeTopEdges_endpoints ops sk d dir tp e he
    have hed : ∀ e ∈ (Face.make ops 1 (extrudeTopEdges ops sk d dir tp).reverse).getEdges,
        mapLookup ((extrudeBottomEdges ops sk).map (fun e => (e.id, e)) ++
          (extrudeTopEdges ops sk d dir tp).map (fun e => (e.id, e)) ++
          (extrudeVerticalEdges ops sk d dir tp).map (fun e => (e.id, e))) e.id = some e := by
      intro e he
      rw [Face.make_getEdges, List.mem_reverse] at he
      have hl := extrudeEdgePairs_partial_lookup_top ops sk d dir tp 0 e he
      rw [hside0, List.append_nil] at hl
      exact hl
    rw [BoundaryRepresentation.addFace_existing _ _ hface hv hed]
    rfl
  -- Phase 8: the side-face loop, by induction on the number of processed faces.
  have hstep : ∀ k, k ≤ (createEdgesFromSketch sk).length →
      (List.range k).foldl (fun b i => b.addFace (extrudeSideFace ops sk d dir tp i))
        (⟨extrudeVertexPairs ops sk d dir tp,
          (extrudeBottomEdges ops sk).map (fun e => (e.id, e)) ++
            (extrudeTopEdges ops sk d dir tp).map (fun e => (e.id, e)) ++
            (extrudeVerticalEdges ops sk d dir tp).map (fun e => (e.id, e)),
          [(0, Face.make ops 0 (extrudeBottomEdges ops sk)),
           (1, Face.make ops 1 (extrudeTopEdges ops sk d dir tp).reverse)]⟩ :
          BoundaryRepresentation) =
      (⟨extrudeVertexPairs ops sk d dir tp,
        (extrudeBottomEdges ops sk).map (fun e => (e.id, e)) ++
          (extrudeTopEdges ops sk d dir tp).map (fun e => (e.id, e)) ++
          (extrudeVerticalEdges ops sk d dir tp).map (fun e => (e.id, e)) ++
          extrudeSideEdgePairs ops sk d dir tp k,
        [(0, Face.make ops 0 (extrudeBottomEdges ops sk)),
         (1, Face.make ops 1 (extrudeTopEdges ops sk d dir tp).reverse)] ++
          extrudeSideFacePairs ops sk d dir tp k⟩ :
        BoundaryRepresentation) := by
    intro k
    induction k with
    | zero =>
      intro _
      simp [extrudeSideEdgePairs, extrudeSideFacePairs]
    | succ k ih =>
      intro hk1
      have hkn : k < (createEdgesFromSketch sk).length := hk1
      have hkm : k < (extractSketchVertices ops sk).length := by omega
      have hmpos : 0 < (extrudeVerticalEdges ops sk d dir tp).length := by
        rw [extrudeVerticalEdges_length]
        omega
      have hj : (k + 1) % (extrudeVerticalEdges ops sk d dir tp).length <
          (extrudeVerticalEdges ops sk d dir tp).length := Nat.mod_lt _ hmpos
      have hbe : (extrudeBottomEdges ops sk).get! k ∈ extrudeBottomEdges ops sk := by
        rw [get_bang _ k (by rw [extrudeBottomEdges_length]; exact hkn)]
        exact List.getElem_mem _
      have hte : (extrudeTopEdges ops sk d dir tp).get! k ∈ extrudeTopEdges ops sk d dir tp := by
        rw [get_bang _ k (by rw [extrudeTopEdges_length]; exact hkn)]
        exact List.getElem_mem _
      have hvek : (extrudeVerticalEdges ops sk d dir tp).get! k ∈
          extrudeVerticalEdges ops sk d dir tp := by
        rw [get_bang _ k (by rw [extrudeVerticalEdges_length]; exact hkm)]
        exact List.getElem_mem _
      have hvej : (extrudeVerticalEdges ops sk d dir tp).get!
          ((k + 1) % (extrudeVerticalEdges ops sk d dir tp).length) ∈
          extrudeVerticalEdges ops sk d dir tp := by
        rw [get_bang _ _ hj]
        exact List.getElem_mem _
      rw [List.range_succ, List.foldl_append, ih (Nat.le_of_succ_le hk1)]
      simp only [List.foldl_cons, List.foldl_nil]
      have hloop : (extrudeSideFace ops sk d dir tp k).getEdges =
          [(extrudeBottomEdges ops sk).get! k,
           (extrudeVerticalEdges ops sk d dir tp).get!
             ((k + 1) % (extrudeVerticalEdges ops sk d dir tp).length),
           ⟨2 * (createEdgesFromSketch sk).length + (extractSketchVertices ops sk).length +
              2 * k,
             ((extrudeTopEdges ops sk d dir tp).get! k).endVertex,
             ((extrudeTopEdges ops sk d dir tp).get! k).startVertex⟩,
           ⟨2 * (createEdgesFromSketch sk).length + (extractSketchVertices ops sk).length +
              2 * k + 1,
             ((extrudeVerticalEdges ops sk d dir tp).get! k).endVertex,
             ((extrudeVerticalEdges ops sk d dir tp).get! k).startVertex⟩] := by
        simp only [extrudeSideFace]
        rw [Face.make_getEdges]
      have hface : (extrudeSideFace ops sk d dir tp k).id ∉
          (([(0, Face.make ops 0 (extrudeBottomEdges ops sk)),
            (1, Face.make ops 1 (extrudeTopEdges ops sk d dir tp).reverse)] ++
            extrudeSideFacePairs ops sk d dir tp k).map Prod.fst) := by
        intro hcon
        have hcon2 : 2 + k ∈ (([(0, Face.make ops 0 (extrudeBottomEdges ops sk)),
            (1, Face.make ops 1 (extrudeTopEdges ops sk d dir tp).reverse)] ++
            extrudeSideFacePairs ops sk d dir tp k).map Prod.fst) := hcon
        rw [List.map_append] at hcon2
        rcases List.mem_append.mp hcon2 with h | h
        · simp at h
          omega
        · rw [extrudeSideFacePairs_keys, mem_range_map_add] at h
          omega
      have hv : ∀ e ∈ (extrudeSideFace ops sk d dir tp k).getEdges,
          mapLookup (extrudeVertexPairs ops sk d dir tp) e.startVertex.id =
            some e.startVertex ∧
          mapLookup (extrudeVertexPairs ops sk d dir tp) e.endVertex.id =
            some e.endVertex := by
        intro e he
        rw [hloop] at he
        simp only [List.mem_cons, List.not_mem_nil, or_false] at he
        rcases he with rfl | rfl | rfl | rfl
        · exact extrudeBottomEdges_endpoints ops sk d dir tp _ hbe
        · exact extrudeVerticalEdges_endpoints ops sk d dir tp _ hvej
        · exact ⟨(extrudeTopEdges_endpoints ops sk d dir tp _ hte).2,
            (extrudeTopEdges_endpoints ops sk d dir tp _ hte).1⟩
        · exact ⟨(extrudeVerticalEdges_endpoints ops sk d dir tp _ hvek).2,
            (extrudeVerticalEdges_endpoints ops sk d dir tp _ hvek).1⟩
      have hg1 :
          (⟨2 * (createEdgesFromSketch sk).length + (extractSketchVertices ops sk).length +
              2 * k,
            ((extrudeTopEdges ops sk d dir tp).get! k).endVertex,
            ((extrudeTopEdges ops sk d dir tp).get! k).startVertex⟩ : Edge).id ∉
          (((extrudeBottomEdges ops sk).map (fun e => (e.id, e)) ++
            (extrudeTopEdges ops sk d dir tp).map (fun e => (e.id, e)) ++
            (extrudeVerticalEdges ops sk d dir tp).map (fun e => (e.id, e)) ++
            extrudeSideEdgePairs ops sk d dir tp k).map Prod.fst) := by
        intro hcon
        have hcon2 : 2 * (createEdgesFromSketch sk).length +
            (extractSketchVertices ops sk).length + 2 * k ∈
            (((extrudeBottomEdges ops sk).map (fun e => (e.id, e)) ++
              (extrudeTopEdges ops sk d dir tp).map (fun e => (e.id, e)) ++
              (extrudeVerticalEdges ops sk d dir tp).map (fun e => (e.id, e)) ++
              extrudeSideEdgePairs ops sk d dir tp k).map Prod.fst) := hcon
        rw [extrudeEdgePairs_partial_keys] at hcon2
        rcases List.mem_append.mp hcon2 with h | h
        · rcases List.mem_append.mp h with h2 | h2
          · rcases List.mem_append.mp h2 with h3 | h3
            · rw [List.mem_range] at h3
              omega
            · rw [mem_range_map_add] at h3
              omega
          · rw [mem_range_map_add] at h2
            omega
        · rw [mem_range_map_add] at h
          omega
      have hg2 :
          (⟨2 * (createEdgesFromSketch sk).length + (extractSketchVertices ops sk).length +
              2 * k + 1,
            ((extrudeVerticalEdges ops sk d dir tp).get! k).endVertex,
            ((extrudeVerticalEdges ops sk d dir tp).get! k).startVertex⟩ : Edge).id ∉
          (((extrudeBottomEdges ops sk).map (fun e => (e.id, e)) ++
            (extrudeTopEdges ops sk d dir tp).map (fun e => (e.id, e)) ++
            (extrudeVerticalEdges ops sk d dir tp).map (fun e => (e.id, e)) ++
            extrudeSideEdgePairs ops sk d dir tp k).map Prod.fst) := by
        intro hcon
        have hcon2 : 2 * (createEdgesFromSketch sk).length +
            (extractSketchVertices ops sk).length + 2 * k + 1 ∈
            (((extrudeBottomEdges ops sk).map (fun e => (e.id, e)) ++
              (extrudeTopEdges ops sk d dir tp).map (fun e => (e.id, e)) ++
              (extrudeVerticalEdges ops sk d dir tp).map (fun e => (e.id, e)) ++
              extrudeSideEdgePairs ops sk d dir tp k).map Prod.fst) := hcon
        rw [extrudeEdgePairs_partial_keys] at hcon2
        rcases List.mem_append.mp hcon2 with h | h
        · rcases List.mem_append.mp h with h2 | h2
          · rcases List.mem_append.mp h2 with h3 | h3
            · rw [List.mem_range] at h3
              omega
            · rw [mem_range_map_add] at h3
              omega
          · rw [mem_range_map_add] at h2
            omega
        · rw [mem_range_map_add] at h
          omega
      have hgne :
          (⟨2 * (createEdgesFromSketch sk).length + (extractSketchVertices ops sk).length +
              2 * k + 1,
            ((extrudeVerticalEdges ops sk d dir tp).get! k).endVertex,
            ((extrudeVerticalEdges ops sk d dir tp).get! k).startVertex⟩ : Edge).id ≠
          (⟨2 * (createEdgesFromSketch sk).length + (extractSketchVertices ops sk).length +
              2 * k,
            ((extrudeTopEdges ops sk d dir tp).get! k).endVertex,
            ((extrudeTopEdges ops sk d dir tp).get! k).startVertex⟩ : Edge).id := by
        show 2 * (createEdgesFromSketch sk).length + (extractSketchVertices ops sk).length +
            2 * k + 1 ≠
          2 * (createEdgesFromSketch sk).length + (extractSketchVertices ops sk).length + 2 * k
        omega
      rw [BoundaryRepresentation.addFace_two_fresh _ _ _ _ _ _ hloop hface hv
        (extrudeEdgePairs_partial_lookup_bottom ops sk d dir tp k _ hbe)
        (extrudeEdgePairs_partial_lookup_vertical ops sk d dir tp k _ hvej) hg1 hg2 hgne]
      have hsp : extrudeSideEdgePairs ops sk d dir tp (k + 1) =
          extrudeSideEdgePairs ops sk d dir tp k ++
            [((⟨2 * (createEdgesFromSketch sk).length +
                  (extractSketchVertices ops sk).length + 2 * k,
                ((extrudeTopEdges ops sk d dir tp).get! k).endVertex,
                ((extrudeTopEdges ops sk d dir tp).get! k).startVertex⟩ : Edge).id,
              (⟨2 * (createEdgesFromSketch sk).length +
                  (extractSketchVertices ops sk).length + 2 * k,
                ((extrudeTopEdges ops sk d dir tp).get! k).endVertex,
                ((extrudeTopEdges ops sk d dir tp).get! k).startVertex⟩ : Edge)),
             ((⟨2 * (createEdgesFromSketch sk).length +
                  (extractSketchVertices ops sk).length + 2 * k + 1,
                ((extrudeVerticalEdges ops sk d dir tp).get! k).endVertex,
                ((extrudeVerticalEdges ops sk d dir tp).get! k).startVertex⟩ : Edge).id,
              (⟨2 * (createEdgesFromSketch sk).length +
                  (extractSketchVertices ops sk).length + 2 * k + 1,
                ((extrudeVerticalEdges ops sk d dir tp).get! k).endVertex,
                ((extrudeVerticalEdges ops sk d dir tp).get! k).startVertex⟩ : Edge))] := by
        simp only [extrudeSideEdgePairs, List.range_succ, List.flatMap_append,
          List.flatMap_cons, List.flatMap_nil, List.append_nil]
      have hsf : extrudeSideFacePairs ops sk d dir tp (k + 1) =
          extrudeSideFacePairs ops sk d dir tp k ++
            [((extrudeSideFace ops sk d dir tp k).id, extrudeSideFace ops sk d dir tp k)] := by
        simp only [extrudeSideFacePairs, List.range_succ, List.map_append, List.map_cons,
          List.map_nil]
        rfl
      rw [hsp, hsf]
      simp only [List.append_assoc]
  -- Assemble all phases.
  simp only [extrudeBrep]
  rw [h1, h2, h3, h4, h5, h6, h7, extrudeBottomEdges_length]
  exact hstep (createEdgesFromSketch sk).length le_rfl

theorem Face.computeArea_getEdges (f : Face) : (f.computeArea).2.getEdges = f.getEdges := by
  unfold Face.computeArea
  split
  · rfl
  · rfl

theorem Face.computeArea_area_some (f : Face) (h : ¬ f.outerLoop.length < 3) :
    (f.computeArea).2.area =
      some (|Face.shoelace (f.outerLoop.map (fun e => e.startVertex.point))| / 2) := by
  unfold Face.computeArea
  rw [if_neg h]

theorem countP_map_true {α : Type} (l : List α) (f : α → ValidationError)
    (p : ValidationError → Bool) (h : ∀ x, p (f x) = true) : (l.map f).countP p = l.length := by
  rw [List.countP_map]
  exact List.countP_eq_length.mpr (fun a _ => h a)

theorem countOrphanEdge_validate (b : BoundaryRepresentation) :
    countOrphanEdgeErrors b.validate =
      b.getAllEdges.countP (fun e =>
        !((b.getAllFaces.flatMap (fun f => f.getEdges.map (fun e2 => e2.id))).contains e.id)) := by
  unfold countOrphanEdgeErrors BoundaryRepresentation.validate
  simp only [List.countP_append]
  rw [countP_map_false _ _ _ (fun x => rfl), countP_map_true _ _ _ (fun x => rfl),
    countP_map_false _ _ _ (fun x => rfl), ← List.countP_eq_length_filter]
  omega

theorem countOrphanVertex_validate (b : BoundaryRepresentation) :
    countOrphanVertexErrors b.validate =
      b.getAllVertices.countP (fun v =>
        !((b.getAllEdges.flatMap
          (fun e => [e.startVertex.id, e.endVertex.id])).contains v.id)) := by
  unfold countOrphanVertexErrors BoundaryRepresentation.validate
  simp only [List.countP_append]
  rw [countP_map_false _ _ _ (fun x => rfl), countP_map_false _ _ _ (fun x => rfl),
    countP_map_true _ _ _ (fun x => rfl), ← List.countP_eq_length_filter]
  omega

theorem contains_eq_true_of_mem {a : ℕ} {l : List ℕ} (h : a ∈ l) : l.contains a = true := by
  simpa using h

theorem countP_range_window (m n : ℕ) (q : ℕ → Bool) (hnm : n < m)
    (hq : ∀ j < m, (q j = false ↔ (1 ≤ j ∧ j ≤ n))) :
    (List.range m).countP q = m - n := by
  have hm : m = (n + 1) + (m - (n + 1)) := by omega
  rw [hm, List.range_add, List.countP_append]
  have h1 : (List.range (n + 1)).countP q = 1 := by
    rw [List.range_succ_eq_map, List.countP_cons]
    have hz : q 0 = true := by
      have hiff := hq 0 (by omega)
      cases hqz : q 0 with
      | false =>
        have := hiff.mp hqz
        omega
      | true => rfl
    have hmap : ((List.range n).map Nat.succ).countP q = 0 := by
      refine List.countP_eq_zero.mpr ?_
      intro a ha
      simp only [List.mem_map, List.mem_range] at ha
      obtain ⟨j, hj, rfl⟩ := ha
      have hqa := (hq (j + 1) (by omega)).mpr ⟨by omega, by omega⟩
      intro hc
      rw [Nat.succ_eq_add_one] at hc
      rw [hqa] at hc
      cases hc
    rw [hmap, hz]
    simp
  have h2 : ((List.range (m - (n + 1))).map (fun x => n + 1 + x)).countP q =
      m - (n + 1) := by
    have hcm := List.countP_map q (fun x => n + 1 + x) (List.range (m - (n + 1)))
    have hlen : (List.range (m - (n + 1))).countP (q ∘ fun x => n + 1 + x) =
        (List.range (m - (n + 1))).length := by
      refine List.countP_eq_length.mpr ?_
      intro a ha
      rw [List.mem_range] at ha
      have hiff := hq (n + 1 + a) (by omega)
      cases hqa : q (n + 1 + a) with
      | false =>
        have := hiff.mp hqa
        omega
      | true =>
        simpa using hqa
    rw [hcm, hlen, List.length_range]
  rw [h1, h2]
  omega

theorem extrudeSideFace_getEdges (ops : NumOps) (sk : Sketch) (d : ℚ) (dir : Option Vector)
    (tp : Option ℚ) (i : ℕ) :
    (extrudeSideFace ops sk d dir tp i).getEdges =
      [(extrudeBottomEdges ops sk).get! i,
       (extrudeVerticalEdges ops sk d dir tp).get!
         ((i + 1) % (extrudeVerticalEdges ops sk d dir tp).length),
       ⟨2 * (createEdgesFromSketch sk).length + (extractSketchVertices ops sk).length + 2 * i,
         ((extrudeTopEdges ops sk d dir tp).get! i).endVertex,
         ((extrudeTopEdges ops sk d dir tp).get! i).startVertex⟩,
       ⟨2 * (createEdgesFromSketch sk).length + (extractSketchVertices ops sk).length +
          2 * i + 1,
         ((extrudeVerticalEdges ops sk d dir tp).get! i).endVertex,
         ((extrudeVerticalEdges ops sk d dir tp).get! i).startVertex⟩] := by
  simp only [extrudeSideFace]
  rw [Face.make_getEdges]

theorem extrudeFacePairs_length (ops : NumOps) (sk : Sketch) (d : ℚ) (dir : Option Vector)
    (tp : Option ℚ) :
    (extrudeFacePairs ops sk d dir tp).length = (createEdgesFromSketch sk).length + 2 := by
  simp [extrudeFacePairs, extrudeSideFacePairs]


set_option maxHeartbeats 2000000 in
theorem extrude_validate_counts (ops : NumOps) (sk : Sketch) (d : ℚ) (dir : Option Vector)
    (tp : Option ℚ) (solid : Solid)
    (hnd : (sk.elements.map Prod.fst).Nodup)
    (hsolid : extrude ops sk d dir tp = .ok solid) :
    solid.brep.faces.length = (createEdgesFromSketch sk).length + 2 ∧
    countOrphanVertexErrors solid.brep.validate = 0 ∧
    countOrphanEdgeErrors solid.brep.validate =
      (extractSketchVertices ops sk).length - (createEdgesFromSketch sk).length := by
  unfold extrude at hsolid
  by_cases hd0 : d ≤ 0
  · rw [if_pos hd0] at hsolid
    cases hsolid
  rw [if_neg hd0] at hsolid
  by_cases hlen : sk.elements.length = 0
  · rw [if_pos hlen] at hsolid
    cases hsolid
  rw [if_neg hlen] at hsolid
  injection hsolid with hsol
  subst hsol
  have hne : sk.elements ≠ [] := by
    intro hcon
    rw [hcon] at hlen
    simp at hlen
  have hnm : (createEdgesFromSketch sk).length < (extractSketchVertices ops sk).length :=
    edge_count_lt_vertex_count ops sk hne
  have hspec := extrudeBrep_spec ops sk d dir tp hne
  have hbrep : (Solid.make (extrudeBrep ops sk d dir tp) ("Extruded_" ++ sk.name)).brep =
      (⟨extrudeVertexPairs ops sk d dir tp, extrudeEdgePairs ops sk d dir tp,
        (extrudeFacePairs ops sk d dir tp).map (fun kf => (kf.1, (kf.2.computeArea).2))⟩ :
        BoundaryRepresentation) := by
    show (BoundaryRepresentation.computeSurfaceArea (extrudeBrep ops sk d dir tp)).2 = _
    rw [hspec]
    rfl
  rw [hbrep]
  have hfaces : ((⟨extrudeVertexPairs ops sk d dir tp, extrudeEdgePairs ops sk d dir tp,
      (extrudeFacePairs ops sk d dir tp).map (fun kf => (kf.1, (kf.2.computeArea).2))⟩ :
      BoundaryRepresentation)).getAllFaces =
      ((Face.make ops 0 (extrudeBottomEdges ops sk)).computeArea).2 ::
      ((Face.make ops 1 (extrudeTopEdges ops sk d dir tp).reverse).computeArea).2 ::
      (List.range (createEdgesFromSketch sk).length).map
        (fun i => ((extrudeSideFace ops sk d dir tp i).computeArea).2) := by
    show ((extrudeFacePairs ops sk d dir tp).map
      (fun kf => (kf.1, (kf.2.computeArea).2))).map Prod.snd = _
    unfold extrudeFacePairs extrudeSideFacePairs
    simp only [List.map_cons, List.map_map]
    rfl
  have hedgevals : ((⟨extrudeVertexPairs ops sk d dir tp, extrudeEdgePairs ops sk d dir tp,
      (extrudeFacePairs ops sk d dir tp).map (fun kf => (kf.1, (kf.2.computeArea).2))⟩ :
      BoundaryRepresentation)).getAllEdges =
      extrudeBottomEdges ops sk ++ extrudeTopEdges ops sk d dir tp ++
      extrudeVerticalEdges ops sk d dir tp ++
      (extrudeSideEdgePairs ops sk d dir tp (createEdgesFromSketch sk).length).map
        Prod.snd := by
    show (extrudeEdgePairs ops sk d dir tp).map Prod.snd = _
    unfold extrudeEdgePairs
    simp only [List.map_append, List.map_map]
    rw [show (Prod.snd ∘ fun e : Edge => (e.id, e)) = id from rfl]
    simp only [List.map_id]
  have hvertvals : ((⟨extrudeVertexPairs ops sk d dir tp, extrudeEdgePairs ops sk d dir tp,
      (extrudeFacePairs ops sk d dir tp).map (fun kf => (kf.1, (kf.2.computeArea).2))⟩ :
      BoundaryRepresentation)).getAllVertices =
      (extrudeBottomVertices ops sk).map (fun kv => kv.2) ++
      (extrudeTopVertices ops sk d dir tp).map (fun kv => kv.2) := by
    show (extrudeVertexPairs ops sk d dir tp).map Prod.snd = _
    unfold extrudeVertexPairs
    simp only [List.map_append, List.map_map]
    rfl
  have hrefE : (((⟨extrudeVertexPairs ops sk d dir tp, extrudeEdgePairs ops sk d dir tp,
      (extrudeFacePairs ops sk d dir tp).map (fun kf => (kf.1, (kf.2.computeArea).2))⟩ :
      BoundaryRepresentation)).getAllFaces).flatMap
        (fun f => f.getEdges.map (fun e2 => e2.id)) =
      (extrudeBottomEdges ops sk).map (fun e2 => e2.id) ++
      (((extrudeTopEdges ops sk d dir tp).reverse).map (fun e2 => e2.id) ++
        (List.range (createEdgesFromSketch sk).length).flatMap (fun i =>
          ((extrudeSideFace ops sk d dir tp i).getEdges).map (fun e2 => e2.id))) := by
    rw [hfaces]
    simp only [List.flatMap_cons, Face.computeArea_getEdges, Face.make_getEdges,
      List.flatMap_map, Function.comp]
  have hwin : ∀ j, j < (extractSketchVertices ops sk).length →
      (((2 * (createEdgesFromSketch sk).length + j) ∈
        (((⟨extrudeVertexPairs ops sk d dir tp, extrudeEdgePairs ops sk d dir tp,
          (extrudeFacePairs ops sk d dir tp).map (fun kf => (kf.1, (kf.2.computeArea).2))⟩ :
          BoundaryRepresentation)).getAllFaces).flatMap
            (fun f => f.getEdges.map (fun e2 => e2.id))) ↔
      (1 ≤ j ∧ j ≤ (createEdgesFromSketch sk).length)) := by
    intro j hj
    rw [hrefE]
    constructor
    · intro hmem
      rcases List.mem_append.mp hmem with h | h
      · rw [extrudeBottomEdges_ids, List.mem_range] at h
        omega
      · rcases List.mem_append.mp h with h2 | h2
        · rw [List.map_reverse, List.mem_reverse, extrudeTopEdges_ids,
            mem_range_map_add] at h2
          omega
        · simp only [List.mem_flatMap, List.mem_range] at h2
          obtain ⟨i, hi, hmem2⟩ := h2
          rw [extrudeSideFace_getEdges] at hmem2
          simp only [List.map_cons, List.map_nil, List.mem_cons, List.not_mem_nil,
            or_false] at hmem2
          have hbid : ((extrudeBottomEdges ops sk).get! i).id = i := by
            rw [extrudeBottomEdges_get ops sk i hi]
          have hmod : (i + 1) % (extrudeVerticalEdges ops sk d dir tp).length = i + 1 := by
            rw [extrudeVerticalEdges_length]
            exact Nat.mod_eq_of_lt (by omega)
          have hvid : ((extrudeVerticalEdges ops sk d dir tp).get!
              ((i + 1) % (extrudeVerticalEdges ops sk d dir tp).length)).id =
              2 * (createEdgesFromSketch sk).length + (i + 1) := by
            rw [hmod, extrudeVerticalEdges_get ops sk d dir tp (i + 1) (by omega)]
          rcases hmem2 with h3 | h3 | h3 | h3
          · rw [hbid] at h3
            omega
          · rw [hvid] at h3
            omega
          · omega
          · omega
    · rintro ⟨hj1, hjn⟩
      refine List.mem_append_right _ (List.mem_append_right _ ?_)
      refine List.mem_flatMap.mpr ⟨j - 1, List.mem_range.mpr (by omega), ?_⟩
      rw [extrudeSideFace_getEdges]
      simp only [List.map_cons, List.map_nil, List.mem_cons]
      right
      left
      have hj11 : j - 1 + 1 = j := by omega
      have hmod : (j - 1 + 1) % (extrudeVerticalEdges ops sk d dir tp).length = j := by
        rw [extrudeVerticalEdges_length, hj11]
        exact Nat.mod_eq_of_lt (by omega)
      rw [hmod, extrudeVerticalEdges_get ops sk d dir tp j (by omega)]
  refine ⟨?_, ?_, ?_⟩
  · show ((extrudeFacePairs ops sk d dir tp).map
      (fun kf => (kf.1, (kf.2.computeArea).2))).length = _
    rw [List.length_map, extrudeFacePairs_length]
  · rw [countOrphanVertex_validate, hvertvals]
    simp only [List.countP_append]
    have hb : ((extrudeBottomVertices ops sk).map (fun kv => kv.2)).countP
        (fun v => !((((⟨extrudeVertexPairs ops sk d dir tp, extrudeEdgePairs ops sk d dir tp,
          (extrudeFacePairs ops sk d dir tp).map (fun kf => (kf.1, (kf.2.computeArea).2))⟩ :
          BoundaryRepresentation)).getAllEdges.flatMap
            (fun e => [e.startVertex.id, e.endVertex.id])).contains v.id)) = 0 := by
      refine List.countP_eq_zero.mpr ?_
      intro v hv hc
      obtain ⟨kv, hkv, rfl⟩ := List.mem_map.mp hv
      have hidlt : kv.2.id ∈ (extrudeBottomVertices ops sk).map (fun kv => kv.2.id) :=
        List.mem_map_of_mem _ hkv
      rw [extrudeBottomVertices_ids, List.mem_range] at hidlt
      have hveg := extrudeVerticalEdges_get ops sk d dir tp kv.2.id hidlt
      have hbvg := extrudeBottomVertices_get ops sk kv.2.id hidlt
      have hvemem : (extrudeVerticalEdges ops sk d dir tp).get! kv.2.id ∈
          ((⟨extrudeVertexPairs ops sk d dir tp, extrudeEdgePairs ops sk d dir tp,
            (extrudeFacePairs ops sk d dir tp).map
              (fun kf => (kf.1, (kf.2.computeArea).2))⟩ :
            BoundaryRepresentation)).getAllEdges := by
        rw [hedgevals]
        refine List.mem_append_left _ (List.mem_append_right _ ?_)
        rw [get_bang _ _ (by rw [extrudeVerticalEdges_length]; exact hidlt)]
        exact List.getElem_mem _
      have hidmem : kv.2.id ∈
          ((⟨extrudeVertexPairs ops sk d dir tp, extrudeEdgePairs ops sk d dir tp,
            (extrudeFacePairs ops sk d dir tp).map
              (fun kf => (kf.1, (kf.2.computeArea).2))⟩ :
            BoundaryRepresentation)).getAllEdges.flatMap
              (fun e => [e.startVertex.id, e.endVertex.id]) := by
        refine List.mem_flatMap.mpr ⟨_, hvemem, ?_⟩
        rw [hveg, hbvg]
        simp
      rw [contains_eq_true_of_mem hidmem] at hc
      simp at hc
    have ht : ((extrudeTopVertices ops sk d dir tp).map (fun kv => kv.2)).countP
        (fun v => !((((⟨extrudeVertexPairs ops sk d dir tp, extrudeEdgePairs ops sk d dir tp,
          (extrudeFacePairs ops sk d dir tp).map (fun kf => (kf.1, (kf.2.computeArea).2))⟩ :
          BoundaryRepresentation)).getAllEdges.flatMap
            (fun e => [e.startVertex.id, e.endVertex.id])).contains v.id)) = 0 := by
      refine List.countP_eq_zero.mpr ?_
      intro v hv hc
      obtain ⟨kv, hkv, rfl⟩ := List.mem_map.mp hv
      have hidm : kv.2.id ∈ (extrudeTopVertices ops sk d dir tp).map (fun kv => kv.2.id) :=
        List.mem_map_of_mem _ hkv
      rw [extrudeTopVertices_ids, mem_range_map_add] at hidm
      have hj : kv.2.id - (extractSketchVertices ops sk).length <
          (extractSketchVertices ops sk).length := by omega
      have hid2 : kv.2.id = (extractSketchVertices ops sk).length +
          (kv.2.id - (extractSketchVertices ops sk).length) := by omega
      have hveg := extrudeVerticalEdges_get ops sk d dir tp _ hj
      have hkey := extrudeTopVertices_get_key ops sk d dir tp _ hj
      have htvmem : (((extrudeTopVertices ops sk d dir tp).get!
            (kv.2.id - (extractSketchVertices ops sk).length)).1,
          ((extrudeTopVertices ops sk d dir tp).get!
            (kv.2.id - (extractSketchVertices ops sk).length)).2) ∈
          extrudeTopVertices ops sk d dir tp := by
        have heta : (((extrudeTopVertices ops sk d dir tp).get!
              (kv.2.id - (extractSketchVertices ops sk).length)).1,
            ((extrudeTopVertices ops sk d dir tp).get!
              (kv.2.id - (extractSketchVertices ops sk).length)).2) =
            (extrudeTopVertices ops sk d dir tp).get!
              (kv.2.id - (extractSketchVertices ops sk).length) := rfl
        rw [heta, get_bang _ _ (by rw [extrudeTopVertices_length]; exact hj)]
        exact List.getElem_mem _
      have hndTV : ((extrudeTopVertices ops sk d dir tp).map Prod.fst).Nodup := by
        rw [extrudeTopVertices_keys]
        exact extractSketchVertices_keys_nodup ops sk hnd
      have hlook : mapLookup (extrudeTopVertices ops sk d dir tp)
          (((extrudeBottomVertices ops sk).get!
            (kv.2.id - (extractSketchVertices ops sk).length)).1) =
          some (((extrudeTopVertices ops sk d dir tp).get!
            (kv.2.id - (extractSketchVertices ops sk).length)).2) := by
        rw [← hkey]
        exact mapLookup_of_mem_nodup hndTV htvmem
      have hvemem : (extrudeVerticalEdges ops sk d dir tp).get!
            (kv.2.id - (extractSketchVertices ops sk).length) ∈
          ((⟨extrudeVertexPairs ops sk d dir tp, extrudeEdgePairs ops sk d dir tp,
            (extrudeFacePairs ops sk d dir tp).map
              (fun kf => (kf.1, (kf.2.computeArea).2))⟩ :
            BoundaryRepresentation)).getAllEdges := by
        rw [hedgevals]
        refine List.mem_append_left _ (List.mem_append_right _ ?_)
        rw [get_bang _ _ (by rw [extrudeVerticalEdges_length]; exact hj)]
        exact List.getElem_mem _
      have hidmem : kv.2.id ∈
          ((⟨extrudeVertexPairs ops sk d dir tp, extrudeEdgePairs ops sk d dir tp,
            (extrudeFacePairs ops sk d dir tp).map
              (fun kf => (kf.1, (kf.2.computeArea).2))⟩ :
            BoundaryRepresentation)).getAllEdges.flatMap
              (fun e => [e.startVertex.id, e.endVertex.id]) := by
        refine List.mem_flatMap.mpr ⟨_, hvemem, ?_⟩
        rw [hveg, hlook]
        simp only [Option.getD_some]
        rw [extrudeTopVertices_get_id ops sk d dir tp _ hj]
        rw [hid2]
        simp
      rw [contains_eq_true_of_mem hidmem] at hc
      simp at hc
    rw [hb, ht]
  · rw [countOrphanEdge_validate, hedgevals]
    simp only [List.countP_append]
    have hpartBE : (extrudeBottomEdges ops sk).countP
        (fun e => !(((((⟨extrudeVertexPairs ops sk d dir tp,
          extrudeEdgePairs ops sk d dir tp,
          (extrudeFacePairs ops sk d dir tp).map (fun kf => (kf.1, (kf.2.computeArea).2))⟩ :
          BoundaryRepresentation)).getAllFaces).flatMap
            (fun f => f.getEdges.map (fun e2 => e2.id))).contains e.id)) = 0 := by
      refine List.countP_eq_zero.mpr ?_
      intro e he hc
      have hidmem : e.id ∈ (((⟨extrudeVertexPairs ops sk d dir tp,
          extrudeEdgePairs ops sk d dir tp,
          (extrudeFacePairs ops sk d dir tp).map (fun kf => (kf.1, (kf.2.computeArea).2))⟩ :
          BoundaryRepresentation)).getAllFaces).flatMap
            (fun f => f.getEdges.map (fun e2 => e2.id)) := by
        rw [hrefE]
        exact List.mem_append_left _ (List.mem_map_of_mem _ he)
      rw [contains_eq_true_of_mem hidmem] at hc
      simp at hc
    have hpartTE : (extrudeTopEdges ops sk d dir tp).countP
        (fun e => !(((((⟨extrudeVertexPairs ops sk d dir tp,
          extrudeEdgePairs ops sk d dir tp,
          (extrudeFacePairs ops sk d dir tp).map (fun kf => (kf.1, (kf.2.computeArea).2))⟩ :
          BoundaryRepresentation)).getAllFaces).flatMap
            (fun f => f.getEdges.map (fun e2 => e2.id))).contains e.id)) = 0 := by
      refine List.countP_eq_zero.mpr ?_
      intro e he hc
      have hidmem : e.id ∈ (((⟨extrudeVertexPairs ops sk d dir tp,
          extrudeEdgePairs ops sk d dir tp,
          (extrudeFacePairs ops sk d dir tp).map (fun kf => (kf.1, (kf.2.computeArea).2))⟩ :
          BoundaryRepresentation)).getAllFaces).flatMap
            (fun f => f.getEdges.map (fun e2 => e2.id)) := by
        rw [hrefE]
        refine List.mem_append_right _ (List.mem_append_left _ ?_)
        exact List.mem_map_of_mem _ (List.mem_reverse.mpr he)
      rw [contains_eq_true_of_mem hidmem] at hc
      simp at hc
    have hpartSide : ((extrudeSideEdgePairs ops sk d dir tp
        (createEdgesFromSketch sk).length).map Prod.snd).countP
        (fun e => !(((((⟨extrudeVertexPairs ops sk d dir tp,
          extrudeEdgePairs ops sk d dir tp,
          (extrudeFacePairs ops sk d dir tp).map (fun kf => (kf.1, (kf.2.computeArea).2))⟩ :
          BoundaryRepresentation)).getAllFaces).flatMap
            (fun f => f.getEdges.map (fun e2 => e2.id))).contains e.id)) = 0 := by
      refine List.countP_eq_zero.mpr ?_
      intro e he hc
      have hs : (extrudeSideEdgePairs ops sk d dir tp
          (createEdgesFromSketch sk).length).map Prod.snd =
          (List.range (createEdgesFromSketch sk).length).flatMap (fun i =>
            [⟨2 * (createEdgesFromSketch sk).length + (extractSketchVertices ops sk).length +
                2 * i,
              ((extrudeTopEdges ops sk d dir tp).get! i).endVertex,
              ((extrudeTopEdges ops sk d dir tp).get! i).startVertex⟩,
             ⟨2 * (createEdgesFromSketch sk).length + (extractSketchVertices ops sk).length +
                2 * i + 1,
              ((extrudeVerticalEdges ops sk d dir tp).get! i).endVertex,
              ((extrudeVerticalEdges ops sk d dir tp).get! i).startVertex⟩]) := by
        simp only [extrudeSideEdgePairs, List.map_flatMap, List.map_cons, List.map_nil]
      rw [hs] at he
      simp only [List.mem_flatMap, List.mem_range, List.mem_cons, List.not_mem_nil,
        or_false] at he
      obtain ⟨i, hi, he2⟩ := he
      have hidmem : e.id ∈ (((⟨extrudeVertexPairs ops sk d dir tp,
          extrudeEdgePairs ops sk d dir tp,
          (extrudeFacePairs ops sk d dir tp).map (fun kf => (kf.1, (kf.2.computeArea).2))⟩ :
          BoundaryRepresentation)).getAllFaces).flatMap
            (fun f => f.getEdges.map (fun e2 => e2.id)) := by
        rw [hrefE]
        refine List.mem_append_right _ (List.mem_append_right _ ?_)
        refine List.mem_flatMap.mpr ⟨i, List.mem_range.mpr hi, ?_⟩
        rw [extrudeSideFace_getEdges]
        simp only [List.map_cons, List.map_nil, List.mem_cons]
        rcases he2 with rfl | rfl
        · right
          right
          left
          rfl
        · right
          right
          right
          left
          rfl
      rw [contains_eq_true_of_mem hidmem] at hc
      simp at hc
    have hpartVE : (extrudeVerticalEdges ops sk d dir tp).countP
        (fun e => !(((((⟨extrudeVertexPairs ops sk d dir tp,
          extrudeEdgePairs ops sk d dir tp,
          (extrudeFacePairs ops sk d dir tp).map (fun kf => (kf.1, (kf.2.computeArea).2))⟩ :
          BoundaryRepresentation)).getAllFaces).flatMap
            (fun f => f.getEdges.map (fun e2 => e2.id))).contains e.id)) =
        (extractSketchVertices ops sk).length - (createEdgesFromSketch sk).length := by
      show (extrudeVerticalEdges ops sk d dir tp).countP
          ((fun x => !(((((⟨extrudeVertexPairs ops sk d dir tp,
            extrudeEdgePairs ops sk d dir tp,
            (extrudeFacePairs ops sk d dir tp).map
              (fun kf => (kf.1, (kf.2.computeArea).2))⟩ :
            BoundaryRepresentation)).getAllFaces).flatMap
              (fun f => f.getEdges.map (fun e2 => e2.id))).contains x)) ∘ Edge.id) =
          (extractSketchVertices ops sk).length - (createEdgesFromSketch sk).length
      rw [← List.countP_map, extrudeVerticalEdges_ids, List.countP_map]
      refine countP_range_window _ _ _ hnm ?_
      intro j hj
      constructor
      · intro hf
        simp only [Function.comp, Bool.not_eq_false] at hf
        refine (hwin j hj).mp ?_
        simpa using hf
      · intro hw
        have hmem := (hwin j hj).mpr hw
        simp only [Function.comp]
        rw [contains_eq_true_of_mem hmem]
        rfl
    rw [hpartBE, hpartTE, hpartVE, hpartSide]
    omega


theorem squareSketch_keys : squareSketch.elements.map Prod.fst = [0, 1, 2, 3] := by
  simp [squareSketch, Sketch.createLine, Sketch.addElement, mapSet]

theorem squareSketch_length : squareSketch.elements.length = 4 := by
  simp [squareSketch, Sketch.createLine, Sketch.addElement, mapSet]

theorem squareSketch_ne_nil : squareSketch.elements ≠ [] := by
  intro hcon
  have := squareSketch_length
  rw [hcon] at this
  simp at this

theorem squareSketch_keys_nodup : (squareSketch.elements.map Prod.fst).Nodup := by
  rw [squareSketch_keys]
  decide

theorem squareSketch_edgeCount : (createEdgesFromSketch squareSketch).length = 4 := by
  simp [createEdgesFromSketch, squareSketch, Sketch.createLine, Sketch.addElement, mapSet]

theorem squareSketch_vertexCount (ops : NumOps) :
    (extractSketchVertices ops squareSketch).length = 8 := by
  simp [extractSketchVertices, squareSketch, Sketch.createLine, Sketch.addElement, mapSet,
    GeometryElement.getControlPoints, Line.getControlPoints]

theorem extrude_squareSketch_ok (ops : NumOps) :
    extrude ops squareSketch 1 none none =
      .ok (Solid.make (extrudeBrep ops squareSketch 1 none none)
        ("Extruded_" ++ squareSketch.name)) := by
  unfold extrude
  rw [if_neg (by norm_num), if_neg (by rw [squareSketch_length]; norm_num)]

theorem extrudeBrep_faces (ops : NumOps) (sk : Sketch) (d : ℚ) (dir : Option Vector)
    (tp : Option ℚ) (hne : sk.elements ≠ []) :
    (extrudeBrep ops sk d dir tp).faces = extrudeFacePairs ops sk d dir tp := by
  rw [extrudeBrep_spec ops sk d dir tp hne]

theorem extrudeFacePairs_area_none (ops : NumOps) (sk : Sketch) (d : ℚ) (dir : Option Vector)
    (tp : Option ℚ) : ∀ kf ∈ extrudeFacePairs ops sk d dir tp, kf.2.area = none := by
  intro kf hkf
  unfold extrudeFacePairs extrudeSideFacePairs at hkf
  simp only [List.mem_cons, List.mem_map, List.mem_range] at hkf
  rcases hkf with rfl | rfl | ⟨i, hi, rfl⟩
  · rfl
  · rfl
  · rfl

theorem computeVolume_of_area_none (b : BoundaryRepresentation)
    (h : ∀ kf ∈ b.faces, kf.2.area = none) : b.computeVolume = 0 := by
  unfold BoundaryRepresentation.computeVolume
  have haux : ∀ (g : ℚ → Face → ℚ), (∀ acc f, f.area = none → g acc f = acc) →
      ∀ (L : List Face), (∀ f ∈ L, f.area = none) → ∀ acc : ℚ, L.foldl g acc = acc := by
    intro g hg L
    induction L with
    | nil =>
      intro _ acc
      rfl
    | cons hd t ih =>
      intro hL acc
      rw [List.foldl_cons, hg acc hd (hL hd (List.mem_cons_self hd t))]
      exact ih (fun f hf => hL f (List.mem_cons_of_mem hd hf)) acc
  rw [haux _ ?_ _ ?_ 0]
  · simp
  · intro acc f hfa
    rw [hfa]
    cases f.normal <;> rfl
  · intro f hf
    obtain ⟨kf, hkf, rfl⟩ := List.mem_map.mp hf
    exact h kf hkf

/-- C1: extruding the unit-square sketch by distance 1 along +Z does produce
exactly 6 faces, but the computed volume is 0 rather than approximately 1:
`Solid.updateProperties` calls `computeVolume` before any face area has been
cached, and `computeVolume` skips every face whose `area` is `undefined`, so
the divergence-theorem sum is empty.  This holds for every numeric model
`ops`, hence also for exact real arithmetic. -/
theorem claim1_extrude_unit_square (ops : NumOps) (solid : Solid)
    (hsolid : extrude ops squareSketch 1 none none = .ok solid) :
    solid.properties.volume = some 0 ∧ solid.brep.faces.length = 6 := by
  have hok := extrude_squareSketch_ok ops
  rw [hok] at hsolid
  injection hsolid with hsol
  subst hsol
  constructor
  · show some (extrudeBrep ops squareSketch 1 none none).computeVolume = some 0
    have hareas : ∀ kf ∈ (extrudeBrep ops squareSketch 1 none none).faces,
        kf.2.area = none := by
      rw [extrudeBrep_faces ops squareSketch 1 none none squareSketch_ne_nil]
      exact extrudeFacePairs_area_none ops squareSketch 1 none none
    rw [computeVolume_of_area_none _ hareas]
  · obtain ⟨h1, _, _⟩ := extrude_validate_counts ops squareSketch 1 none none _
      squareSketch_keys_nodup (extrude_squareSketch_ok ops)
    rw [h1, squareSketch_edgeCount]

theorem claim1_extrude_unit_square_witness :
    extrude ratOps squareSketch 1 none none =
      .ok (Solid.make (extrudeBrep ratOps squareSketch 1 none none)
        ("Extruded_" ++ squareSketch.name)) ∧
    ((Solid.make (extrudeBrep ratOps squareSketch 1 none none)
        ("Extruded_" ++ squareSketch.name)).properties.volume = some 0 ∧
      (Solid.make (extrudeBrep ratOps squareSketch 1 none none)
        ("Extruded_" ++ squareSketch.name)).brep.faces.length = 6) :=
  ⟨extrude_squareSketch_ok ratOps,
    claim1_extrude_unit_square ratOps _ (extrude_squareSketch_ok ratOps)⟩

/-- C2 (amended): for a sketch with distinct element ids that extrudes
successfully, the face count is the sketch edge count plus 2 and there are no
orphaned vertices — but `validate()` reports `m - n` orphaned edges (control
points minus sketch edges), which is always positive, because the side-face
loop references `verticalEdges[(i+1) % m]` (skipping vertical edge 0 and the
edges beyond index `n`) and reverses edges into fresh copies instead of
reusing the stored ones.  The original claim of zero orphaned edges is
false. -/
theorem claim2_extrude_validate (ops : NumOps) (sk : Sketch) (d : ℚ) (dir : Option Vector)
    (tp : Option ℚ) (solid : Solid)
    (hnd : (sk.elements.map Prod.fst).Nodup)
    (hsolid : extrude ops sk d dir tp = .ok solid) :
    solid.brep.faces.length = (createEdgesFromSketch sk).length + 2 ∧
    countOrphanVertexErrors solid.brep.validate = 0 ∧
    countOrphanEdgeErrors solid.brep.validate =
      (extractSketchVertices ops sk).length - (createEdgesFromSketch sk).length ∧
    0 < countOrphanEdgeErrors solid.brep.validate := by
  obtain ⟨h1, h2, h3⟩ := extrude_validate_counts ops sk d dir tp solid hnd hsolid
  have hne : sk.elements ≠ [] := by
    intro hcon
    unfold extrude at hsolid
    rcases le_or_lt d 0 with hd | hd
    · rw [if_pos hd] at hsolid
      cases hsolid
    · rw [if_neg (not_le.mpr hd)] at hsolid
      rw [if_pos (by rw [hcon]; rfl)] at hsolid
      cases hsolid
  have hnm := edge_count_lt_vertex_count ops sk hne
  refine ⟨h1, h2, h3, ?_⟩
  rw [h3]
  omega

theorem claim2_extrude_validate_witness :
    (squareSketch.elements.map Prod.fst).Nodup ∧
    extrude ratOps squareSketch 1 none none =
      .ok (Solid.make (extrudeBrep ratOps squareSketch 1 none none)
        ("Extruded_" ++ squareSketch.name)) ∧
    ((Solid.make (extrudeBrep ratOps squareSketch 1 none none)
        ("Extruded_" ++ squareSketch.name)).brep.faces.length = 6 ∧
      countOrphanVertexErrors (Solid.make (extrudeBrep ratOps squareSketch 1 none none)
        ("Extruded_" ++ squareSketch.name)).brep.validate = 0 ∧
      countOrphanEdgeErrors (Solid.make (extrudeBrep ratOps squareSketch 1 none none)
        ("Extruded_" ++ squareSketch.name)).brep.validate = 4) := by
  obtain ⟨h1, h2, h3, h4⟩ := claim2_extrude_validate ratOps squareSketch 1 none none _
    squareSketch_keys_nodup (extrude_squareSketch_ok ratOps)
  refine ⟨squareSketch_keys_nodup, extrude_squareSketch_ok ratOps, ?_, h2, ?_⟩
  · rw [h1, squareSketch_edgeCount]
  · rw [h3, squareSketch_vertexCount, squareSketch_edgeCount]

theorem claim2_orphan_counterexample :
    ∃ solid, extrude ratOps squareSketch 1 none none = .ok solid ∧
      countOrphanEdgeErrors solid.brep.validate = 4 ∧
      countOrphanEdgeErrors solid.brep.validate ≠ 0 := by
  refine ⟨_, extrude_squareSketch_ok ratOps, ?_⟩
  obtain ⟨h1, h2, h3⟩ := extrude_validate_counts ratOps squareSketch 1 none none _
    squareSketch_keys_nodup (extrude_squareSketch_ok ratOps)
  rw [h3, squareSketch_vertexCount, squareSketch_edgeCount]
  norm_num


namespace BoundaryRepresentation

theorem addVertex_faces (b : BoundaryRepresentation) (v : Vertex) :
    (b.addVertex v).faces = b.faces := rfl

theorem addEdge_faces (b : BoundaryRepresentation) (e : Edge) :
    (b.addEdge e).faces = b.faces := rfl

theorem foldl_addEdge_faces (L : List Edge) (b : BoundaryRepresentation) :
    (L.foldl addEdge b).faces = b.faces := by
  induction L generalizing b with
  | nil => rfl
  | cons hd t ih =>
    rw [List.foldl_cons, ih, addEdge_faces]

theorem addFace_faces (b : BoundaryRepresentation) (f : Face) :
    (b.addFace f).faces = mapSet b.faces f.id f := by
  unfold addFace
  rw [foldl_addEdge_faces]

end BoundaryRepresentation

theorem foldl_faces_invariant {α : Type} (g : BoundaryRepresentation → α → BoundaryRepresentation)
    (hg : ∀ b a, (g b a).faces = b.faces) :
    ∀ (L : List α) (b : BoundaryRepresentation), (L.foldl g b).faces = b.faces := by
  intro L
  induction L with
  | nil =>
    intro b
    rfl
  | cons hd t ih =>
    intro b
    rw [List.foldl_cons, ih, hg]

theorem foldl_faces_mapSet {α : Type} (g : BoundaryRepresentation → α → BoundaryRepresentation)
    (fid : α → ℕ) (ff : α → Face)
    (hg : ∀ b a, (g b a).faces = mapSet b.faces (fid a) (ff a)) :
    ∀ (L : List α) (b : BoundaryRepresentation),
      (∀ a ∈ L, fid a ∉ b.faces.map Prod.fst) → ((L.map fid).Nodup) →
      (L.foldl g b).faces = b.faces ++ L.map (fun a => (fid a, ff a)) := by
  intro L
  induction L with
  | nil =>
    intro b _ _
    simp
  | cons hd t ih =>
    intro b hfresh hnd
    simp only [List.map_cons, List.nodup_cons] at hnd
    rw [List.foldl_cons]
    have h1 : (g b hd).faces = b.faces ++ [(fid hd, ff hd)] := by
      rw [hg, mapSet_fresh _ (hfresh hd (List.mem_cons_self hd t))]
    rw [ih (g b hd) ?_ hnd.2]
    · rw [h1]
      simp
    · intro a ha
      rw [h1]
      simp only [List.map_append, List.mem_append, not_or]
      refine ⟨hfresh a (List.mem_cons_of_mem hd ha), ?_⟩
      simp only [List.map_cons, List.map_nil, List.mem_singleton]
      intro hcon
      exact hnd.1 (hcon ▸ List.mem_map.mpr ⟨a, ha, rfl⟩)

theorem quad_index_lt {step i s m1 : ℕ} (hs : step < s) (hi : i < m1) :
    step * m1 + i < s * m1 := by
  calc step * m1 + i < step * m1 + m1 := by omega
    _ = (step + 1) * m1 := by ring
    _ ≤ s * m1 := Nat.mul_le_mul_right m1 hs

theorem length_flatMap_blocks {α : Type} (s k : ℕ) (f : ℕ → ℕ → α) :
    ((List.range s).flatMap (fun step => (List.range k).map (f step))).length = s * k := by
  induction s with
  | zero => simp
  | succ s ih =>
    rw [List.range_succ, List.flatMap_append, List.length_append, ih]
    simp only [List.flatMap_cons, List.flatMap_nil, List.append_nil, List.length_map,
      List.length_range]
    ring

theorem revolveQuadFacePairs_mem_id (ops : NumOps) (sketch : Sketch) (axisPoint : Point)
    (axisDirection : Vector) (angle : ℚ) (kv : ℕ × Face)
    (hkv : kv ∈ revolveQuadFacePairs ops sketch axisPoint axisDirection angle) :
    kv.1 < revolveSteps angle * ((extractSketchVertices ops sketch).length - 1) := by
  simp only [revolveQuadFacePairs, List.mem_flatMap, List.mem_map, List.mem_range] at hkv
  obtain ⟨step, hstep, i, hi, rfl⟩ := hkv
  exact quad_index_lt hstep hi

theorem revolveQuadFacePairs_length (ops : NumOps) (sketch : Sketch) (axisPoint : Point)
    (axisDirection : Vector) (angle : ℚ) :
    (revolveQuadFacePairs ops sketch axisPoint axisDirection angle).length =
      revolveSteps angle * ((extractSketchVertices ops sketch).length - 1) := by
  unfold revolveQuadFacePairs
  exact length_flatMap_blocks _ _ _

set_option maxHeartbeats 2000000 in
theorem revolveBrep_faces (ops : NumOps) (sketch : Sketch) (axisPoint : Point)
    (axisDirection : Vector) (angle : ℚ) :
    (revolveBrep ops sketch axisPoint axisDirection angle).faces =
      revolveFacePairs ops sketch axisPoint axisDirection angle := by
  have hg : ∀ (b2 : BoundaryRepresentation) (step i : ℕ),
      (((((b2.addEdge ⟨4 * (step * ((extractSketchVertices ops sketch).length - 1) + i),
          revolveVertex ops sketch axisPoint axisDirection angle step i,
          revolveVertex ops sketch axisPoint axisDirection angle step (i + 1)⟩).addEdge
        ⟨4 * (step * ((extractSketchVertices ops sketch).length - 1) + i) + 1,
          revolveVertex ops sketch axisPoint axisDirection angle step (i + 1),
          revolveVertex ops sketch axisPoint axisDirection angle (step + 1) (i + 1)⟩).addEdge
        ⟨4 * (step * ((extractSketchVertices ops sketch).length - 1) + i) + 2,
          revolveVertex ops sketch axisPoint axisDirection angle (step + 1) (i + 1),
          revolveVertex ops sketch axisPoint axisDirection angle (step + 1) i⟩).addEdge
        ⟨4 * (step * ((extractSketchVertices ops sketch).length - 1) + i) + 3,
          revolveVertex ops sketch axisPoint axisDirection angle (step + 1) i,
          revolveVertex ops sketch axisPoint axisDirection angle step i⟩).addFace
          (revolveQuadFace ops sketch axisPoint axisDirection angle step i)).faces =
      mapSet b2.faces (step * ((extractSketchVertices ops sketch).length - 1) + i)
        (revolveQuadFace ops sketch axisPoint axisDirection angle step i) := by
    intro b2 step i
    rw [BoundaryRepresentation.addFace_faces, BoundaryRepresentation.addEdge_faces,
      BoundaryRepresentation.addEdge_faces, BoundaryRepresentation.addEdge_faces,
      BoundaryRepresentation.addEdge_faces]
    rfl
  have hquad : ∀ (s : ℕ) (b0 : BoundaryRepresentation), b0.faces = [] →
      (((List.range s).foldl (fun b step =>
        (List.range ((extractSketchVertices ops sketch).length - 1)).foldl (fun b2 i =>
          ((((b2.addEdge ⟨4 * (step * ((extractSketchVertices ops sketch).length - 1) + i),
              revolveVertex ops sketch axisPoint axisDirection angle step i,
              revolveVertex ops sketch axisPoint axisDirection angle step (i + 1)⟩).addEdge
            ⟨4 * (step * ((extractSketchVertices ops sketch).length - 1) + i) + 1,
              revolveVertex ops sketch axisPoint axisDirection angle step (i + 1),
              revolveVertex ops sketch axisPoint axisDirection angle (step + 1) (i + 1)⟩).addEdge
            ⟨4 * (step * ((extractSketchVertices ops sketch).length - 1) + i) + 2,
              revolveVertex ops sketch axisPoint axisDirection angle (step + 1) (i + 1),
              revolveVertex ops sketch axisPoint axisDirection angle (step + 1) i⟩).addEdge
            ⟨4 * (step * ((extractSketchVertices ops sketch).length - 1) + i) + 3,
              revolveVertex ops sketch axisPoint axisDirection angle (step + 1) i,
              revolveVertex ops sketch axisPoint axisDirection angle step i⟩).addFace
              (revolveQuadFace ops sketch axisPoint axisDirection angle step i)) b) b0)).faces =
      (List.range s).flatMap (fun step =>
        (List.range ((extractSketchVertices ops sketch).length - 1)).map (fun i =>
          (step * ((extractSketchVertices ops sketch).length - 1) + i,
            revolveQuadFace ops sketch axisPoint axisDirection angle step i))) := by
    intro s
    induction s with
    | zero =>
      intro b0 hb0
      simpa using hb0
    | succ s ih =>
      intro b0 hb0
      have hr : List.range (s + 1) = List.range s ++ [s] := by rw [List.range_succ]
      rw [hr, List.foldl_append]
      simp only [List.foldl_cons, List.foldl_nil]
      rw [foldl_faces_mapSet _
        (fun i => s * ((extractSketchVertices ops sketch).length - 1) + i)
        (fun i => revolveQuadFace ops sketch axisPoint axisDirection angle s i)
        (fun b2 i => hg b2 s i) _ _ ?_ ?_]
      · rw [ih b0 hb0, List.flatMap_append]
        simp
      · intro i hi hcon
        rw [ih b0 hb0] at hcon
        rw [List.mem_range] at hi
        simp only [List.map_flatMap, List.map_map, List.mem_flatMap, List.mem_map,
          List.mem_range, Function.comp] at hcon
        obtain ⟨step2, hstep2, i2, hi2, hid⟩ := hcon
        have hlt := quad_index_lt hstep2 hi2
        omega
      · exact nodup_range_map_add _ _
  have hvert : (((List.range (revolveSteps angle + 1)).foldl (fun b step =>
        (List.range ((extractSketchVertices ops sketch).length)).foldl (fun b2 i =>
          b2.addVertex (revolveVertex ops sketch axisPoint axisDirection angle step i)) b)
        BoundaryRepresentation.empty)).faces = [] := by
    rw [foldl_faces_invariant _ (fun b a =>
      foldl_faces_invariant _ (fun b2 i => BoundaryRepresentation.addVertex_faces b2 _) _ b)]
    rfl
  have hqfaces : (((List.range (revolveSteps angle)).foldl (fun b step =>
        (List.range ((extractSketchVertices ops sketch).length - 1)).foldl (fun b2 i =>
          ((((b2.addEdge ⟨4 * (step * ((extractSketchVertices ops sketch).length - 1) + i),
              revolveVertex ops sketch axisPoint axisDirection angle step i,
              revolveVertex ops sketch axisPoint axisDirection angle step (i + 1)⟩).addEdge
            ⟨4 * (step * ((extractSketchVertices ops sketch).length - 1) + i) + 1,
              revolveVertex ops sketch axisPoint axisDirection angle step (i + 1),
              revolveVertex ops sketch axisPoint axisDirection angle (step + 1) (i + 1)⟩).addEdge
            ⟨4 * (step * ((extractSketchVertices ops sketch).length - 1) + i) + 2,
              revolveVertex ops sketch axisPoint axisDirection angle (step + 1) (i + 1),
              revolveVertex ops sketch axisPoint axisDirection angle (step + 1) i⟩).addEdge
            ⟨4 * (step * ((extractSketchVertices ops sketch).length - 1) + i) + 3,
              revolveVertex ops sketch axisPoint axisDirection angle (step + 1) i,
              revolveVertex ops sketch axisPoint axisDirection angle step i⟩).addFace
              (revolveQuadFace ops sketch axisPoint axisDirection angle step i)) b)
      ((List.range (revolveSteps angle + 1)).foldl (fun b step =>
        (List.range ((extractSketchVertices ops sketch).length)).foldl (fun b2 i =>
          b2.addVertex (revolveVertex ops sketch axisPoint axisDirection angle step i)) b)
        BoundaryRepresentation.empty))).faces =
      revolveQuadFacePairs ops sketch axisPoint axisDirection angle :=
    (hquad (revolveSteps angle) _ hvert).trans rfl
  by_cases h360 : angle < 360
  · have hs1 : revolveSteps angle * ((extractSketchVertices ops sketch).length - 1) ∉
        (revolveQuadFacePairs ops sketch axisPoint axisDirection angle).map Prod.fst := by
      intro hcon
      obtain ⟨kv, hkv, hid⟩ := List.mem_map.mp hcon
      have := revolveQuadFacePairs_mem_id ops sketch axisPoint axisDirection angle kv hkv
      omega
    have hs2 : revolveSteps angle * ((extractSketchVertices ops sketch).length - 1) + 1 ∉
        ((revolveQuadFacePairs ops sketch axisPoint axisDirection angle ++
          [(revolveSteps angle * ((extractSketchVertices ops sketch).length - 1),
            Face.make ops (revolveSteps angle * ((extractSketchVertices ops sketch).length - 1))
              ((List.range ((extractSketchVertices ops sketch).length - 1)).map
                (revolveStartCapEdge ops sketch axisPoint axisDirection angle)))]).map
          Prod.fst) := by
      intro hcon
      rw [List.map_append] at hcon
      rcases List.mem_append.mp hcon with h | h
      · obtain ⟨kv, hkv, hid⟩ := List.mem_map.mp h
        have := revolveQuadFacePairs_mem_id ops sketch axisPoint axisDirection angle kv hkv
        omega
      · simp at h
    have hfinal : mapSet (mapSet ((((List.range (revolveSteps angle)).foldl (fun b step =>
        (List.range ((extractSketchVertices ops sketch).length - 1)).foldl (fun b2 i =>
          ((((b2.addEdge ⟨4 * (step * ((extractSketchVertices ops sketch).length - 1) + i),
              revolveVertex ops sketch axisPoint axisDirection angle step i,
              revolveVertex ops sketch axisPoint axisDirection angle step (i + 1)⟩).addEdge
            ⟨4 * (step * ((extractSketchVertices ops sketch).length - 1) + i) + 1,
              revolveVertex ops sketch axisPoint axisDirection angle step (i + 1),
              revolveVertex ops sketch axisPoint axisDirection angle (step + 1) (i + 1)⟩).addEdge
            ⟨4 * (step * ((extractSketchVertices ops sketch).length - 1) + i) + 2,
              revolveVertex ops sketch axisPoint axisDirection angle (step + 1) (i + 1),
              revolveVertex ops sketch axisPoint axisDirection angle (step + 1) i⟩).addEdge
            ⟨4 * (step * ((extractSketchVertices ops sketch).length - 1) + i) + 3,
              revolveVertex ops sketch axisPoint axisDirection angle (step + 1) i,
              revolveVertex ops sketch axisPoint axisDirection angle step i⟩).addFace
              (revolveQuadFace ops sketch axisPoint axisDirection angle step i)) b)
      ((List.range (revolveSteps angle + 1)).foldl (fun b step =>
        (List.range ((extractSketchVertices ops sketch).length)).foldl (fun b2 i =>
          b2.addVertex (revolveVertex ops sketch axisPoint axisDirection angle step i)) b)
        BoundaryRepresentation.empty))).faces)
        (Face.make ops (revolveSteps angle * ((extractSketchVertices ops sketch).length - 1))
          ((List.range ((extractSketchVertices ops sketch).length - 1)).map
            (revolveStartCapEdge ops sketch axisPoint axisDirection angle))).id
        (Face.make ops (revolveSteps angle * ((extractSketchVertices ops sketch).length - 1))
          ((List.range ((extractSketchVertices ops sketch).length - 1)).map
            (revolveStartCapEdge ops sketch axisPoint axisDirection angle))))
        (Face.make ops
          (revolveSteps angle * ((extractSketchVertices ops sketch).length - 1) + 1)
          ((List.range ((extractSketchVertices ops sketch).length - 1)).map
            (revolveEndCapEdge ops sketch axisPoint axisDirection angle))).id
        (Face.make ops
          (revolveSteps angle * ((extractSketchVertices ops sketch).length - 1) + 1)
          ((List.range ((extractSketchVertices ops sketch).length - 1)).map
            (revolveEndCapEdge ops sketch axisPoint axisDirection angle))) =
        revolveFacePairs ops sketch axisPoint axisDirection angle := by
      rw [hqfaces, Face.make_id, Face.make_id, mapSet_fresh _ hs1, mapSet_fresh _ hs2]
      simp [revolveFacePairs, if_pos h360]
    simp only [revolveBrep]
    rw [if_pos h360]
    rw [BoundaryRepresentation.addFace_faces,
      foldl_faces_invariant
        (fun b i => b.addEdge (revolveEndCapEdge ops sketch axisPoint axisDirection angle i))
        (fun b i => BoundaryRepresentation.addEdge_faces b _),
      BoundaryRepresentation.addFace_faces,
      foldl_faces_invariant
        (fun b i => b.addEdge (revolveStartCapEdge ops sketch axisPoint axisDirection angle i))
        (fun b i => BoundaryRepresentation.addEdge_faces b _)]
    exact hfinal
  · simp only [revolveBrep]
    rw [if_neg h360]
    exact hqfaces.trans (by simp [revolveFacePairs, if_neg h360])


/-- C7: a successful `revolve` implies the angle guard `0 < angle ≤ 360`; the
resulting B-Rep holds exactly the closed-form face table `revolveFacePairs`
(one quad face per angular step and profile segment, whose vertices are the
profile points rotated by Rodrigues' formula — see `revolveQuadFace` and
`revolveVertex` — plus the two cap faces exactly when `angle < 360`); and the
face count is `max 8 ⌈angle/15⌉ * (profilePoints - 1)` plus 2 cap faces iff
`angle < 360`. -/
theorem claim7_revolve (ops : NumOps) (sk : Sketch) (axisPoint : Point)
    (axisDirection : Vector) (angle : ℚ) (solid : Solid)
    (hsolid : revolve ops sk axisPoint axisDirection angle = .ok solid) :
    (0 < angle ∧ angle ≤ 360) ∧
    (revolveBrep ops sk axisPoint axisDirection angle).faces =
      revolveFacePairs ops sk axisPoint axisDirection angle ∧
    solid.brep.faces.length =
      max 8 (Int.toNat ⌈angle / 15⌉) * ((extractSketchVertices ops sk).length - 1) +
        (if angle < 360 then 2 else 0) := by
  unfold revolve at hsolid
  by_cases hguard : angle ≤ 0 ∨ angle > 360
  · rw [if_pos hguard] at hsolid
    cases hsolid
  rw [if_neg hguard] at hsolid
  by_cases hlen : sk.elements.length = 0
  · rw [if_pos hlen] at hsolid
    cases hsolid
  rw [if_neg hlen] at hsolid
  injection hsolid with hsol
  subst hsol
  push_neg at hguard
  refine ⟨⟨hguard.1, hguard.2⟩, revolveBrep_faces ops sk axisPoint axisDirection angle, ?_⟩
  have hflen : ∀ b : BoundaryRepresentation,
      ((BoundaryRepresentation.computeSurfaceArea b).2).faces.length = b.faces.length := by
    intro b
    show (b.faces.map _).length = _
    rw [List.length_map]
  show ((BoundaryRepresentation.computeSurfaceArea
    (revolveBrep ops sk axisPoint axisDirection angle)).2).faces.length = _
  rw [hflen, revolveBrep_faces]
  unfold revolveFacePairs
  rw [List.length_append, revolveQuadFacePairs_length]
  unfold revolveSteps
  by_cases h360 : angle < 360
  · rw [if_pos h360, if_pos h360]
    simp
  · rw [if_neg h360, if_neg h360]
    simp

theorem revolve_squareSketch_ok :
    revolve ratOps squareSketch ⟨0, 0, 0⟩ ⟨0, 0, 1⟩ 90 =
      .ok (Solid.make (revolveBrep ratOps squareSketch ⟨0, 0, 0⟩ ⟨0, 0, 1⟩ 90)
        ("Revolved_" ++ squareSketch.name)) := by
  unfold revolve
  rw [if_neg (by norm_num), if_neg (by rw [squareSketch_length]; norm_num)]

theorem claim7_revolve_witness :
    revolve ratOps squareSketch ⟨0, 0, 0⟩ ⟨0, 0, 1⟩ 90 =
      .ok (Solid.make (revolveBrep ratOps squareSketch ⟨0, 0, 0⟩ ⟨0, 0, 1⟩ 90)
        ("Revolved_" ++ squareSketch.name)) ∧
    (0 < (90 : ℚ) ∧ (90 : ℚ) ≤ 360) ∧
    (revolveBrep ratOps squareSketch ⟨0, 0, 0⟩ ⟨0, 0, 1⟩ 90).faces =
      revolveFacePairs ratOps squareSketch ⟨0, 0, 0⟩ ⟨0, 0, 1⟩ 90 ∧
    (Solid.make (revolveBrep ratOps squareSketch ⟨0, 0, 0⟩ ⟨0, 0, 1⟩ 90)
        ("Revolved_" ++ squareSketch.name)).brep.faces.length = 58 := by
  obtain ⟨h1, h2, h3⟩ := claim7_revolve ratOps squareSketch ⟨0, 0, 0⟩ ⟨0, 0, 1⟩ 90 _
    revolve_squareSketch_ok
  refine ⟨revolve_squareSketch_ok, h1, h2, ?_⟩
  rw [h3, squareSketch_vertexCount]
  have h6 : ⌈(90 : ℚ) / 15⌉ = 6 := by
    have h90 : (90 : ℚ) / 15 = ((6 : ℤ) : ℚ) := by norm_num
    rw [h90, Int.ceil_intCast]
  rw [h6, if_pos (by norm_num : (90 : ℚ) < 360)]
  norm_num

theorem updateConstraintStatuses_elements (ops : NumOps) (s : ConstraintSolver) :
    (updateConstraintStatuses ops s).elements = s.elements := rfl

theorem updateConstraintStatuses_length (ops : NumOps) (s : ConstraintSolver) :
    (updateConstraintStatuses ops s).constraints.length = s.constraints.length := by
  simp [updateConstraintStatuses]

theorem groupFold_single (eid : ℕ) (L : List (ℕ × Constraint)) (acc : List Constraint)
    (hall : ∀ kc ∈ L, kc.2.elementIds = [eid]) :
    L.foldl (fun m kc => kc.2.elementIds.foldl
        (fun m2 e => mapSet m2 e ((mapLookup m2 e).getD [] ++ [kc.2])) m) [(eid, acc)] =
      [(eid, acc ++ L.map Prod.snd)] := by
  induction L generalizing acc with
  | nil => simp
  | cons kc t ih =>
    have h1 : kc.2.elementIds = [eid] := hall kc (List.mem_cons_self _ _)
    simp only [List.foldl_cons, List.foldl_nil, h1]
    have h2 : mapSet [(eid, acc)] eid ((mapLookup [(eid, acc)] eid).getD [] ++ [kc.2]) =
        [(eid, acc ++ [kc.2])] := by
      simp [mapSet, mapLookup]
    rw [h2, ih (acc ++ [kc.2]) (fun kc2 h => hall kc2 (List.mem_cons_of_mem _ h))]
    simp

/-- When every constraint of the solver references exactly the single element
`eid`, conflict detection returns exactly the constraints beyond that
element's degree-of-freedom budget, in insertion order. -/
theorem detectConflicts_single (s : ConstraintSolver) (eid : ℕ) (el : GeometryElement)
    (helem : mapLookup s.elements eid = some el)
    (hall : ∀ kc ∈ s.constraints, kc.2.elementIds = [eid])
    (hover : maxConstraintsForElement el < s.constraints.length) :
    detectConflicts s = (s.constraints.map Prod.snd).drop (maxConstraintsForElement el) := by
  have hne : s.constraints ≠ [] := by
    intro h
    rw [h] at hover
    simp at hover
  obtain ⟨kc0, t, hcons⟩ := List.exists_cons_of_ne_nil hne
  have h0 : kc0.2.elementIds = [eid] := hall kc0 (hcons ▸ List.mem_cons_self _ _)
  unfold detectConflicts
  rw [hcons]
  simp only [List.foldl_cons, List.foldl_nil, h0]
  have h2 : mapSet [] eid ((mapLookup [] eid).getD [] ++ [kc0.2]) = [(eid, [kc0.2])] := by
    simp [mapSet, mapLookup]
  rw [h2, groupFold_single eid t [kc0.2]
    (fun kc2 h => hall kc2 (hcons ▸ List.mem_cons_of_mem _ h))]
  simp only [List.foldl_cons, List.foldl_nil, helem]
  rw [if_pos]
  · simp
  · rw [hcons] at hover
    simpa using hover

/-- C4: an element carrying more constraints than its degree-of-freedom
budget (Line 4, Circle 3, Arc 5; the source's `default: 2` branch is
unreachable since `Line`, `Arc` and `Circle` are the only element types)
makes `detectConflicts` return exactly the excess constraints beyond the
budget, and makes `solve` skip the iterative loop, returning
`success = false`, zero iterations, and those excess constraints as the
conflicted ones. -/
theorem claim4_overconstrained (ops : NumOps) (s : ConstraintSolver) (eid : ℕ)
    (el : GeometryElement)
    (helem : mapLookup s.elements eid = some el)
    (hall : ∀ kc ∈ s.constraints, kc.2.elementIds = [eid])
    (hover : maxConstraintsForElement el < s.constraints.length) :
    detectConflicts (updateConstraintStatuses ops s) =
      ((updateConstraintStatuses ops s).constraints.map Prod.snd).drop
        (maxConstraintsForElement el) ∧
    (ConstraintSolver.solve ops s).1.success = false ∧
    (ConstraintSolver.solve ops s).1.iterations = 0 ∧
    (ConstraintSolver.solve ops s).1.conflictedConstraints =
      ((updateConstraintStatuses ops s).constraints.map Prod.snd).drop
        (maxConstraintsForElement el) := by
  have hall1 : ∀ kc ∈ (updateConstraintStatuses ops s).constraints, kc.2.elementIds = [eid] := by
    intro kc h
    simp only [updateConstraintStatuses, List.mem_map] at h
    obtain ⟨kc0, hkc0, rfl⟩ := h
    exact hall kc0 hkc0
  have hover1 : maxConstraintsForElement el <
      (updateConstraintStatuses ops s).constraints.length := by
    rw [updateConstraintStatuses_length]
    exact hover
  have h1 : detectConflicts (updateConstraintStatuses ops s) =
      ((updateConstraintStatuses ops s).constraints.map Prod.snd).drop
        (maxConstraintsForElement el) :=
    detectConflicts_single (updateConstraintStatuses ops s) eid el helem hall1 hover1
  have hlen : 0 < (detectConflicts (updateConstraintStatuses ops s)).length := by
    rw [h1, List.length_drop, List.length_map, updateConstraintStatuses_length]
    omega
  have hsolve : ConstraintSolver.solve ops s =
      (⟨false, 0, calculateTotalError ops s, detectConflicts (updateConstraintStatuses ops s)⟩,
        updateConstraintStatuses ops s) := by
    simp only [ConstraintSolver.solve]
    rw [if_pos hlen]
  refine ⟨h1, ?_, ?_, ?_⟩
  · rw [hsolve]
  · rw [hsolve]
  · rw [hsolve]
    exact h1

theorem claim4_overconstrained_witness :
    mapLookup overSolver.elements 0 = some (.line sampleLine) ∧
    maxConstraintsForElement (.line sampleLine) < overSolver.constraints.length ∧
    (ConstraintSolver.solve ratOps overSolver).1.success = false ∧
    (ConstraintSolver.solve ratOps overSolver).1.iterations = 0 ∧
    (ConstraintSolver.solve ratOps overSolver).1.conflictedConstraints =
      ((updateConstraintStatuses ratOps overSolver).constraints.map Prod.snd).drop 4 := by
  obtain ⟨h1, h2, h3, h4⟩ := claim4_overconstrained ratOps overSolver 0 (.line sampleLine)
    rfl (by decide) (by decide)
  exact ⟨rfl, by decide, h2, h3, h4⟩

theorem solveLoop_not_entered (ops : NumOps) (fuel iteration : ℕ) (err : ℚ)
    (s : ConstraintSolver) (h : ¬ s.config.tolerance < err) :
    solveLoop ops (fuel + 1) iteration err s = (iteration, err, s) := by
  simp only [solveLoop]
  rw [if_neg]
  intro hc
  exact h hc.2

/-- C9: on an already-converged constraint set (aggregate root-sum-square
error below the solver tolerance, no detected conflicts) `solve` never
enters the correction loop: it leaves the element map (hence every control
point) unchanged, reports the unchanged aggregate error (a change of zero,
strictly below the tolerance), succeeds, and performs zero iterations. -/
theorem claim9_converged (ops : NumOps) (s : ConstraintSolver)
    (hconv : calculateTotalError ops s < s.config.tolerance)
    (hnoc : detectConflicts (updateConstraintStatuses ops s) = []) :
    (ConstraintSolver.solve ops s).2.elements = s.elements ∧
    (ConstraintSolver.solve ops s).1.finalError = calculateTotalError ops s ∧
    |(ConstraintSolver.solve ops s).1.finalError - calculateTotalError ops s| <
      s.config.tolerance ∧
    (ConstraintSolver.solve ops s).1.success = true ∧
    (ConstraintSolver.solve ops s).1.iterations = 0 := by
  have htol : ¬ (updateConstraintStatuses ops s).config.tolerance <
      calculateTotalError ops s := not_lt.mpr (le_of_lt hconv)
  have hloop : solveLoop ops ((updateConstraintStatuses ops s).config.maxIterations + 1) 0
      (calculateTotalError ops s) (updateConstraintStatuses ops s) =
      (0, calculateTotalError ops s, updateConstraintStatuses ops s) :=
    solveLoop_not_entered _ _ _ _ _ htol
  have hlen : ¬ 0 < (detectConflicts (updateConstraintStatuses ops s)).length := by
    rw [hnoc]
    simp
  have hpos : 0 < s.config.tolerance :=
    lt_of_le_of_lt (ops.sqrt_nonneg _) hconv
  refine ⟨?_, ?_, ?_, ?_, ?_⟩
  · simp only [ConstraintSolver.solve]
    rw [if_neg hlen, hloop]
    rfl
  · simp only [ConstraintSolver.solve]
    rw [if_neg hlen, hloop]
  · simp only [ConstraintSolver.solve]
    rw [if_neg hlen, hloop]
    simpa using hpos
  · simp only [ConstraintSolver.solve]
    rw [if_neg hlen, hloop]
    exact decide_eq_true hconv
  · simp only [ConstraintSolver.solve]
    rw [if_neg hlen, hloop]

theorem convergedSolver_error : calculateTotalError ratOps convergedSolver = 0 := by
  simp [calculateTotalError, calculateError, convergedSolver, mapLookup, ratOps, ratSqrt_zero]

theorem convergedSolver_noConflicts :
    detectConflicts (updateConstraintStatuses ratOps convergedSolver) = [] := by
  simp [detectConflicts, updateConstraintStatuses, updateStatus, convergedSolver,
    mapSet, mapLookup, maxConstraintsForElement]

theorem claim9_converged_witness :
    calculateTotalError ratOps convergedSolver < convergedSolver.config.tolerance ∧
    (ConstraintSolver.solve ratOps convergedSolver).2.elements = convergedSolver.elements ∧
    (ConstraintSolver.solve ratOps convergedSolver).1.success = true ∧
    (ConstraintSolver.solve ratOps convergedSolver).1.iterations = 0 := by
  have hconv : calculateTotalError ratOps convergedSolver < convergedSolver.config.tolerance := by
    rw [convergedSolver_error]
    norm_num [convergedSolver, defaultSolverConfig]
  obtain ⟨h1, h2, h3, h4, h5⟩ :=
    claim9_converged ratOps convergedSolver hconv convergedSolver_noConflicts
  exact ⟨hconv, h1, h4, h5⟩

theorem listPos_append_left (l t : List ℕ) (x : ℕ) (h : x ∈ l) :
    listPos (l ++ t) x = listPos l x := by
  induction l with
  | nil => simp at h
  | cons y l ih =>
    by_cases hy : y = x
    · simp [listPos, hy]
    · have hx : x ∈ l := by
        rcases List.mem_cons.mp h with h1 | h1
        · exact absurd h1.symm hy
        · exact h1
      simp [listPos, hy, ih hx]

theorem listPos_append_self (l : List ℕ) (x : ℕ) (h : x ∉ l) :
    listPos (l ++ [x]) x = l.length := by
  induction l with
  | nil => simp [listPos]
  | cons y l ih =>
    have hy : y ≠ x := fun e => h (e ▸ List.mem_cons_self _ _)
    simp [listPos, hy, ih (fun hh => h (List.mem_cons_of_mem _ hh))]

theorem listPos_lt_length (l : List ℕ) (x : ℕ) (h : x ∈ l) :
    listPos l x < l.length := by
  induction l with
  | nil => simp at h
  | cons y l ih =>
    by_cases hy : y = x
    · simp [listPos, hy]
    · have hx : x ∈ l := by
        rcases List.mem_cons.mp h with h1 | h1
        · exact absurd h1.symm hy
        · exact h1
      have := ih hx
      simp only [listPos, if_neg hy, List.length_cons]
      omega

theorem erase_append_singleton (l : List ℕ) (a : ℕ) (h : a ∉ l) :
    (l ++ [a]).erase a = l := by
  induction l with
  | nil => simp
  | cons y t ih =>
    have hy : y ≠ a := fun e => h (e ▸ List.mem_cons_self _ _)
    simp only [List.cons_append, List.erase_cons]
    rw [if_neg (by simpa using hy)]
    rw [ih (fun hh => h (List.mem_cons_of_mem _ hh))]

theorem find?_id_self (features : List Feature) (hnd : (features.map Feature.id).Nodup)
    (f : Feature) (hf : f ∈ features) :
    features.find? (fun g => g.id == f.id) = some f := by
  induction features with
  | nil => simp at hf
  | cons a t ih =>
    rw [List.map_cons, List.nodup_cons] at hnd
    rcases List.mem_cons.mp hf with rfl | hf'
    · exact List.find?_cons_of_pos _ (by simp)
    · have hne : a.id ≠ f.id := by
        intro e
        exact hnd.1 (e ▸ List.mem_map_of_mem Feature.id hf')
      rw [List.find?_cons_of_neg _ (by simp [hne])]
      exact ih hnd.2 hf'

theorem checkCircular_succ (features : List Feature) (fuel : ℕ) (f : Feature) (st : DfsState) :
    checkCircular features (fuel + 1) f st =
      if f.id ∈ st.visiting then
        (false, { st with errors := st.errors ++ [.circular f.name] })
      else if f.id ∈ st.visited then (true, st)
      else
        (fun r : Bool × DfsState => if r.1 then
            (true, { r.2 with visiting := r.2.visiting.erase f.id, visited := r.2.visited ++ [f.id] })
          else (false, r.2))
          (f.dependencies.foldl (dfsStep features fuel)
            (true, { st with visiting := st.visiting ++ [f.id] })) := rfl

theorem checkCircular_fresh (features : List Feature) (fuel : ℕ) (f : Feature) (st : DfsState)
    (hA : f.id ∉ st.visiting) (hB : f.id ∉ st.visited) (ok : Bool) (s1 : DfsState)
    (hres : f.dependencies.foldl (dfsStep features fuel)
      (true, { st with visiting := st.visiting ++ [f.id] }) = (ok, s1)) :
    checkCircular features (fuel + 1) f st =
      if ok then
        (true, { s1 with visiting := s1.visiting.erase f.id, visited := s1.visited ++ [f.id] })
      else (false, s1) := by
  rw [checkCircular_succ, if_neg hA, if_neg hB, hres]

theorem foldl_dfsStep_false (features : List Feature) (fuel : ℕ) (deps : List ℕ) (st : DfsState) :
    deps.foldl (dfsStep features fuel) (false, st) = (false, st) := by
  induction deps with
  | nil => rfl
  | cons d t ih =>
    rw [List.foldl_cons]
    exact ih

theorem checkCircular_spec (features : List Feature)
    (hnd : (features.map Feature.id).Nodup) :
    ∀ (fuel : ℕ) (f : Feature) (st : DfsState), f ∈ features → DfsInv features st →
      features.length + 1 ≤ fuel + st.visiting.length →
      DfsProgress features st (checkCircular features fuel f st) ∧
      ((checkCircular features fuel f st).1 = true →
        (checkCircular features fuel f st).2.visiting = st.visiting ∧
        f.id ∈ (checkCircular features fuel f st).2.visited) := by
  intro fuel
  induction fuel with
  | zero =>
    intro f st hf hinv hfuel
    exfalso
    have hle := (List.subperm_of_subset hinv.1 (fun x hx => hinv.2.1 x hx)).length_le
    rw [List.length_map] at hle
    omega
  | succ fuel ih =>
    intro f st hf hinv hfuel
    by_cases hA : f.id ∈ st.visiting
    · have hcc : checkCircular features (fuel + 1) f st =
          (false, { st with errors := st.errors ++ [.circular f.name] }) := by
        rw [checkCircular_succ, if_pos hA]
      rw [hcc]
      refine ⟨⟨⟨[.circular f.name], rfl, ?_, fun _ => by simp⟩, ⟨[], by simp⟩, ?_⟩, ?_⟩
      · intro er her
        rw [List.mem_singleton] at her
        exact ⟨f, hf, her⟩
      · exact hinv
      · intro h
        simp at h
    · by_cases hB : f.id ∈ st.visited
      · have hcc : checkCircular features (fuel + 1) f st = (true, st) := by
          rw [checkCircular_succ, if_neg hA, if_pos hB]
        rw [hcc]
        exact ⟨⟨⟨[], by simp, fun er her => absurd her (List.not_mem_nil er), fun h => by simp at h⟩,
          ⟨[], by simp⟩, hinv⟩, fun _ => ⟨rfl, hB⟩⟩
      · -- fresh feature: push, process dependencies, pop
        have hinv1 : DfsInv features { st with visiting := st.visiting ++ [f.id] } := by
          refine ⟨?_, ?_, ?_, hinv.2.2.2⟩
          · exact List.Nodup.append hinv.1 (List.nodup_singleton _)
              (fun x hx hx' => hA ((List.mem_singleton.mp hx') ▸ hx))
          · intro x hx
            rcases List.mem_append.mp hx with h1 | h1
            · exact hinv.2.1 x h1
            · exact (List.mem_singleton.mp h1) ▸ List.mem_map_of_mem Feature.id hf
          · intro x hx
            rcases List.mem_append.mp hx with h1 | h1
            · exact hinv.2.2.1 x h1
            · exact (List.mem_singleton.mp h1) ▸ hB
        have hfold : ∀ (deps : List ℕ) (s0 : DfsState), DfsInv features s0 →
            features.length + 1 ≤ fuel + s0.visiting.length →
            DfsProgress features s0 (deps.foldl (dfsStep features fuel) (true, s0)) ∧
            ((deps.foldl (dfsStep features fuel) (true, s0)).1 = true →
              (deps.foldl (dfsStep features fuel) (true, s0)).2.visiting = s0.visiting ∧
              ∀ d ∈ deps, ∀ g, features.find? (fun g2 => g2.id == d) = some g →
                g.id ∈ (deps.foldl (dfsStep features fuel) (true, s0)).2.visited) := by
          intro deps
          induction deps with
          | nil =>
            intro s0 hinv0 hfuel0
            exact ⟨⟨⟨[], by simp, fun er her => absurd her (List.not_mem_nil er),
              fun h => by simp at h⟩, ⟨[], by simp⟩, hinv0⟩,
              fun _ => ⟨rfl, fun d hd => absurd hd (List.not_mem_nil d)⟩⟩
          | cons d rest ihd =>
            intro s0 hinv0 hfuel0
            rw [List.foldl_cons]
            rcases hE : features.find? (fun g2 => g2.id == d) with _ | g
            · have hstep : dfsStep features fuel (true, s0) d = (true, s0) := by
                have h0 : dfsStep features fuel (true, s0) d =
                    (match features.find? (fun g2 => g2.id == d) with
                     | some g => checkCircular features fuel g s0
                     | none => (true, s0)) := rfl
                rw [h0, hE]
              rw [hstep]
              obtain ⟨hprog, htrue⟩ := ihd s0 hinv0 hfuel0
              refine ⟨hprog, fun ht => ?_⟩
              obtain ⟨hvis, hcov⟩ := htrue ht
              refine ⟨hvis, fun d2 hd2 g hg => ?_⟩
              rcases List.mem_cons.mp hd2 with rfl | hd2'
              · rw [hE] at hg
                cases hg
              · exact hcov d2 hd2' g hg
            · have hgmem : g ∈ features := List.mem_of_find?_eq_some hE
              have hstep : dfsStep features fuel (true, s0) d =
                  checkCircular features fuel g s0 := by
                have h0 : dfsStep features fuel (true, s0) d =
                    (match features.find? (fun g2 => g2.id == d) with
                     | some g2 => checkCircular features fuel g2 s0
                     | none => (true, s0)) := rfl
                rw [h0, hE]
              rw [hstep]
              obtain ⟨⟨⟨e1, he1, he1c, he1f⟩, ⟨v1, hv1⟩, hinvm⟩, htc⟩ := ih g s0 hgmem hinv0 hfuel0
              rcases hres : checkCircular features fuel g s0 with ⟨ok, s1⟩
              rw [hres] at he1 hv1 hinvm htc he1f
              cases ok with
              | false =>
                rw [foldl_dfsStep_false]
                exact ⟨⟨⟨e1, he1, he1c, fun _ => he1f rfl⟩, ⟨v1, hv1⟩, hinvm⟩,
                  fun ht => by simp at ht⟩
              | true =>
                obtain ⟨hviseq, hgid⟩ := htc rfl
                have hviseq' : s1.visiting = s0.visiting := hviseq
                have hinvm' : DfsInv features s1 := hinvm
                have he1' : s1.errors = s0.errors ++ e1 := he1
                have hv1' : s1.visited = s0.visited ++ v1 := hv1
                have hgid' : g.id ∈ s1.visited := hgid
                have hfuel1 : features.length + 1 ≤ fuel + s1.visiting.length := by
                  rw [hviseq']
                  exact hfuel0
                obtain ⟨⟨⟨e2, he2, he2c, he2f⟩, ⟨v2, hv2⟩, hinv2⟩, htc2⟩ := ihd s1 hinvm' hfuel1
                refine ⟨⟨⟨e1 ++ e2, ?_, ?_, ?_⟩, ⟨v1 ++ v2, ?_⟩, hinv2⟩, fun ht => ?_⟩
                · rw [he2, he1', List.append_assoc]
                · intro er her
                  rcases List.mem_append.mp her with h | h
                  · exact he1c er h
                  · exact he2c er h
                · intro hfalse hcontra
                  rw [List.append_eq_nil] at hcontra
                  exact he2f hfalse hcontra.2
                · rw [hv2, hv1', List.append_assoc]
                · obtain ⟨hviseq2, hcov2⟩ := htc2 ht
                  refine ⟨by rw [hviseq2]; exact hviseq', fun d2 hd2 g2 hg2 => ?_⟩
                  rcases List.mem_cons.mp hd2 with rfl | hd2'
                  · rw [hE] at hg2
                    injection hg2 with hgg
                    rw [hv2]
                    exact List.mem_append_left _ (hgg ▸ hgid')
                  · exact hcov2 d2 hd2' g2 hg2
        have hfuelst1 : features.length + 1 ≤
            fuel + ({ st with visiting := st.visiting ++ [f.id] } : DfsState).visiting.length := by
          simp only [List.length_append, List.length_singleton]
          omega
        obtain ⟨⟨⟨e1, he1, he1c, he1f⟩, ⟨v1, hv1⟩, hinvr⟩, htcr⟩ :=
          hfold f.dependencies { st with visiting := st.visiting ++ [f.id] } hinv1 hfuelst1
        rcases hres : f.dependencies.foldl (dfsStep features fuel)
            (true, { st with visiting := st.visiting ++ [f.id] }) with ⟨ok, s1⟩
        rw [hres] at he1 hv1 hinvr htcr he1f
        have hcc := checkCircular_fresh features fuel f st hA hB ok s1 hres
        have he1' : s1.errors = st.errors ++ e1 := he1
        have hv1' : s1.visited = st.visited ++ v1 := hv1
        have hinvr' : DfsInv features s1 := hinvr
        cases ok with
        | false =>
          have hcc2 : checkCircular features (fuel + 1) f st = (false, s1) := hcc.trans rfl
          rw [hcc2]
          exact ⟨⟨⟨e1, he1', he1c, fun _ => he1f rfl⟩, ⟨v1, hv1'⟩, hinvr'⟩,
            fun ht => by simp at ht⟩
        | true =>
          have hcc2 : checkCircular features (fuel + 1) f st =
              (true, { s1 with visiting := s1.visiting.erase f.id, visited := s1.visited ++ [f.id] }) := hcc.trans rfl
          obtain ⟨hviseq, hcov⟩ := htcr rfl
          have hvis' : s1.visiting = st.visiting ++ [f.id] := hviseq
          have herase : s1.visiting.erase f.id = st.visiting := by
            rw [hvis']
            exact erase_append_singleton _ _ hA
          have hfid_in : f.id ∈ s1.visiting := by
            rw [hvis']
            exact List.mem_append_right _ (List.mem_singleton_self _)
          have hfid_nvis : f.id ∉ s1.visited := hinvr'.2.2.1 f.id hfid_in
          have hstate : ({ s1 with visiting := s1.visiting.erase f.id, visited := s1.visited ++ [f.id] } : DfsState) =
              ⟨st.visiting, s1.visited ++ [f.id], s1.errors⟩ := by
            rw [herase]
          rw [hcc2, hstate]
          refine ⟨⟨⟨e1, he1', he1c, fun h => by simp at h⟩, ⟨v1 ++ [f.id], ?_⟩, ?_, ?_, ?_, ?_⟩,
            fun _ => ⟨rfl, List.mem_append_right _ (List.mem_singleton_self _)⟩⟩
          · show s1.visited ++ [f.id] = st.visited ++ (v1 ++ [f.id])
            rw [hv1', List.append_assoc]
          · exact hinv.1
          · exact hinv.2.1
          · intro x hx hc
            rcases List.mem_append.mp hc with h1 | h1
            · exact hinvr'.2.2.1 x (by rw [hvis']; exact List.mem_append_left _ hx) h1
            · exact hA ((List.mem_singleton.mp h1) ▸ hx)
          · intro x hx fx hfx d hd g hg
            rcases List.mem_append.mp hx with hxv | hxf
            · obtain ⟨hgm, hlt⟩ := hinvr'.2.2.2 x hxv fx hfx d hd g hg
              refine ⟨List.mem_append_left _ hgm, ?_⟩
              rw [listPos_append_left _ _ _ hgm, listPos_append_left _ _ _ hxv]
              exact hlt
            · have hxid : x = f.id := List.mem_singleton.mp hxf
              subst hxid
              have hfxf : fx = f := by
                have hself := find?_id_self features hnd f hf
                rw [hself] at hfx
                injection hfx with h
                exact h.symm
              subst hfxf
              have hgm : g.id ∈ s1.visited := hcov d hd g hg
              refine ⟨List.mem_append_left _ hgm, ?_⟩
              rw [listPos_append_left _ _ _ hgm, listPos_append_self _ _ hfid_nvis]
              exact listPos_lt_length _ _ hgm

theorem validate_foldl_spec (features : List Feature)
    (hnd : (features.map Feature.id).Nodup) :
    ∀ (L : List Feature) (st : DfsState), (∀ f ∈ L, f ∈ features) → DfsInv features st →
      (∃ etail, (L.foldl (dfsDrive features) st).errors = st.errors ++ etail ∧
        ∀ er ∈ etail, ∃ g, g ∈ features ∧ er = DepError.circular g.name) ∧
      (∃ vtail, (L.foldl (dfsDrive features) st).visited = st.visited ++ vtail) ∧
      DfsInv features (L.foldl (dfsDrive features) st) ∧
      ((L.foldl (dfsDrive features) st).errors = st.errors →
        ∀ f ∈ L, f.id ∈ (L.foldl (dfsDrive features) st).visited) := by
  intro L
  induction L with
  | nil =>
    intro st hsub hinv
    exact ⟨⟨[], by simp, fun er her => absurd her (List.not_mem_nil er)⟩, ⟨[], by simp⟩, hinv,
      fun _ f hf => absurd hf (List.not_mem_nil f)⟩
  | cons f L ihL =>
    intro st hsub hinv
    rw [List.foldl_cons]
    by_cases hv : f.id ∈ st.visited
    · have hstep : dfsDrive features st f = st := by
        unfold dfsDrive
        rw [if_pos hv]
      rw [hstep]
      obtain ⟨he, hvt, hinv', hcov⟩ := ihL st (fun g hg => hsub g (List.mem_cons_of_mem _ hg)) hinv
      refine ⟨he, hvt, hinv', fun hclean g hg => ?_⟩
      rcases List.mem_cons.mp hg with rfl | hg'
      · obtain ⟨vt, hvt'⟩ := hvt
        rw [hvt']
        exact List.mem_append_left _ hv
      · exact hcov hclean g hg'
    · have hstep : dfsDrive features st f =
          (checkCircular features (features.length + 1) f st).2 := by
        unfold dfsDrive
        rw [if_neg hv]
      rw [hstep]
      have hfmem : f ∈ features := hsub f (List.mem_cons_self _ _)
      have hfuel : features.length + 1 ≤ (features.length + 1) + st.visiting.length := by omega
      obtain ⟨⟨e1, he1, he1c, he1f⟩, ⟨v1, hv1⟩, hinv1⟩ :=
        (checkCircular_spec features hnd (features.length + 1) f st hfmem hinv hfuel).1
      have htc := (checkCircular_spec features hnd (features.length + 1) f st hfmem hinv hfuel).2
      obtain ⟨⟨e2, he2, he2c⟩, ⟨v2, hv2⟩, hinv2, hcov2⟩ :=
        ihL (checkCircular features (features.length + 1) f st).2
          (fun g hg => hsub g (List.mem_cons_of_mem _ hg)) hinv1
      refine ⟨⟨e1 ++ e2, by rw [he2, he1, List.append_assoc], ?_⟩,
        ⟨v1 ++ v2, by rw [hv2, hv1, List.append_assoc]⟩, hinv2, fun hclean g hg => ?_⟩
      · intro er her
        rcases List.mem_append.mp her with h | h
        · exact he1c er h
        · exact he2c er h
      · have h0 : st.errors ++ (e1 ++ e2) = st.errors ++ [] := by
          rw [List.append_nil, ← List.append_assoc, ← he1, ← he2]
          exact hclean
        have h00 := List.append_cancel_left h0
        rw [List.append_eq_nil] at h00
        rcases List.mem_cons.mp hg with rfl | hg'
        · have hok : (checkCircular features (features.length + 1) g st).1 = true := by
            rcases Bool.eq_false_or_eq_true
                ((checkCircular features (features.length + 1) g st).1) with hb | hb
            · exact hb
            · exact absurd h00.1 (he1f hb)
          obtain ⟨_, hfid⟩ := htc hok
          rw [hv2]
          exact List.mem_append_left _ hfid
        · exact hcov2 (by rw [he2, h00.2, List.append_nil]) g hg'

theorem goodOrder_no_cycle (features : List Feature)
    (hnd : (features.map Feature.id).Nodup) (visited : List ℕ)
    (hgood : goodOrder features visited)
    (hcover : ∀ f ∈ features, f.id ∈ visited)
    (c : List Feature) (hcne : c ≠ []) (hsub : ∀ f ∈ c, f ∈ features)
    (hcyc : ∀ i, i < c.length → (c.get! ((i + 1) % c.length)).id ∈ (c.get! i).dependencies) :
    False := by
  have hlen : 0 < c.length := List.length_pos.mpr hcne
  have hedge : ∀ i, i < c.length →
      listPos visited ((c.get! ((i + 1) % c.length)).id) < listPos visited ((c.get! i).id) := by
    intro i hi
    have hmi : c.get! i ∈ c := by
      rw [get_bang _ _ hi]
      exact List.getElem_mem _
    have h2 : (i + 1) % c.length < c.length := Nat.mod_lt _ hlen
    have hmn : c.get! ((i + 1) % c.length) ∈ c := by
      rw [get_bang _ _ h2]
      exact List.getElem_mem _
    have hx := hcover _ (hsub _ hmi)
    have hfx := find?_id_self features hnd _ (hsub _ hmi)
    have hg := find?_id_self features hnd _ (hsub _ hmn)
    exact (hgood _ hx _ hfx _ (hcyc i hi) _ hg).2
  have hdesc : ∀ j, j ≤ c.length →
      listPos visited ((c.get! (j % c.length)).id) + j ≤
        listPos visited ((c.get! 0).id) := by
    intro j
    induction j with
    | zero =>
      intro _
      rw [Nat.zero_mod]
      omega
    | succ j ihj =>
      intro hj
      have h1 := ihj (by omega)
      have h2 := hedge (j % c.length) (Nat.mod_lt _ hlen)
      rw [Nat.mod_add_mod] at h2
      omega
  have hfinal := hdesc c.length le_rfl
  rw [Nat.mod_self] at hfinal
  omega

/-- C5: with distinct feature ids, `validateFeatureDependencies` reports
`isValid = false` whenever a feature references a non-existent dependency id
(with a missing-dependency error naming that feature), and whenever the
feature list contains a dependency cycle (in particular a two-feature
`A depends on B depends on A` cycle) the three-color DFS pushes a
circular-dependency error naming an offending feature and reports
`isValid = false`. -/
theorem claim5_validateFeatureDependencies (features : List Feature)
    (hnd : (features.map Feature.id).Nodup) :
    (∀ f ∈ features, ∀ d ∈ f.dependencies, d ∉ features.map (fun f2 => f2.id) →
      (validateFeatureDependencies features).1 = false ∧
      DepError.missingDep f.name d ∈ (validateFeatureDependencies features).2) ∧
    (∀ c : List Feature, c ≠ [] → (∀ f ∈ c, f ∈ features) →
      (∀ i, i < c.length → (c.get! ((i + 1) % c.length)).id ∈ (c.get! i).dependencies) →
      (validateFeatureDependencies features).1 = false ∧
      ∃ g, g ∈ features ∧
        DepError.circular g.name ∈ (validateFeatureDependencies features).2) := by
  have hinv0 : DfsInv features ⟨[], [], missingDepErrors features⟩ :=
    ⟨List.nodup_nil, fun x hx => absurd hx (List.not_mem_nil x),
     fun x hx => absurd hx (List.not_mem_nil x), fun x hx => absurd hx (List.not_mem_nil x)⟩
  obtain ⟨⟨etail, het, hetc⟩, ⟨vtail, hvt⟩, hinvf, hcov⟩ :=
    validate_foldl_spec features hnd features ⟨[], [], missingDepErrors features⟩
      (fun f hf => hf) hinv0
  have hval : validateFeatureDependencies features =
      (decide ((features.foldl (dfsDrive features)
          ⟨[], [], missingDepErrors features⟩).errors.length = 0),
       (features.foldl (dfsDrive features) ⟨[], [], missingDepErrors features⟩).errors) := rfl
  constructor
  · intro f hf d hd hmiss
    have hm : DepError.missingDep f.name d ∈ missingDepErrors features := by
      unfold missingDepErrors
      refine List.mem_flatMap.mpr ⟨f, hf, List.mem_filterMap.mpr ⟨d, hd, ?_⟩⟩
      rw [if_neg hmiss]
    have hmem : DepError.missingDep f.name d ∈
        (features.foldl (dfsDrive features) ⟨[], [], missingDepErrors features⟩).errors := by
      rw [het]
      exact List.mem_append_left _ hm
    refine ⟨?_, ?_⟩
    · rw [hval]
      refine decide_eq_false ?_
      intro h0
      rw [List.length_eq_zero] at h0
      rw [h0] at hmem
      exact absurd hmem (List.not_mem_nil _)
    · rw [hval]
      exact hmem
  · intro c hcne hcsub hcyc
    by_cases hcl : etail = []
    · exfalso
      have hclean : (features.foldl (dfsDrive features)
          ⟨[], [], missingDepErrors features⟩).errors =
          (⟨[], [], missingDepErrors features⟩ : DfsState).errors := by
        rw [het, hcl, List.append_nil]
      exact goodOrder_no_cycle features hnd _ hinvf.2.2.2
        (fun f hf => hcov hclean f hf) c hcne hcsub hcyc
    · obtain ⟨er, her⟩ := List.exists_mem_of_ne_nil etail hcl
      obtain ⟨g, hgmem, hger⟩ := hetc er her
      have hmem : DepError.circular g.name ∈
          (features.foldl (dfsDrive features) ⟨[], [], missingDepErrors features⟩).errors := by
        rw [het]
        exact List.mem_append_right _ (hger ▸ her)
      refine ⟨?_, g, hgmem, by rw [hval]; exact hmem⟩
      rw [hval]
      refine decide_eq_false ?_
      intro h0
      rw [List.length_eq_zero] at h0
      rw [h0] at hmem
      exact absurd hmem (List.not_mem_nil _)

theorem claim5_validateFeatureDependencies_witness :
    (validateFeatureDependencies cycleFeatures).1 = false ∧
    ∃ g, g ∈ cycleFeatures ∧
      DepError.circular g.name ∈ (validateFeatureDependencies cycleFeatures).2 :=
  (claim5_validateFeatureDependencies cycleFeatures (by decide)).2 cycleFeatures
    (by decide) (fun f hf => hf) (by decide)

end CadKernel
